import Mathlib

/-!
Lumix editor property descriptors and notification list

A shallow embedding of `src/editor/property_descriptor.h`: the descriptors that move one
field of a component between a host scene and a byte blob.

* The host scene is an arbitrary type `S`.  A bound entry point (a C++ pointer to a
  non-const member function of `S`) is a function on `S` that also returns the scene it
  leaves behind, so that every invocation of an entry point is visible in the result.
* `int` is `Int` with explicit 32-bit wrapping; `float` is its 4-byte object
  representation (the descriptors only copy floats, they never compute with them).
* Everything that aborts or has no defined behaviour in C++ is a `Fault`.
-/

namespace Lumix

/-! ## Bytes, machine values and their object representation -/

/-- One byte of memory or of a blob. -/
abbrev Byte := Fin 256

/-- The value range of the 32-bit `int`. -/
def isInt32 (i : Int) : Prop := -2147483648 ≤ i ∧ i < 2147483648

instance (i : Int) : Decidable (isInt32 i) := by
  unfold isInt32; exact inferInstance

/-- Two's-complement wrap-around of an `int` computation. -/
def wrapInt32 (i : Int) : Int := (i + 2147483648) % 4294967296 - 2147483648

/-- Byte number `k` (little endian) of an unsigned number. -/
def byteAt (n : Nat) (k : Nat) : Byte := ⟨(n / 256 ^ k) % 256, Nat.mod_lt _ (by decide)⟩

/-- The 4-byte object representation of an `int` (two's complement, little endian as in §6
of the specification). -/
def int32ToBytes (i : Int) : List Byte :=
  let u : Nat := (i % 4294967296).toNat
  [byteAt u 0, byteAt u 1, byteAt u 2, byteAt u 3]

/-- The `int` whose object representation is the given 4 bytes. -/
def bytesToInt32 (bs : List Byte) : Int :=
  match bs with
  | [b0, b1, b2, b3] =>
    let u : Nat := b0.val + 256 * b1.val + 65536 * b2.val + 16777216 * b3.val
    if u < 2147483648 then (u : Int) else (u : Int) - 4294967296
  | _ => 0

/-- A `float`, held as the 4 bytes of its object representation. -/
structure Float32 where
  b0 : Byte
  b1 : Byte
  b2 : Byte
  b3 : Byte
deriving DecidableEq, Repr

/-- The float literal `0` (all bits clear). -/
def Float32.zero : Float32 := ⟨0, 0, 0, 0⟩

def Float32.toBytes (f : Float32) : List Byte := [f.b0, f.b1, f.b2, f.b3]

def Float32.ofBytes (bs : List Byte) : Float32 :=
  match bs with
  | [b0, b1, b2, b3] => ⟨b0, b1, b2, b3⟩
  | _ => Float32.zero

/-- The 1-byte object representation of a `bool`. -/
def boolToBytes (b : Bool) : List Byte := [if b then 1 else 0]

/-- The `bool` read back from one byte. -/
def bytesToBool (bs : List Byte) : Bool :=
  match bs with
  | [b] => decide (b ≠ 0)
  | _ => false

/-- Modelled from the spec: `Vec2` (core/vec.h is not part of the excerpt), "N consecutive
4-byte floats for vectors". -/
structure Vec2 where
  x : Float32
  y : Float32
deriving DecidableEq, Repr

/-- Modelled from the spec: `Vec3`, three consecutive 4-byte floats. -/
structure Vec3 where
  x : Float32
  y : Float32
  z : Float32
deriving DecidableEq, Repr

/-- Modelled from the spec: `Vec4`, four consecutive 4-byte floats. -/
structure Vec4 where
  x : Float32
  y : Float32
  z : Float32
  w : Float32
deriving DecidableEq, Repr

def Vec2.toBytes (v : Vec2) : List Byte := v.x.toBytes ++ v.y.toBytes

def Vec2.ofBytes (bs : List Byte) : Vec2 :=
  ⟨Float32.ofBytes (bs.take 4), Float32.ofBytes ((bs.drop 4).take 4)⟩

def Vec3.toBytes (v : Vec3) : List Byte := v.x.toBytes ++ v.y.toBytes ++ v.z.toBytes

def Vec3.ofBytes (bs : List Byte) : Vec3 :=
  ⟨Float32.ofBytes (bs.take 4), Float32.ofBytes ((bs.drop 4).take 4),
    Float32.ofBytes ((bs.drop 8).take 4)⟩

def Vec4.toBytes (v : Vec4) : List Byte :=
  v.x.toBytes ++ v.y.toBytes ++ v.z.toBytes ++ v.w.toBytes

def Vec4.ofBytes (bs : List Byte) : Vec4 :=
  ⟨Float32.ofBytes (bs.take 4), Float32.ofBytes ((bs.drop 4).take 4),
    Float32.ofBytes ((bs.drop 8).take 4), Float32.ofBytes ((bs.drop 12).take 4)⟩

/-! ## Blobs -/

/-- Modelled from the spec: `InputBlob` (core/blob.h is not part of the excerpt), "a
sequential-read input cursor over a byte buffer". -/
structure InputBlob where
  data : List Byte
  pos : Nat
deriving DecidableEq, Repr

/-- Modelled from the spec: `OutputBlob`, "an append-only output cursor". -/
structure OutputBlob where
  data : List Byte
deriving DecidableEq, Repr

/-- Modelled from the spec: `InputBlob::read(ptr, size)` hands out the next `size` bytes and
advances the cursor; a read past the end of the buffer is not described and yields `none`. -/
def InputBlob.read (stream : InputBlob) (size : Nat) : Option (List Byte × InputBlob) :=
  if stream.pos + size ≤ stream.data.length then
    some ((stream.data.drop stream.pos).take size, ⟨stream.data, stream.pos + size⟩)
  else none

/-- Modelled from the spec: `OutputBlob::write(ptr, size)` appends the bytes. -/
def OutputBlob.write (stream : OutputBlob) (bytes : List Byte) : OutputBlob :=
  ⟨stream.data ++ bytes⟩

/-- A fresh output blob. -/
def OutputBlob.empty : OutputBlob := ⟨[]⟩

/-- An input blob positioned at the start of the given bytes. -/
def InputBlob.over (bytes : List Byte) : InputBlob := ⟨bytes, 0⟩

/-! ## Faults and the descriptor interface -/

/-- The ways a descriptor call leaves defined behaviour. -/
inductive Fault
  /-- The check `ASSERT(index == -1)` failed. -/
  | assertion
  /-- The input blob had fewer bytes left than the read asked for. -/
  | endOfStream
  /-- A byte taken from the blob was stored at `tmp[index]` with
  `index ≥ MAX_STRING_SIZE`; `stream` is the blob as that read left it. -/
  | bufferOverrun (index : Nat) (stream : InputBlob)
  /-- The character buffer handed to a string setter holds no zero byte. -/
  | unterminated
  /-- A call through a member pointer the constructor did not populate. -/
  | unboundEntryPoint
  /-- A `while` loop was still running when the iteration budget ran out. -/
  | outOfFuel
deriving DecidableEq, Repr

/-- The struct `ComponentUID`: the scene and the index of the component in that scene. -/
structure ComponentUID (S : Type) where
  scene : S
  index : Int

/-- The interface `IPropertyDescriptor`: the two virtual operations.  `set` returns the scene and the
input blob as the call leaves them, `get` the scene and the output blob. -/
structure IPropertyDescriptor (S : Type) where
  set : ComponentUID S → Int → InputBlob → Except Fault (S × InputBlob)
  get : ComponentUID S → Int → OutputBlob → Except Fault (S × OutputBlob)

/-! ## IntPropertyDescriptor -/

/-- The class `IntPropertyDescriptor<S>`: the anonymous union holds either the scalar pair
(`m_single`, first constructor) or the array-element pair (`m_array`, second constructor). -/
inductive IntPropertyDescriptor (S : Type) where
  | single (getter : S → Int → Int × S) (setter : S → Int → Int → S)
  | array (getter : S → Int → Int → Int × S) (setter : S → Int → Int → Int → S)

/-- The method `IntPropertyDescriptor::set`. -/
def IntPropertyDescriptor.set {S : Type} (d : IntPropertyDescriptor S)
    (cmp : ComponentUID S) (index : Int) (stream : InputBlob) :
    Except Fault (S × InputBlob) :=
  match stream.read 4 with
  | none => .error .endOfStream
  | some (bytes, stream1) =>
    let i := bytesToInt32 bytes
    if index < 0 then
      match d with
      | .single _ setter => .ok (setter cmp.scene cmp.index i, stream1)
      | .array _ _ => .error .unboundEntryPoint
    else
      match d with
      | .single _ _ => .error .unboundEntryPoint
      | .array _ setter => .ok (setter cmp.scene cmp.index index i, stream1)

/-- The method `IntPropertyDescriptor::get`. -/
def IntPropertyDescriptor.get {S : Type} (d : IntPropertyDescriptor S)
    (cmp : ComponentUID S) (index : Int) (stream : OutputBlob) :
    Except Fault (S × OutputBlob) :=
  if index < 0 then
    match d with
    | .single getter _ =>
      let r := getter cmp.scene cmp.index
      .ok (r.2, stream.write (int32ToBytes r.1))
    | .array _ _ => .error .unboundEntryPoint
  else
    match d with
    | .single _ _ => .error .unboundEntryPoint
    | .array getter _ =>
      let r := getter cmp.scene cmp.index index
      .ok (r.2, stream.write (int32ToBytes r.1))

/-! ## Bool, Vec2, Vec3, Vec4, Color, Enum -/

/-- The class `BoolPropertyDescriptor<S>`. -/
structure BoolPropertyDescriptor (S : Type) where
  m_getter : S → Int → Bool × S
  m_setter : S → Int → Bool → S

/-- The method `BoolPropertyDescriptor::set`. -/
def BoolPropertyDescriptor.set {S : Type} (d : BoolPropertyDescriptor S)
    (cmp : ComponentUID S) (index : Int) (stream : InputBlob) :
    Except Fault (S × InputBlob) :=
  if index ≠ -1 then .error .assertion
  else
    match stream.read 1 with
    | none => .error .endOfStream
    | some (bytes, stream1) => .ok (d.m_setter cmp.scene cmp.index (bytesToBool bytes), stream1)

/-- The method `BoolPropertyDescriptor::get`. -/
def BoolPropertyDescriptor.get {S : Type} (d : BoolPropertyDescriptor S)
    (cmp : ComponentUID S) (index : Int) (stream : OutputBlob) :
    Except Fault (S × OutputBlob) :=
  if index ≠ -1 then .error .assertion
  else
    let r := d.m_getter cmp.scene cmp.index
    .ok (r.2, stream.write (boolToBytes r.1))

/-- The class `Vec3PropertyDescriptor<S>`. -/
structure Vec3PropertyDescriptor (S : Type) where
  m_getter : S → Int → Vec3 × S
  m_setter : S → Int → Vec3 → S

/-- The method `Vec3PropertyDescriptor::set`. -/
def Vec3PropertyDescriptor.set {S : Type} (d : Vec3PropertyDescriptor S)
    (cmp : ComponentUID S) (index : Int) (stream : InputBlob) :
    Except Fault (S × InputBlob) :=
  if index ≠ -1 then .error .assertion
  else
    match stream.read 12 with
    | none => .error .endOfStream
    | some (bytes, stream1) => .ok (d.m_setter cmp.scene cmp.index (Vec3.ofBytes bytes), stream1)

/-- The method `Vec3PropertyDescriptor::get`. -/
def Vec3PropertyDescriptor.get {S : Type} (d : Vec3PropertyDescriptor S)
    (cmp : ComponentUID S) (index : Int) (stream : OutputBlob) :
    Except Fault (S × OutputBlob) :=
  if index ≠ -1 then .error .assertion
  else
    let r := d.m_getter cmp.scene cmp.index
    .ok (r.2, stream.write r.1.toBytes)

/-- The class `Vec4PropertyDescriptor<S>`. -/
structure Vec4PropertyDescriptor (S : Type) where
  m_getter : S → Int → Vec4 × S
  m_setter : S → Int → Vec4 → S

/-- The method `Vec4PropertyDescriptor::set`. -/
def Vec4PropertyDescriptor.set {S : Type} (d : Vec4PropertyDescriptor S)
    (cmp : ComponentUID S) (index : Int) (stream : InputBlob) :
    Except Fault (S × InputBlob) :=
  if index ≠ -1 then .error .assertion
  else
    match stream.read 16 with
    | none => .error .endOfStream
    | some (bytes, stream1) => .ok (d.m_setter cmp.scene cmp.index (Vec4.ofBytes bytes), stream1)

/-- The method `Vec4PropertyDescriptor::get`. -/
def Vec4PropertyDescriptor.get {S : Type} (d : Vec4PropertyDescriptor S)
    (cmp : ComponentUID S) (index : Int) (stream : OutputBlob) :
    Except Fault (S × OutputBlob) :=
  if index ≠ -1 then .error .assertion
  else
    let r := d.m_getter cmp.scene cmp.index
    .ok (r.2, stream.write r.1.toBytes)

/-- The class `Vec2PropertyDescriptor<S>`. -/
structure Vec2PropertyDescriptor (S : Type) where
  m_getter : S → Int → Vec2 × S
  m_setter : S → Int → Vec2 → S

/-- The method `Vec2PropertyDescriptor::set`. -/
def Vec2PropertyDescriptor.set {S : Type} (d : Vec2PropertyDescriptor S)
    (cmp : ComponentUID S) (index : Int) (stream : InputBlob) :
    Except Fault (S × InputBlob) :=
  if index ≠ -1 then .error .assertion
  else
    match stream.read 8 with
    | none => .error .endOfStream
    | some (bytes, stream1) => .ok (d.m_setter cmp.scene cmp.index (Vec2.ofBytes bytes), stream1)

/-- The method `Vec2PropertyDescriptor::get`. -/
def Vec2PropertyDescriptor.get {S : Type} (d : Vec2PropertyDescriptor S)
    (cmp : ComponentUID S) (index : Int) (stream : OutputBlob) :
    Except Fault (S × OutputBlob) :=
  if index ≠ -1 then .error .assertion
  else
    let r := d.m_getter cmp.scene cmp.index
    .ok (r.2, stream.write r.1.toBytes)

/-- The class `ColorPropertyDescriptor<S>`: a colour is a `Vec3`. -/
structure ColorPropertyDescriptor (S : Type) where
  m_getter : S → Int → Vec3 × S
  m_setter : S → Int → Vec3 → S

/-- The method `ColorPropertyDescriptor::set`. -/
def ColorPropertyDescriptor.set {S : Type} (d : ColorPropertyDescriptor S)
    (cmp : ComponentUID S) (index : Int) (stream : InputBlob) :
    Except Fault (S × InputBlob) :=
  if index ≠ -1 then .error .assertion
  else
    match stream.read 12 with
    | none => .error .endOfStream
    | some (bytes, stream1) => .ok (d.m_setter cmp.scene cmp.index (Vec3.ofBytes bytes), stream1)

/-- The method `ColorPropertyDescriptor::get`. -/
def ColorPropertyDescriptor.get {S : Type} (d : ColorPropertyDescriptor S)
    (cmp : ComponentUID S) (index : Int) (stream : OutputBlob) :
    Except Fault (S × OutputBlob) :=
  if index ≠ -1 then .error .assertion
  else
    let r := d.m_getter cmp.scene cmp.index
    .ok (r.2, stream.write r.1.toBytes)

/-- The class `EnumPropertyDescriptor<S>`; the two presentation queries work on the scene alone. -/
structure EnumPropertyDescriptor (S : Type) where
  m_getter : S → Int → Int × S
  m_setter : S → Int → Int → S
  m_enum_count_getter : S → Int
  m_enum_name_getter : S → Int → List Byte × S

/-- The method `EnumPropertyDescriptor::set`. -/
def EnumPropertyDescriptor.set {S : Type} (d : EnumPropertyDescriptor S)
    (cmp : ComponentUID S) (index : Int) (stream : InputBlob) :
    Except Fault (S × InputBlob) :=
  if index ≠ -1 then .error .assertion
  else
    match stream.read 4 with
    | none => .error .endOfStream
    | some (bytes, stream1) => .ok (d.m_setter cmp.scene cmp.index (bytesToInt32 bytes), stream1)

/-- The method `EnumPropertyDescriptor::get`. -/
def EnumPropertyDescriptor.get {S : Type} (d : EnumPropertyDescriptor S)
    (cmp : ComponentUID S) (index : Int) (stream : OutputBlob) :
    Except Fault (S × OutputBlob) :=
  if index ≠ -1 then .error .assertion
  else
    let r := d.m_getter cmp.scene cmp.index
    .ok (r.2, stream.write (int32ToBytes r.1))

/-! ## DecimalPropertyDescriptor -/

/-- The class `DecimalPropertyDescriptor<S>`: four member pointers, of which each
constructor populates one pair and sets the other pair to `nullptr` (`none`). -/
structure DecimalPropertyDescriptor (S : Type) where
  m_getter : Option (S → Int → Float32 × S)
  m_setter : Option (S → Int → Float32 → S)
  m_array_getter : Option (S → Int → Int → Float32 × S)
  m_array_setter : Option (S → Int → Int → Float32 → S)

/-- The first constructor of `DecimalPropertyDescriptor` (scalar getter and setter). -/
def DecimalPropertyDescriptor.scalar {S : Type} (getter : S → Int → Float32 × S)
    (setter : S → Int → Float32 → S) : DecimalPropertyDescriptor S :=
  ⟨some getter, some setter, none, none⟩

/-- The second constructor of `DecimalPropertyDescriptor` (array-element getter and setter). -/
def DecimalPropertyDescriptor.array {S : Type} (getter : S → Int → Int → Float32 × S)
    (setter : S → Int → Int → Float32 → S) : DecimalPropertyDescriptor S :=
  ⟨none, none, some getter, some setter⟩

/-- The method `DecimalPropertyDescriptor::set`. -/
def DecimalPropertyDescriptor.set {S : Type} (d : DecimalPropertyDescriptor S)
    (cmp : ComponentUID S) (index : Int) (stream : InputBlob) :
    Except Fault (S × InputBlob) :=
  match stream.read 4 with
  | none => .error .endOfStream
  | some (bytes, stream1) =>
    let f := Float32.ofBytes bytes
    if index ≥ 0 then
      match d.m_array_setter with
      | none => .error .unboundEntryPoint
      | some setter => .ok (setter cmp.scene cmp.index index f, stream1)
    else
      match d.m_setter with
      | none => .error .unboundEntryPoint
      | some setter => .ok (setter cmp.scene cmp.index f, stream1)

/-- The method `DecimalPropertyDescriptor::get`: `f` is initialised to `0`, the getter is
called as an expression statement, and `f` is written. -/
def DecimalPropertyDescriptor.get {S : Type} (d : DecimalPropertyDescriptor S)
    (cmp : ComponentUID S) (index : Int) (stream : OutputBlob) :
    Except Fault (S × OutputBlob) :=
  let f := Float32.zero
  if index ≥ 0 then
    match d.m_array_getter with
    | none => .error .unboundEntryPoint
    | some getter =>
      let r := getter cmp.scene cmp.index index
      .ok (r.2, stream.write f.toBytes)
  else
    match d.m_getter with
    | none => .error .unboundEntryPoint
    | some getter =>
      let r := getter cmp.scene cmp.index
      .ok (r.2, stream.write f.toBytes)

/-! ## String descriptors -/

/-- The constant `MAX_STRING_SIZE` of both string descriptors. -/
def MAX_STRING_SIZE : Nat := 300

/-- The characters of the zero-terminated string that starts at the head of `mem`, or
`none` when `mem` holds no zero byte. -/
def cstring : List Byte → Option (List Byte)
  | [] => none
  | b :: rest => if b = 0 then some [] else (cstring rest).map (fun cs => b :: cs)

/-- What `string::operator=(const char*)` copies from a getter result: the characters in
front of the first zero byte. -/
def stringOf (chars : List Byte) : List Byte := chars.takeWhile (fun b => b ≠ 0)

/-- The `do ... while` loop of `set`.  `tmp` is the part of `char tmp[MAX_STRING_SIZE]`
stored so far, so `c - tmp = tmp.length`, and `room = MAX_STRING_SIZE - (c - tmp)` is the
number of cells of `tmp` from `c` on.  One iteration reads a byte from the blob, stores it
at `*c` (a fault when `c` is past the last cell), and goes on while the byte is non-zero
and its index is below `MAX_STRING_SIZE`. -/
def readChars : (room : Nat) → (tmp : List Byte) → (stream : InputBlob) →
    Except Fault (List Byte × InputBlob)
  | room, tmp, stream =>
    match stream.read 1 with
    | none => .error .endOfStream
    | some (bytes, stream1) =>
      match room with
      | 0 => .error (.bufferOverrun tmp.length stream1)
      | room1 + 1 =>
        if bytes ≠ [0] ∧ tmp.length < MAX_STRING_SIZE then
          readChars room1 (tmp ++ bytes) stream1
        else .ok (tmp ++ bytes, stream1)

/-- The class `StringPropertyDescriptor<S>`; a `const char*` is the list of its characters. -/
structure StringPropertyDescriptor (S : Type) where
  m_getter : S → Int → List Byte × S
  m_setter : S → Int → List Byte → S

/-- The method `StringPropertyDescriptor::set`. -/
def StringPropertyDescriptor.set {S : Type} (d : StringPropertyDescriptor S)
    (cmp : ComponentUID S) (index : Int) (stream : InputBlob) :
    Except Fault (S × InputBlob) :=
  if index ≠ -1 then .error .assertion
  else
    match readChars MAX_STRING_SIZE [] stream with
    | .error e => .error e
    | .ok (tmp, stream1) =>
      match cstring tmp with
      | none => .error .unterminated
      | some chars => .ok (d.m_setter cmp.scene cmp.index chars, stream1)

/-- The method `StringPropertyDescriptor::get`. -/
def StringPropertyDescriptor.get {S : Type} (d : StringPropertyDescriptor S)
    (cmp : ComponentUID S) (index : Int) (stream : OutputBlob) :
    Except Fault (S × OutputBlob) :=
  if index ≠ -1 then .error .assertion
  else
    let r := d.m_getter cmp.scene cmp.index
    let value := stringOf r.1
    .ok (r.2, stream.write (value ++ [0]))

/-- The class `StringArrayObjectDescriptor<S>`: the string field of one array item. -/
structure StringArrayObjectDescriptor (S : Type) where
  m_getter : S → Int → Int → List Byte × S
  m_setter : S → Int → Int → List Byte → S

/-- The method `StringArrayObjectDescriptor::set`. -/
def StringArrayObjectDescriptor.set {S : Type} (d : StringArrayObjectDescriptor S)
    (cmp : ComponentUID S) (index : Int) (stream : InputBlob) :
    Except Fault (S × InputBlob) :=
  match readChars MAX_STRING_SIZE [] stream with
  | .error e => .error e
  | .ok (tmp, stream1) =>
    match cstring tmp with
    | none => .error .unterminated
    | some chars => .ok (d.m_setter cmp.scene cmp.index index chars, stream1)

/-- The method `StringArrayObjectDescriptor::get`. -/
def StringArrayObjectDescriptor.get {S : Type} (d : StringArrayObjectDescriptor S)
    (cmp : ComponentUID S) (index : Int) (stream : OutputBlob) :
    Except Fault (S × OutputBlob) :=
  let r := d.m_getter cmp.scene cmp.index index
  let value := stringOf r.1
  .ok (r.2, stream.write (value ++ [0]))

/-! ## SampledFunctionDescriptor -/

/-- The class `SampledFunctionDescriptor<S, COUNT>`. -/
structure SampledFunctionDescriptor (S : Type) where
  COUNT : Int
  m_getter : S → Int → Int → Float32 × S
  m_setter : S → Int → Int → Float32 → S
  m_min : Float32
  m_max : Float32

/-- The `for` loop of `SampledFunctionDescriptor::set`, `n` iterations from index `i` on. -/
def SampledFunctionDescriptor.setLoop {S : Type} (d : SampledFunctionDescriptor S)
    (cmpIndex : Int) : (n : Nat) → (i : Int) → S → InputBlob → Except Fault (S × InputBlob)
  | 0, _, scene, stream => .ok (scene, stream)
  | n + 1, i, scene, stream =>
    match stream.read 4 with
    | none => .error .endOfStream
    | some (bytes, stream1) =>
      d.setLoop cmpIndex n (i + 1) (d.m_setter scene cmpIndex i (Float32.ofBytes bytes)) stream1

/-- The method `SampledFunctionDescriptor::set`. -/
def SampledFunctionDescriptor.set {S : Type} (d : SampledFunctionDescriptor S)
    (cmp : ComponentUID S) (index : Int) (stream : InputBlob) :
    Except Fault (S × InputBlob) :=
  if index ≠ -1 then .error .assertion
  else d.setLoop cmp.index d.COUNT.toNat 0 cmp.scene stream

/-- The `for` loop of `SampledFunctionDescriptor::get`, `n` iterations from index `i` on. -/
def SampledFunctionDescriptor.getLoop {S : Type} (d : SampledFunctionDescriptor S)
    (cmpIndex : Int) : (n : Nat) → (i : Int) → S → OutputBlob → S × OutputBlob
  | 0, _, scene, stream => (scene, stream)
  | n + 1, i, scene, stream =>
    let r := d.m_getter scene cmpIndex i
    d.getLoop cmpIndex n (i + 1) r.2 (stream.write r.1.toBytes)

/-- The method `SampledFunctionDescriptor::get`. -/
def SampledFunctionDescriptor.get {S : Type} (d : SampledFunctionDescriptor S)
    (cmp : ComponentUID S) (index : Int) (stream : OutputBlob) :
    Except Fault (S × OutputBlob) :=
  if index ≠ -1 then .error .assertion
  else .ok (d.getLoop cmp.index d.COUNT.toNat 0 cmp.scene stream)

/-! ## ArrayDescriptor -/

/-- The class `ArrayDescriptor<S>`: the bound counter, adder and remover, and the children
of `IArrayDescriptor` in their fixed order. -/
structure ArrayDescriptor (S : Type) where
  m_counter : S → Int → Int × S
  m_adder : S → Int → Int → S
  m_remover : S → Int → Int → S
  m_children : List (IPropertyDescriptor S)

/-- The method `ArrayDescriptor::getCount`. -/
def ArrayDescriptor.getCount {S : Type} (d : ArrayDescriptor S) (cmp : ComponentUID S) :
    Int × S :=
  d.m_counter cmp.scene cmp.index

/-- The method `ArrayDescriptor::addArrayItem`. -/
def ArrayDescriptor.addArrayItem {S : Type} (d : ArrayDescriptor S) (cmp : ComponentUID S)
    (index : Int) : S :=
  d.m_adder cmp.scene cmp.index index

/-- The method `ArrayDescriptor::removeArrayItem`. -/
def ArrayDescriptor.removeArrayItem {S : Type} (d : ArrayDescriptor S)
    (cmp : ComponentUID S) (index : Int) : S :=
  d.m_remover cmp.scene cmp.index index

/-- The loop `while (getCount(cmp) < count) addArrayItem(cmp, -1);` of `set`; `fuel` bounds
the number of times the guard is evaluated. -/
def ArrayDescriptor.growLoop {S : Type} (d : ArrayDescriptor S) (cmpIndex : Int)
    (count : Int) : (fuel : Nat) → S → Except Fault S
  | 0, _ => .error .outOfFuel
  | fuel + 1, scene =>
    let r := d.getCount ⟨scene, cmpIndex⟩
    if r.1 < count then
      d.growLoop cmpIndex count fuel (d.addArrayItem ⟨r.2, cmpIndex⟩ (-1))
    else .ok r.2

/-- The loop `while (getCount(cmp) > count) removeArrayItem(cmp, getCount(cmp) - 1);` of
`set`; `fuel` bounds the number of times the guard is evaluated. -/
def ArrayDescriptor.shrinkLoop {S : Type} (d : ArrayDescriptor S) (cmpIndex : Int)
    (count : Int) : (fuel : Nat) → S → Except Fault S
  | 0, _ => .error .outOfFuel
  | fuel + 1, scene =>
    let r := d.getCount ⟨scene, cmpIndex⟩
    if r.1 > count then
      let r2 := d.getCount ⟨r.2, cmpIndex⟩
      d.shrinkLoop cmpIndex count fuel (d.removeArrayItem ⟨r2.2, cmpIndex⟩ (wrapInt32 (r2.1 - 1)))
    else .ok r.2

/-- The inner loop `for (j ...) getChildren()[j]->set(cmp, i, stream);`. -/
def ArrayDescriptor.setChildren {S : Type} (cmpIndex : Int) (i : Int) :
    List (IPropertyDescriptor S) → S → InputBlob → Except Fault (S × InputBlob)
  | [], scene, stream => .ok (scene, stream)
  | child :: rest, scene, stream =>
    match child.set ⟨scene, cmpIndex⟩ i stream with
    | .error e => .error e
    | .ok (scene1, stream1) => ArrayDescriptor.setChildren cmpIndex i rest scene1 stream1

/-- The outer loop `for (int i = ...; i < count; ++i)` of `set`, `n` iterations from `i` on. -/
def ArrayDescriptor.setItems {S : Type} (children : List (IPropertyDescriptor S))
    (cmpIndex : Int) : (n : Nat) → (i : Int) → S → InputBlob → Except Fault (S × InputBlob)
  | 0, _, scene, stream => .ok (scene, stream)
  | n + 1, i, scene, stream =>
    match ArrayDescriptor.setChildren cmpIndex i children scene stream with
    | .error e => .error e
    | .ok (scene1, stream1) =>
      ArrayDescriptor.setItems children cmpIndex n (i + 1) scene1 stream1

/-- The method `ArrayDescriptor::set`; `fuel` is the iteration budget of each `while` loop. -/
def ArrayDescriptor.set {S : Type} (fuel : Nat) (d : ArrayDescriptor S)
    (cmp : ComponentUID S) (index : Int) (stream : InputBlob) :
    Except Fault (S × InputBlob) :=
  if index ≠ -1 then .error .assertion
  else
    match stream.read 4 with
    | none => .error .endOfStream
    | some (bytes, stream1) =>
      let count := bytesToInt32 bytes
      match d.growLoop cmp.index count fuel cmp.scene with
      | .error e => .error e
      | .ok scene1 =>
        match d.shrinkLoop cmp.index count fuel scene1 with
        | .error e => .error e
        | .ok scene2 =>
          ArrayDescriptor.setItems d.m_children cmp.index count.toNat 0 scene2 stream1

/-- The inner loop `for (j ...) getChildren()[j]->get(cmp, i, stream);`. -/
def ArrayDescriptor.getChildren {S : Type} (cmpIndex : Int) (i : Int) :
    List (IPropertyDescriptor S) → S → OutputBlob → Except Fault (S × OutputBlob)
  | [], scene, stream => .ok (scene, stream)
  | child :: rest, scene, stream =>
    match child.get ⟨scene, cmpIndex⟩ i stream with
    | .error e => .error e
    | .ok (scene1, stream1) => ArrayDescriptor.getChildren cmpIndex i rest scene1 stream1

/-- The outer loop `for (int i = ...; i < count; ++i)` of `get`, `n` iterations from `i` on. -/
def ArrayDescriptor.getItems {S : Type} (children : List (IPropertyDescriptor S))
    (cmpIndex : Int) : (n : Nat) → (i : Int) → S → OutputBlob → Except Fault (S × OutputBlob)
  | 0, _, scene, stream => .ok (scene, stream)
  | n + 1, i, scene, stream =>
    match ArrayDescriptor.getChildren cmpIndex i children scene stream with
    | .error e => .error e
    | .ok (scene1, stream1) =>
      ArrayDescriptor.getItems children cmpIndex n (i + 1) scene1 stream1

/-- The method `ArrayDescriptor::get`. -/
def ArrayDescriptor.get {S : Type} (d : ArrayDescriptor S)
    (cmp : ComponentUID S) (index : Int) (stream : OutputBlob) :
    Except Fault (S × OutputBlob) :=
  if index ≠ -1 then .error .assertion
  else
    let r := d.getCount cmp
    let count := r.1
    ArrayDescriptor.getItems d.m_children cmp.index count.toNat 0 r.2
      (stream.write (int32ToBytes count))

/-! ## Descriptors behind the `IPropertyDescriptor` interface -/

/-- An `IntPropertyDescriptor` seen through its base-class pointer. -/
def IntPropertyDescriptor.toBase {S : Type} (d : IntPropertyDescriptor S) :
    IPropertyDescriptor S := ⟨d.set, d.get⟩

/-- A `StringArrayObjectDescriptor` seen through its base-class pointer. -/
def StringArrayObjectDescriptor.toBase {S : Type} (d : StringArrayObjectDescriptor S) :
    IPropertyDescriptor S := ⟨d.set, d.get⟩

/-! ## Item-major order -/

/-- The order of §4.7 of the specification, "item-major, field-minor": all children for
item 0 in child order, then all children for item 1, and so on up to item `n - 1`. -/
def itemMajorOrder {S : Type} (n : Nat) (children : List (IPropertyDescriptor S)) :
    List (Nat × IPropertyDescriptor S) :=
  (List.range n).flatMap (fun i => children.map (fun child => (i, child)))

/-- Calls `get(cmp, i, stream)` of each listed child, one after the other in list order,
each on the scene and the blob the previous call left. -/
def getInOrder {S : Type} (cmpIndex : Int) :
    List (Nat × IPropertyDescriptor S) → S → OutputBlob → Except Fault (S × OutputBlob)
  | [], scene, stream => .ok (scene, stream)
  | (i, child) :: rest, scene, stream =>
    match child.get ⟨scene, cmpIndex⟩ i stream with
    | .error e => .error e
    | .ok (scene1, stream1) => getInOrder cmpIndex rest scene1 stream1

/-! ## An example host -/

/-- One item of the example host: an int field and a string field. -/
structure Item where
  id : Int
  name : List Byte
deriving DecidableEq, Repr

/-- The item a newly added array element starts as. -/
def Item.fresh : Item := ⟨0, []⟩

/-- The counter of the example host, a scene that is a list of items. -/
def Item.count (scene : List Item) (_cmp : Int) : Int × List Item := (scene.length, scene)

/-- The adder of the example host: a negative index appends at the end. -/
def Item.add (scene : List Item) (_cmp : Int) (index : Int) : List Item :=
  if index < 0 then scene ++ [Item.fresh] else scene.insertIdx index.toNat Item.fresh

/-- The remover of the example host. -/
def Item.remove (scene : List Item) (_cmp : Int) (index : Int) : List Item :=
  if index < 0 then scene else scene.eraseIdx index.toNat

/-- The array-element getter of the int field. -/
def Item.getId (scene : List Item) (_cmp : Int) (index : Int) : Int × List Item :=
  ((scene.getD index.toNat Item.fresh).id, scene)

/-- The array-element setter of the int field. -/
def Item.setId (scene : List Item) (_cmp : Int) (index : Int) (v : Int) : List Item :=
  scene.modify (fun item => ⟨v, item.name⟩) index.toNat

/-- The array-element getter of the string field. -/
def Item.getName (scene : List Item) (_cmp : Int) (index : Int) : List Byte × List Item :=
  ((scene.getD index.toNat Item.fresh).name, scene)

/-- The array-element setter of the string field. -/
def Item.setName (scene : List Item) (_cmp : Int) (index : Int) (v : List Byte) : List Item :=
  scene.modify (fun item => ⟨item.id, v⟩) index.toNat

/-- The array descriptor of the example host: children `(int, string)`. -/
def Item.descriptor : ArrayDescriptor (List Item) :=
  ⟨Item.count, Item.add, Item.remove,
    [(IntPropertyDescriptor.array Item.getId Item.setId).toBase,
     (StringArrayObjectDescriptor.mk Item.getName Item.setName).toBase]⟩

/-! ## File and resource decorations -/

/-- The class `FilePropertyDescriptor<T>`: a `StringPropertyDescriptor` that also carries
the file type string of `IFilePropertyDescriptor`. -/
structure FilePropertyDescriptor (S : Type) extends StringPropertyDescriptor S where
  m_file_type : List Byte

/-- The method `FilePropertyDescriptor::getFileType`. -/
def FilePropertyDescriptor.getFileType {S : Type} (d : FilePropertyDescriptor S) : List Byte :=
  d.m_file_type

/-- The method `set` of `FilePropertyDescriptor`, inherited from `StringPropertyDescriptor`. -/
def FilePropertyDescriptor.set {S : Type} (d : FilePropertyDescriptor S)
    (cmp : ComponentUID S) (index : Int) (stream : InputBlob) :
    Except Fault (S × InputBlob) :=
  d.toStringPropertyDescriptor.set cmp index stream

/-- The method `get` of `FilePropertyDescriptor`, inherited from `StringPropertyDescriptor`. -/
def FilePropertyDescriptor.get {S : Type} (d : FilePropertyDescriptor S)
    (cmp : ComponentUID S) (index : Int) (stream : OutputBlob) :
    Except Fault (S × OutputBlob) :=
  d.toStringPropertyDescriptor.get cmp index stream

/-- The class `ResourcePropertyDescriptor<T>`: a `FilePropertyDescriptor` that also carries
the `uint32` resource type of `ResourcePropertyDescriptorBase`. -/
structure ResourcePropertyDescriptor (S : Type) extends FilePropertyDescriptor S where
  m_resource_type : Nat

/-- The method `set` of `ResourcePropertyDescriptor`, inherited through
`FilePropertyDescriptor`. -/
def ResourcePropertyDescriptor.set {S : Type} (d : ResourcePropertyDescriptor S)
    (cmp : ComponentUID S) (index : Int) (stream : InputBlob) :
    Except Fault (S × InputBlob) :=
  d.toFilePropertyDescriptor.set cmp index stream

/-- The method `get` of `ResourcePropertyDescriptor`, inherited through
`FilePropertyDescriptor`. -/
def ResourcePropertyDescriptor.get {S : Type} (d : ResourcePropertyDescriptor S)
    (cmp : ComponentUID S) (index : Int) (stream : OutputBlob) :
    Except Fault (S × OutputBlob) :=
  d.toFilePropertyDescriptor.get cmp index stream

/-- The class `FileArrayObjectDescriptor<S>`: a `StringArrayObjectDescriptor` with a file
type string. -/
structure FileArrayObjectDescriptor (S : Type) extends StringArrayObjectDescriptor S where
  m_file_type : List Byte

/-- The method `FileArrayObjectDescriptor::getFileType`. -/
def FileArrayObjectDescriptor.getFileType {S : Type} (d : FileArrayObjectDescriptor S) :
    List Byte :=
  d.m_file_type

/-- The method `set` of `FileArrayObjectDescriptor`, inherited from
`StringArrayObjectDescriptor`. -/
def FileArrayObjectDescriptor.set {S : Type} (d : FileArrayObjectDescriptor S)
    (cmp : ComponentUID S) (index : Int) (stream : InputBlob) :
    Except Fault (S × InputBlob) :=
  d.toStringArrayObjectDescriptor.set cmp index stream

/-- The method `get` of `FileArrayObjectDescriptor`, inherited from
`StringArrayObjectDescriptor`. -/
def FileArrayObjectDescriptor.get {S : Type} (d : FileArrayObjectDescriptor S)
    (cmp : ComponentUID S) (index : Int) (stream : OutputBlob) :
    Except Fault (S × OutputBlob) :=
  d.toStringArrayObjectDescriptor.get cmp index stream

/-- The class `ResourceArrayObjectDescriptor<S>`: a `FileArrayObjectDescriptor` with a
`uint32` resource type. -/
structure ResourceArrayObjectDescriptor (S : Type) extends FileArrayObjectDescriptor S where
  m_resource_type : Nat

/-- The method `set` of `ResourceArrayObjectDescriptor`, inherited through
`FileArrayObjectDescriptor`. -/
def ResourceArrayObjectDescriptor.set {S : Type} (d : ResourceArrayObjectDescriptor S)
    (cmp : ComponentUID S) (index : Int) (stream : InputBlob) :
    Except Fault (S × InputBlob) :=
  d.toFileArrayObjectDescriptor.set cmp index stream

/-- The method `get` of `ResourceArrayObjectDescriptor`, inherited through
`FileArrayObjectDescriptor`. -/
def ResourceArrayObjectDescriptor.get {S : Type} (d : ResourceArrayObjectDescriptor S)
    (cmp : ComponentUID S) (index : Int) (stream : OutputBlob) :
    Except Fault (S × OutputBlob) :=
  d.toFileArrayObjectDescriptor.get cmp index stream

/-! ## Byte counts of one call -/

/-- A `get` call succeeded and left the output blob with exactly `n` more bytes, put after
the bytes it held before. -/
def Appends {S : Type} (r : Except Fault (S × OutputBlob)) (out : OutputBlob) (n : Nat) :
    Prop :=
  ∃ (scene1 : S) (bytes : List Byte), r = .ok (scene1, ⟨out.data ++ bytes⟩) ∧ bytes.length = n

/-- A `set` call succeeded and left the input blob with the same bytes and the cursor `n`
bytes further on. -/
def Consumes {S : Type} (r : Except Fault (S × InputBlob)) (stream : InputBlob) (n : Nat) :
    Prop :=
  ∃ scene1 : S, r = .ok (scene1, ⟨stream.data, stream.pos + n⟩)

/-! ## Scenario: an array of int and string fields written and read back -/

/-- A child of the array descriptor in the array round trip: an array-bound
`IntPropertyDescriptor` or a `StringArrayObjectDescriptor`. -/
inductive ItemField (S : Type) where
  | int (getter : S → Int → Int → Int × S) (setter : S → Int → Int → Int → S)
  | string (d : StringArrayObjectDescriptor S)

/-- The child descriptor as the array descriptor holds it. -/
def ItemField.toBase {S : Type} : ItemField S → IPropertyDescriptor S
  | .int getter setter => (IntPropertyDescriptor.array getter setter).toBase
  | .string d => d.toBase

/-- The getter of the field leaves the scene as it is. -/
def ItemField.ReadOnly {S : Type} (c : Int) : ItemField S → Prop
  | .int getter _ => ∀ s i, (getter s c i).2 = s
  | .string d => ∀ s i, (d.m_getter s c i).2 = s

/-- The value the source holds in this field of item `i` fits the wire: an `int` in 32-bit
range, or a string of at most 299 bytes without a zero byte. -/
def ItemField.Storable {S : Type} (c : Int) (src : S) (i : Nat) : ItemField S → Prop
  | .int getter _ => isInt32 (getter src c i).1
  | .string d =>
    (d.m_getter src c i).1.length ≤ 299 ∧ ∀ b ∈ (d.m_getter src c i).1, b ≠ 0

/-- The setter of the field does not change the item count the counter reports. -/
def ItemField.KeepsCount {S : Type} (counter : S → Int → Int × S) (c : Int) :
    ItemField S → Prop
  | .int _ setter => ∀ s i v, (counter (setter s c i v) c).1 = (counter s c).1
  | .string d => ∀ s i v, (counter (d.m_setter s c i v) c).1 = (counter s c).1

/-- The bytes the field's `get` writes for item `i` of the source. -/
def ItemField.bytes {S : Type} (c : Int) (src : S) (i : Nat) : ItemField S → List Byte
  | .int getter _ => int32ToBytes (getter src c i).1
  | .string d => (d.m_getter src c i).1 ++ [0]

/-- One setter call: the field of item `i` of `dst` receives the value the source getter
returned for item `i`. -/
def ItemField.copy {S : Type} (c : Int) (src : S) (i : Nat) (dst : S) : ItemField S → S
  | .int getter setter => setter dst c i (getter src c i).1
  | .string d => d.m_setter dst c i (d.m_getter src c i).1

/-- The setter calls of the round trip in item-major, field-minor order: for the items
`0 .. n - 1` in turn, every field in child order. -/
def copyItems {S : Type} (c : Int) (fields : List (ItemField S)) (src : S) (n : Nat)
    (dst : S) : S :=
  (List.range n).foldl (fun s i => fields.foldl (fun s1 f => f.copy c src i s1) s) dst

/-- The bytes of the whole array: the count, then item by item the bytes of each field. -/
def arrayBytes {S : Type} (c : Int) (fields : List (ItemField S)) (src : S) (n : Int) :
    List Byte :=
  int32ToBytes n
    ++ (List.range n.toNat).flatMap (fun i => fields.flatMap (fun f => f.bytes c src i))

/-- The host after the two resize loops: from `k` items to `t` items by `t - k` adder
calls with index `-1`, or by `k - t` remover calls with the indices `k - 1, ..., t`. -/
def ArrayDescriptor.resized {S : Type} (d : ArrayDescriptor S) (c : Int) (scene : S)
    (k t : Int) : S :=
  if k ≤ t then (fun s => d.m_adder s c (-1))^[(t - k).toNat] scene
  else ((List.range (k - t).toNat).map (fun (j : Nat) => k - 1 - (j : Int))).foldl
    (fun s i => d.m_remover s c i) scene

/-! ## NotificationsImpl (`studio/notifications.cpp`) -/

/-- What `notifications.cpp` does with `float`: the subtraction of `m_time -= time_delta`,
the test `m_time < 0`, and the constants `DISPLAY_TIME` and `FLT_MAX`.  They are taken as
parameters, so that every statement holds for any arithmetic on the time values. -/
structure FloatOps (F : Type) where
  sub : F → F → F
  ltZero : F → Bool
  DISPLAY_TIME : F
  FLT_MAX : F

/-- The widget of a notification, as far as the code looks at it: a widget whose only
child is the label, or a widget whose second child is a progress bar; `value` is the
argument of the last `setValue` call on that bar. -/
inductive Widget where
  | label (text : String)
  | progress (value : Int) (text : String)
deriving DecidableEq, Repr

/-- The class `NotificationsImpl::Notification`. -/
structure Notification (F : Type) where
  m_widget : Widget
  m_time : F
  m_id : Int

/-- The state of `NotificationsImpl`: the vector `m_items`, front first. -/
abbrev NotificationsImpl (F : Type) := List (Notification F)

/-- The expression `m_items.empty() ? 0 : m_items.back().m_id + 1`, an `int`. -/
def NotificationsImpl.nextId {F : Type} (m_items : NotificationsImpl F) : Int :=
  match m_items.getLast? with
  | none => 0
  | some back => wrapInt32 (back.m_id + 1)

/-- The method `NotificationsImpl::update`. -/
def NotificationsImpl.update {F : Type} (ops : FloatOps F) (time_delta : F)
    (m_items : NotificationsImpl F) : NotificationsImpl F :=
  match m_items with
  | [] => []
  | first :: rest =>
    let time := ops.sub first.m_time time_delta
    if ops.ltZero time then rest
    else { first with m_time := time } :: rest

/-- The method `NotificationsImpl::setProgress`: the first item with the id gets the value
when its widget has a progress bar and fails the assertion when it has none. -/
def NotificationsImpl.setProgress {F : Type} (id : Int) (value : Int) :
    NotificationsImpl F → Except Fault (NotificationsImpl F)
  | [] => .ok []
  | item :: rest =>
    if item.m_id = id then
      match item.m_widget with
      | .label _ => .error .assertion
      | .progress _ text => .ok ({ item with m_widget := .progress value text } :: rest)
    else
      match NotificationsImpl.setProgress id value rest with
      | .error e => .error e
      | .ok rest1 => .ok (item :: rest1)

/-- The method `NotificationsImpl::setNotificationTime`: the first item with the id gets
the time. -/
def NotificationsImpl.setNotificationTime {F : Type} (id : Int) (time : F) :
    NotificationsImpl F → NotificationsImpl F
  | [] => []
  | item :: rest =>
    if item.m_id = id then { item with m_time := time } :: rest
    else item :: NotificationsImpl.setNotificationTime id time rest

/-- The method `NotificationsImpl::showProgressNotification`: the id returned and the new
state. -/
def NotificationsImpl.showProgressNotification {F : Type} (ops : FloatOps F) (text : String)
    (m_items : NotificationsImpl F) : Int × NotificationsImpl F :=
  let n : Notification F :=
    { m_id := m_items.nextId, m_widget := .progress 0 text, m_time := ops.FLT_MAX }
  (n.m_id, m_items ++ [n])

/-- The method `NotificationsImpl::showNotification`. -/
def NotificationsImpl.showNotification {F : Type} (ops : FloatOps F) (text : String)
    (m_items : NotificationsImpl F) : NotificationsImpl F :=
  let n : Notification F :=
    { m_id := m_items.nextId, m_widget := .label text, m_time := ops.DISPLAY_TIME }
  m_items ++ [n]

/-- One call of a public method of `NotificationsImpl`. -/
inductive NotificationCall (F : Type) where
  | showNotification (text : String)
  | showProgressNotification (text : String)
  | update (time_delta : F)
  | setProgress (id : Int) (value : Int)
  | setNotificationTime (id : Int) (time : F)

/-- The call is one of the two that append a notification. -/
def NotificationCall.isShow {F : Type} : NotificationCall F → Bool
  | .showNotification _ => true
  | .showProgressNotification _ => true
  | _ => false

/-- The state after one call. -/
def NotificationsImpl.call {F : Type} (ops : FloatOps F) (m_items : NotificationsImpl F) :
    NotificationCall F → Except Fault (NotificationsImpl F)
  | .showNotification text => .ok (m_items.showNotification ops text)
  | .showProgressNotification text => .ok (m_items.showProgressNotification ops text).2
  | .update time_delta => .ok (m_items.update ops time_delta)
  | .setProgress id value => m_items.setProgress id value
  | .setNotificationTime id time => .ok (m_items.setNotificationTime id time)

/-- The state after a sequence of calls, made in list order. -/
def NotificationsImpl.run {F : Type} (ops : FloatOps F) :
    List (NotificationCall F) → NotificationsImpl F → Except Fault (NotificationsImpl F)
  | [], m_items => .ok m_items
  | c :: rest, m_items =>
    match m_items.call ops c with
    | .error e => .error e
    | .ok next => NotificationsImpl.run ops rest next

/-- The ids are consecutive from front to back: `m_items[i+1].m_id = m_items[i].m_id + 1`. -/
def NotificationsImpl.Consecutive {F : Type} (m_items : NotificationsImpl F) : Prop :=
  List.Chain' (fun a b : Notification F => b.m_id = a.m_id + 1) m_items

/-- Time values held as integers, an arithmetic to run the notification list on. -/
def FloatOps.integers : FloatOps Int :=
  ⟨fun a b => a - b, fun a => decide (a < 0), 2, 340282346638528859811704183484516925440⟩

/-- The ids of the notifications, front first. -/
def NotificationsImpl.ids {F : Type} (m_items : NotificationsImpl F) : List Int :=
  m_items.map (fun item => item.m_id)

/-! ## Calls with the machine state tracked up to a fault

The definitions above return a bare `Fault` when a call stops.  The definitions of this
section embed the same methods statement by statement and keep, also at a fault, the
scene and the blob as they are at that moment, so that the position of a failing
statement in a method is visible. -/

/-- How a call ends: it returns, or it stops at a fault; in both cases with the scene and
the blob as the statements executed so far have left them. -/
inductive Outcome (S B : Type) where
  | done (scene : S) (stream : B)
  | fault (f : Fault) (scene : S) (stream : B)

/-- The outcome with the state at a fault forgotten. -/
def Outcome.result {S B : Type} : Outcome S B → Except Fault (S × B)
  | .done scene stream => .ok (scene, stream)
  | .fault f _ _ => .error f

/-- The method `BoolPropertyDescriptor::set`, statement by statement. -/
def BoolPropertyDescriptor.setOutcome {S : Type} (d : BoolPropertyDescriptor S)
    (cmp : ComponentUID S) (index : Int) (stream : InputBlob) : Outcome S InputBlob :=
  if index ≠ -1 then .fault .assertion cmp.scene stream
  else
    match stream.read 1 with
    | none => .fault .endOfStream cmp.scene stream
    | some (bytes, stream1) => .done (d.m_setter cmp.scene cmp.index (bytesToBool bytes)) stream1

/-- The method `BoolPropertyDescriptor::get`, statement by statement. -/
def BoolPropertyDescriptor.getOutcome {S : Type} (d : BoolPropertyDescriptor S)
    (cmp : ComponentUID S) (index : Int) (stream : OutputBlob) : Outcome S OutputBlob :=
  if index ≠ -1 then .fault .assertion cmp.scene stream
  else
    let r := d.m_getter cmp.scene cmp.index
    .done r.2 (stream.write (boolToBytes r.1))

/-- The method `Vec3PropertyDescriptor::set`, statement by statement. -/
def Vec3PropertyDescriptor.setOutcome {S : Type} (d : Vec3PropertyDescriptor S)
    (cmp : ComponentUID S) (index : Int) (stream : InputBlob) : Outcome S InputBlob :=
  if index ≠ -1 then .fault .assertion cmp.scene stream
  else
    match stream.read 12 with
    | none => .fault .endOfStream cmp.scene stream
    | some (bytes, stream1) => .done (d.m_setter cmp.scene cmp.index (Vec3.ofBytes bytes)) stream1

/-- The method `Vec3PropertyDescriptor::get`, statement by statement. -/
def Vec3PropertyDescriptor.getOutcome {S : Type} (d : Vec3PropertyDescriptor S)
    (cmp : ComponentUID S) (index : Int) (stream : OutputBlob) : Outcome S OutputBlob :=
  if index ≠ -1 then .fault .assertion cmp.scene stream
  else
    let r := d.m_getter cmp.scene cmp.index
    .done r.2 (stream.write r.1.toBytes)

/-- The method `Vec4PropertyDescriptor::set`, statement by statement. -/
def Vec4PropertyDescriptor.setOutcome {S : Type} (d : Vec4PropertyDescriptor S)
    (cmp : ComponentUID S) (index : Int) (stream : InputBlob) : Outcome S InputBlob :=
  if index ≠ -1 then .fault .assertion cmp.scene stream
  else
    match stream.read 16 with
    | none => .fault .endOfStream cmp.scene stream
    | some (bytes, stream1) => .done (d.m_setter cmp.scene cmp.index (Vec4.ofBytes bytes)) stream1

/-- The method `Vec4PropertyDescriptor::get`, statement by statement. -/
def Vec4PropertyDescriptor.getOutcome {S : Type} (d : Vec4PropertyDescriptor S)
    (cmp : ComponentUID S) (index : Int) (stream : OutputBlob) : Outcome S OutputBlob :=
  if index ≠ -1 then .fault .assertion cmp.scene stream
  else
    let r := d.m_getter cmp.scene cmp.index
    .done r.2 (stream.write r.1.toBytes)

/-- The method `Vec2PropertyDescriptor::set`, statement by statement. -/
def Vec2PropertyDescriptor.setOutcome {S : Type} (d : Vec2PropertyDescriptor S)
    (cmp : ComponentUID S) (index : Int) (stream : InputBlob) : Outcome S InputBlob :=
  if index ≠ -1 then .fault .assertion cmp.scene stream
  else
    match stream.read 8 with
    | none => .fault .endOfStream cmp.scene stream
    | some (bytes, stream1) => .done (d.m_setter cmp.scene cmp.index (Vec2.ofBytes bytes)) stream1

/-- The method `Vec2PropertyDescriptor::get`, statement by statement. -/
def Vec2PropertyDescriptor.getOutcome {S : Type} (d : Vec2PropertyDescriptor S)
    (cmp : ComponentUID S) (index : Int) (stream : OutputBlob) : Outcome S OutputBlob :=
  if index ≠ -1 then .fault .assertion cmp.scene stream
  else
    let r := d.m_getter cmp.scene cmp.index
    .done r.2 (stream.write r.1.toBytes)

/-- The method `ColorPropertyDescriptor::set`, statement by statement. -/
def ColorPropertyDescriptor.setOutcome {S : Type} (d : ColorPropertyDescriptor S)
    (cmp : ComponentUID S) (index : Int) (stream : InputBlob) : Outcome S InputBlob :=
  if index ≠ -1 then .fault .assertion cmp.scene stream
  else
    match stream.read 12 with
    | none => .fault .endOfStream cmp.scene stream
    | some (bytes, stream1) => .done (d.m_setter cmp.scene cmp.index (Vec3.ofBytes bytes)) stream1

/-- The method `ColorPropertyDescriptor::get`, statement by statement. -/
def ColorPropertyDescriptor.getOutcome {S : Type} (d : ColorPropertyDescriptor S)
    (cmp : ComponentUID S) (index : Int) (stream : OutputBlob) : Outcome S OutputBlob :=
  if index ≠ -1 then .fault .assertion cmp.scene stream
  else
    let r := d.m_getter cmp.scene cmp.index
    .done r.2 (stream.write r.1.toBytes)

/-- The method `EnumPropertyDescriptor::set`, statement by statement. -/
def EnumPropertyDescriptor.setOutcome {S : Type} (d : EnumPropertyDescriptor S)
    (cmp : ComponentUID S) (index : Int) (stream : InputBlob) : Outcome S InputBlob :=
  if index ≠ -1 then .fault .assertion cmp.scene stream
  else
    match stream.read 4 with
    | none => .fault .endOfStream cmp.scene stream
    | some (bytes, stream1) => .done (d.m_setter cmp.scene cmp.index (bytesToInt32 bytes)) stream1

/-- The method `EnumPropertyDescriptor::get`, statement by statement. -/
def EnumPropertyDescriptor.getOutcome {S : Type} (d : EnumPropertyDescriptor S)
    (cmp : ComponentUID S) (index : Int) (stream : OutputBlob) : Outcome S OutputBlob :=
  if index ≠ -1 then .fault .assertion cmp.scene stream
  else
    let r := d.m_getter cmp.scene cmp.index
    .done r.2 (stream.write (int32ToBytes r.1))

/-- The `do ... while` loop of the string `set`, as `readChars`, with the blob kept at a
fault: where the read found no byte left, or as the read that stored outside `tmp` left
it. -/
def readCharsAt : (room : Nat) → (tmp : List Byte) → (stream : InputBlob) →
    Except (Fault × InputBlob) (List Byte × InputBlob)
  | room, tmp, stream =>
    match stream.read 1 with
    | none => .error (.endOfStream, stream)
    | some (bytes, stream1) =>
      match room with
      | 0 => .error (.bufferOverrun tmp.length stream1, stream1)
      | room1 + 1 =>
        if bytes ≠ [0] ∧ tmp.length < MAX_STRING_SIZE then
          readCharsAt room1 (tmp ++ bytes) stream1
        else .ok (tmp ++ bytes, stream1)

/-- The method `StringPropertyDescriptor::set`, statement by statement. -/
def StringPropertyDescriptor.setOutcome {S : Type} (d : StringPropertyDescriptor S)
    (cmp : ComponentUID S) (index : Int) (stream : InputBlob) : Outcome S InputBlob :=
  if index ≠ -1 then .fault .assertion cmp.scene stream
  else
    match readCharsAt MAX_STRING_SIZE [] stream with
    | .error (f, stream1) => .fault f cmp.scene stream1
    | .ok (tmp, stream1) =>
      match cstring tmp with
      | none => .fault .unterminated cmp.scene stream1
      | some chars => .done (d.m_setter cmp.scene cmp.index chars) stream1

/-- The method `StringPropertyDescriptor::get`, statement by statement. -/
def StringPropertyDescriptor.getOutcome {S : Type} (d : StringPropertyDescriptor S)
    (cmp : ComponentUID S) (index : Int) (stream : OutputBlob) : Outcome S OutputBlob :=
  if index ≠ -1 then .fault .assertion cmp.scene stream
  else
    let r := d.m_getter cmp.scene cmp.index
    let value := stringOf r.1
    .done r.2 (stream.write (value ++ [0]))

/-- The `for` loop of `SampledFunctionDescriptor::set`, statement by statement. -/
def SampledFunctionDescriptor.setLoopOutcome {S : Type} (d : SampledFunctionDescriptor S)
    (cmpIndex : Int) : (n : Nat) → (i : Int) → S → InputBlob → Outcome S InputBlob
  | 0, _, scene, stream => .done scene stream
  | n + 1, i, scene, stream =>
    match stream.read 4 with
    | none => .fault .endOfStream scene stream
    | some (bytes, stream1) =>
      d.setLoopOutcome cmpIndex n (i + 1)
        (d.m_setter scene cmpIndex i (Float32.ofBytes bytes)) stream1

/-- The method `SampledFunctionDescriptor::set`, statement by statement. -/
def SampledFunctionDescriptor.setOutcome {S : Type} (d : SampledFunctionDescriptor S)
    (cmp : ComponentUID S) (index : Int) (stream : InputBlob) : Outcome S InputBlob :=
  if index ≠ -1 then .fault .assertion cmp.scene stream
  else d.setLoopOutcome cmp.index d.COUNT.toNat 0 cmp.scene stream

/-- The method `SampledFunctionDescriptor::get`, statement by statement. -/
def SampledFunctionDescriptor.getOutcome {S : Type} (d : SampledFunctionDescriptor S)
    (cmp : ComponentUID S) (index : Int) (stream : OutputBlob) : Outcome S OutputBlob :=
  if index ≠ -1 then .fault .assertion cmp.scene stream
  else
    .done (d.getLoop cmp.index d.COUNT.toNat 0 cmp.scene stream).1
      (d.getLoop cmp.index d.COUNT.toNat 0 cmp.scene stream).2

/-- A child of an array descriptor with its state tracked: the two virtual operations of
`IPropertyDescriptor` as outcomes. -/
structure IPropertyDescriptorOutcome (S : Type) where
  set : ComponentUID S → Int → InputBlob → Outcome S InputBlob
  get : ComponentUID S → Int → OutputBlob → Outcome S OutputBlob

/-- The same child with the state at a fault forgotten. -/
def IPropertyDescriptorOutcome.toBase {S : Type} (child : IPropertyDescriptorOutcome S) :
    IPropertyDescriptor S :=
  ⟨fun cmp index stream => (child.set cmp index stream).result,
    fun cmp index stream => (child.get cmp index stream).result⟩

/-- The first `while` loop of `ArrayDescriptor::set`, statement by statement. -/
def ArrayDescriptor.growLoopOutcome {S : Type} (d : ArrayDescriptor S) (cmpIndex : Int)
    (count : Int) (stream : InputBlob) : (fuel : Nat) → S → Outcome S InputBlob
  | 0, scene => .fault .outOfFuel scene stream
  | fuel + 1, scene =>
    let r := d.getCount ⟨scene, cmpIndex⟩
    if r.1 < count then
      d.growLoopOutcome cmpIndex count stream fuel (d.addArrayItem ⟨r.2, cmpIndex⟩ (-1))
    else .done r.2 stream

/-- The second `while` loop of `ArrayDescriptor::set`, statement by statement. -/
def ArrayDescriptor.shrinkLoopOutcome {S : Type} (d : ArrayDescriptor S) (cmpIndex : Int)
    (count : Int) (stream : InputBlob) : (fuel : Nat) → S → Outcome S InputBlob
  | 0, scene => .fault .outOfFuel scene stream
  | fuel + 1, scene =>
    let r := d.getCount ⟨scene, cmpIndex⟩
    if r.1 > count then
      let r2 := d.getCount ⟨r.2, cmpIndex⟩
      d.shrinkLoopOutcome cmpIndex count stream fuel
        (d.removeArrayItem ⟨r2.2, cmpIndex⟩ (wrapInt32 (r2.1 - 1)))
    else .done r.2 stream

/-- The inner loop over the children of `ArrayDescriptor::set`, statement by statement. -/
def ArrayDescriptor.setChildrenOutcome {S : Type} (cmpIndex : Int) (i : Int) :
    List (IPropertyDescriptorOutcome S) → S → InputBlob → Outcome S InputBlob
  | [], scene, stream => .done scene stream
  | child :: rest, scene, stream =>
    match child.set ⟨scene, cmpIndex⟩ i stream with
    | .fault f scene1 stream1 => .fault f scene1 stream1
    | .done scene1 stream1 => ArrayDescriptor.setChildrenOutcome cmpIndex i rest scene1 stream1

/-- The outer loop over the items of `ArrayDescriptor::set`, statement by statement. -/
def ArrayDescriptor.setItemsOutcome {S : Type} (children : List (IPropertyDescriptorOutcome S))
    (cmpIndex : Int) : (n : Nat) → (i : Int) → S → InputBlob → Outcome S InputBlob
  | 0, _, scene, stream => .done scene stream
  | n + 1, i, scene, stream =>
    match ArrayDescriptor.setChildrenOutcome cmpIndex i children scene stream with
    | .fault f scene1 stream1 => .fault f scene1 stream1
    | .done scene1 stream1 =>
      ArrayDescriptor.setItemsOutcome children cmpIndex n (i + 1) scene1 stream1

/-- The method `ArrayDescriptor::set`, statement by statement; `children` are the children
of the descriptor with their state tracked. -/
def ArrayDescriptor.setOutcome {S : Type} (fuel : Nat) (d : ArrayDescriptor S)
    (children : List (IPropertyDescriptorOutcome S))
    (cmp : ComponentUID S) (index : Int) (stream : InputBlob) : Outcome S InputBlob :=
  if index ≠ -1 then .fault .assertion cmp.scene stream
  else
    match stream.read 4 with
    | none => .fault .endOfStream cmp.scene stream
    | some (bytes, stream1) =>
      let count := bytesToInt32 bytes
      match d.growLoopOutcome cmp.index count stream1 fuel cmp.scene with
      | .fault f scene1 stream2 => .fault f scene1 stream2
      | .done scene1 _ =>
        match d.shrinkLoopOutcome cmp.index count stream1 fuel scene1 with
        | .fault f scene2 stream2 => .fault f scene2 stream2
        | .done scene2 _ =>
          ArrayDescriptor.setItemsOutcome children cmp.index count.toNat 0 scene2 stream1

/-- The inner loop over the children of `ArrayDescriptor::get`, statement by statement. -/
def ArrayDescriptor.getChildrenOutcome {S : Type} (cmpIndex : Int) (i : Int) :
    List (IPropertyDescriptorOutcome S) → S → OutputBlob → Outcome S OutputBlob
  | [], scene, stream => .done scene stream
  | child :: rest, scene, stream =>
    match child.get ⟨scene, cmpIndex⟩ i stream with
    | .fault f scene1 stream1 => .fault f scene1 stream1
    | .done scene1 stream1 => ArrayDescriptor.getChildrenOutcome cmpIndex i rest scene1 stream1

/-- The outer loop over the items of `ArrayDescriptor::get`, statement by statement. -/
def ArrayDescriptor.getItemsOutcome {S : Type} (children : List (IPropertyDescriptorOutcome S))
    (cmpIndex : Int) : (n : Nat) → (i : Int) → S → OutputBlob → Outcome S OutputBlob
  | 0, _, scene, stream => .done scene stream
  | n + 1, i, scene, stream =>
    match ArrayDescriptor.getChildrenOutcome cmpIndex i children scene stream with
    | .fault f scene1 stream1 => .fault f scene1 stream1
    | .done scene1 stream1 =>
      ArrayDescriptor.getItemsOutcome children cmpIndex n (i + 1) scene1 stream1

/-- The method `ArrayDescriptor::get`, statement by statement; `children` are the children
of the descriptor with their state tracked. -/
def ArrayDescriptor.getOutcome {S : Type} (d : ArrayDescriptor S)
    (children : List (IPropertyDescriptorOutcome S))
    (cmp : ComponentUID S) (index : Int) (stream : OutputBlob) : Outcome S OutputBlob :=
  if index ≠ -1 then .fault .assertion cmp.scene stream
  else
    let r := d.getCount cmp
    let count := r.1
    ArrayDescriptor.getItemsOutcome children cmp.index count.toNat 0 r.2
      (stream.write (int32ToBytes count))

/-- The method `DecimalPropertyDescriptor::set`, statement by statement: the 4 bytes are
read before the member pointer is selected. -/
def DecimalPropertyDescriptor.setOutcome {S : Type} (d : DecimalPropertyDescriptor S)
    (cmp : ComponentUID S) (index : Int) (stream : InputBlob) : Outcome S InputBlob :=
  match stream.read 4 with
  | none => .fault .endOfStream cmp.scene stream
  | some (bytes, stream1) =>
    let f := Float32.ofBytes bytes
    if index ≥ 0 then
      match d.m_array_setter with
      | none => .fault .unboundEntryPoint cmp.scene stream1
      | some setter => .done (setter cmp.scene cmp.index index f) stream1
    else
      match d.m_setter with
      | none => .fault .unboundEntryPoint cmp.scene stream1
      | some setter => .done (setter cmp.scene cmp.index f) stream1

/-- The method `DecimalPropertyDescriptor::get`, statement by statement. -/
def DecimalPropertyDescriptor.getOutcome {S : Type} (d : DecimalPropertyDescriptor S)
    (cmp : ComponentUID S) (index : Int) (stream : OutputBlob) : Outcome S OutputBlob :=
  let f := Float32.zero
  if index ≥ 0 then
    match d.m_array_getter with
    | none => .fault .unboundEntryPoint cmp.scene stream
    | some getter =>
      let r := getter cmp.scene cmp.index index
      .done r.2 (stream.write f.toBytes)
  else
    match d.m_getter with
    | none => .fault .unboundEntryPoint cmp.scene stream
    | some getter =>
      let r := getter cmp.scene cmp.index
      .done r.2 (stream.write f.toBytes)

/-! ## Scenario: write a field, then read it back -/

/-- The round trip of the testable properties: `get(src, index, out)` on a fresh output
blob, then `set(dst, index, in)` on an input blob over exactly the bytes written. -/
def getThenSet {S : Type}
    (get : ComponentUID S → Int → OutputBlob → Except Fault (S × OutputBlob))
    (set : ComponentUID S → Int → InputBlob → Except Fault (S × InputBlob))
    (index : Int) (src dst : ComponentUID S) : Except Fault (S × InputBlob) :=
  match get src index OutputBlob.empty with
  | .error e => .error e
  | .ok (_, out) => set dst index (InputBlob.over out.data)

/-! ## Object representations -/

theorem bytesToInt32_int32ToBytes (i : Int) (h : isInt32 i) :
    bytesToInt32 (int32ToBytes i) = i := by
  unfold isInt32 at h
  simp only [bytesToInt32, int32ToBytes, byteAt]
  split_ifs with hu <;> omega

theorem int32ToBytes_length (i : Int) : (int32ToBytes i).length = 4 := rfl

theorem float32_ofBytes_toBytes (f : Float32) : Float32.ofBytes f.toBytes = f := rfl

theorem bytesToBool_boolToBytes (b : Bool) : bytesToBool (boolToBytes b) = b := by
  cases b <;> rfl

theorem vec2_ofBytes_toBytes (v : Vec2) : Vec2.ofBytes v.toBytes = v := rfl

theorem vec3_ofBytes_toBytes (v : Vec3) : Vec3.ofBytes v.toBytes = v := rfl

theorem vec4_ofBytes_toBytes (v : Vec4) : Vec4.ofBytes v.toBytes = v := rfl

theorem read_over (bytes : List Byte) :
    (InputBlob.over bytes).read bytes.length = some (bytes, ⟨bytes, bytes.length⟩) := by
  simp [InputBlob.read, InputBlob.over]

/-! ## Scalar round trips -/

/-- C1: for the scalar-bound Int descriptor and the Bool, Vec2, Vec3, Vec4 and Color
descriptors, `get` with index `-1` on an empty output blob followed by `set` with index
`-1` on an input blob over exactly those bytes succeeds, calls the bound setter with
exactly the value `v` the getter returned, and consumes all 4, 1, 8, 12, 16 and 12 bytes. -/
theorem scalar_get_set_round_trip {S : Type}
    (getI : S → Int → Int × S) (setI : S → Int → Int → S)
    (dB : BoolPropertyDescriptor S) (d2 : Vec2PropertyDescriptor S)
    (d3 : Vec3PropertyDescriptor S) (d4 : Vec4PropertyDescriptor S)
    (dC : ColorPropertyDescriptor S) (src dst : ComponentUID S)
    (hv : isInt32 (getI src.scene src.index).1) :
    getThenSet (IntPropertyDescriptor.single getI setI).get
        (IntPropertyDescriptor.single getI setI).set (-1) src dst
      = .ok (setI dst.scene dst.index (getI src.scene src.index).1,
          ⟨int32ToBytes (getI src.scene src.index).1, 4⟩)
    ∧ getThenSet dB.get dB.set (-1) src dst
      = .ok (dB.m_setter dst.scene dst.index (dB.m_getter src.scene src.index).1,
          ⟨boolToBytes (dB.m_getter src.scene src.index).1, 1⟩)
    ∧ getThenSet d2.get d2.set (-1) src dst
      = .ok (d2.m_setter dst.scene dst.index (d2.m_getter src.scene src.index).1,
          ⟨(d2.m_getter src.scene src.index).1.toBytes, 8⟩)
    ∧ getThenSet d3.get d3.set (-1) src dst
      = .ok (d3.m_setter dst.scene dst.index (d3.m_getter src.scene src.index).1,
          ⟨(d3.m_getter src.scene src.index).1.toBytes, 12⟩)
    ∧ getThenSet d4.get d4.set (-1) src dst
      = .ok (d4.m_setter dst.scene dst.index (d4.m_getter src.scene src.index).1,
          ⟨(d4.m_getter src.scene src.index).1.toBytes, 16⟩)
    ∧ getThenSet dC.get dC.set (-1) src dst
      = .ok (dC.m_setter dst.scene dst.index (dC.m_getter src.scene src.index).1,
          ⟨(dC.m_getter src.scene src.index).1.toBytes, 12⟩) := by
  refine ⟨?_, ?_, ?_, ?_, ?_, ?_⟩
  · have hr := read_over (int32ToBytes (getI src.scene src.index).1)
    rw [int32ToBytes_length] at hr
    simp [getThenSet, IntPropertyDescriptor.get, IntPropertyDescriptor.set,
      OutputBlob.write, OutputBlob.empty, hr, bytesToInt32_int32ToBytes _ hv]
  · have hr := read_over (boolToBytes (dB.m_getter src.scene src.index).1)
    simp only [boolToBytes, List.length_singleton] at hr
    simp [getThenSet, BoolPropertyDescriptor.get, BoolPropertyDescriptor.set,
      OutputBlob.write, OutputBlob.empty, boolToBytes, hr]
    cases (dB.m_getter src.scene src.index).1 <;> rfl
  · have hr := read_over (d2.m_getter src.scene src.index).1.toBytes
    simp only [show (d2.m_getter src.scene src.index).1.toBytes.length = 8 from rfl] at hr
    simp [getThenSet, Vec2PropertyDescriptor.get, Vec2PropertyDescriptor.set,
      OutputBlob.write, OutputBlob.empty, hr, vec2_ofBytes_toBytes]
  · have hr := read_over (d3.m_getter src.scene src.index).1.toBytes
    simp only [show (d3.m_getter src.scene src.index).1.toBytes.length = 12 from rfl] at hr
    simp [getThenSet, Vec3PropertyDescriptor.get, Vec3PropertyDescriptor.set,
      OutputBlob.write, OutputBlob.empty, hr, vec3_ofBytes_toBytes]
  · have hr := read_over (d4.m_getter src.scene src.index).1.toBytes
    simp only [show (d4.m_getter src.scene src.index).1.toBytes.length = 16 from rfl] at hr
    simp [getThenSet, Vec4PropertyDescriptor.get, Vec4PropertyDescriptor.set,
      OutputBlob.write, OutputBlob.empty, hr, vec4_ofBytes_toBytes]
  · have hr := read_over (dC.m_getter src.scene src.index).1.toBytes
    simp only [show (dC.m_getter src.scene src.index).1.toBytes.length = 12 from rfl] at hr
    simp [getThenSet, ColorPropertyDescriptor.get, ColorPropertyDescriptor.set,
      OutputBlob.write, OutputBlob.empty, hr, vec3_ofBytes_toBytes]

/-! ## The string read loop -/

theorem read_one (front : List Byte) (x : Byte) (back : List Byte) :
    InputBlob.read ⟨front ++ x :: back, front.length⟩ 1
      = some ([x], ⟨front ++ x :: back, front.length + 1⟩) := by
  simp [InputBlob.read]

theorem cstring_terminated (s : List Byte) (back : List Byte) (hs : ∀ b ∈ s, b ≠ 0) :
    cstring (s ++ 0 :: back) = some s := by
  induction s with
  | nil => simp [cstring]
  | cons a s ih =>
    have ha : a ≠ 0 := hs a (by simp)
    have hrest : ∀ b ∈ s, b ≠ 0 := fun b hb => hs b (by simp [hb])
    simp [cstring, ha, ih hrest]

theorem stringOf_of_no_zero (s : List Byte) (hs : ∀ b ∈ s, b ≠ 0) : stringOf s = s := by
  unfold stringOf
  rw [List.takeWhile_eq_self_iff]
  intro b hb
  simpa using hs b hb

/-- The loop stops at the first zero byte: with `s` free of zero bytes in front of a zero
byte, and room in `tmp` for all of them, it stores `s` and the zero and consumes exactly
those bytes. -/
theorem readChars_terminated (s : List Byte) (hs : ∀ b ∈ s, b ≠ 0) :
    ∀ (room : Nat) (tmp front back : List Byte), s.length < room →
      tmp.length + s.length ≤ MAX_STRING_SIZE →
      readChars room tmp ⟨front ++ s ++ 0 :: back, front.length⟩
        = .ok (tmp ++ s ++ [0], ⟨front ++ s ++ 0 :: back, front.length + s.length + 1⟩) := by
  induction s with
  | nil =>
    intro room tmp front back hroom hcap
    obtain ⟨room1, rfl⟩ : ∃ r, room = r + 1 := ⟨room - 1, by simp at hroom; omega⟩
    have hr := read_one front 0 back
    rw [readChars]
    simp [hr]
  | cons a s ih =>
    intro room tmp front back hroom hcap
    have ha : a ≠ 0 := hs a (by simp)
    have hrest : ∀ b ∈ s, b ≠ 0 := fun b hb => hs b (by simp [hb])
    obtain ⟨room1, rfl⟩ : ∃ r, room = r + 1 := ⟨room - 1, by simp at hroom; omega⟩
    have hr := read_one front a (s ++ 0 :: back)
    have hnext := ih hrest room1 (tmp ++ [a]) (front ++ [a]) back (by simp at hroom; omega)
      (by simp at hcap ⊢; omega)
    simp only [List.append_assoc, List.singleton_append, List.length_append,
      List.length_singleton, List.cons_append] at hnext hr ⊢
    rw [readChars]
    have hlt : tmp.length < MAX_STRING_SIZE := by simp at hcap; omega
    simp only [hr]
    simp only [List.length_cons] at hroom hcap
    simp only [List.nil_append] at hnext
    simp only [ha, hlt, ne_eq, List.cons.injEq, and_true, not_false_eq_true, and_self, if_true,
      hnext]
    have hpos : front.length + 1 + s.length + 1 = front.length + (s.length + 1) + 1 := by omega
    rw [hpos, List.length_cons]

/-- The loop runs past the buffer: with as many non-zero bytes in the blob as `tmp` has
cells left, followed by one more byte, that byte is read and its store faults. -/
theorem readChars_overrun (s : List Byte) (hs : ∀ b ∈ s, b ≠ 0) :
    ∀ (tmp front : List Byte) (x : Byte) (back : List Byte),
      tmp.length + s.length ≤ MAX_STRING_SIZE →
      readChars s.length tmp ⟨front ++ s ++ x :: back, front.length⟩
        = .error (.bufferOverrun (tmp.length + s.length)
            ⟨front ++ s ++ x :: back, front.length + s.length + 1⟩) := by
  induction s with
  | nil =>
    intro tmp front x back _
    have hr := read_one front x back
    rw [readChars]
    simp [hr]
  | cons a s ih =>
    intro tmp front x back hcap
    have ha : a ≠ 0 := hs a (by simp)
    have hrest : ∀ b ∈ s, b ≠ 0 := fun b hb => hs b (by simp [hb])
    simp only [List.length_cons] at hcap
    have hr := read_one front a (s ++ x :: back)
    have hnext := ih hrest (tmp ++ [a]) (front ++ [a]) x back (by simp; omega)
    have hlt : tmp.length < MAX_STRING_SIZE := by omega
    simp only [List.append_assoc, List.singleton_append, List.length_append,
      List.length_singleton, List.cons_append, List.nil_append] at hnext hr ⊢
    rw [List.length_cons, readChars]
    simp only [hr]
    simp only [ha, hlt, ne_eq, List.cons.injEq, and_true, not_false_eq_true, and_self, if_true,
      hnext]
    have hpos : front.length + 1 + s.length + 1 = front.length + (s.length + 1) + 1 := by omega
    have hidx : tmp.length + 1 + s.length = tmp.length + (s.length + 1) := by omega
    rw [hpos, hidx]

/-! ## String descriptors -/

/-- C10: when the bound getter returns a string `s` without a zero byte, `get` of both
string descriptors appends to the output blob the bytes of `s` followed by one zero byte,
`s.length + 1` bytes in all, and nothing in front of them. -/
theorem string_get_appends_terminated {S : Type} (d : StringPropertyDescriptor S)
    (da : StringArrayObjectDescriptor S) (cmp : ComponentUID S) (index : Int)
    (out : OutputBlob)
    (hs : ∀ b ∈ (d.m_getter cmp.scene cmp.index).1, b ≠ 0)
    (hsa : ∀ b ∈ (da.m_getter cmp.scene cmp.index index).1, b ≠ 0) :
    d.get cmp (-1) out
      = .ok ((d.m_getter cmp.scene cmp.index).2,
          ⟨out.data ++ (d.m_getter cmp.scene cmp.index).1 ++ [0]⟩)
    ∧ (out.data ++ (d.m_getter cmp.scene cmp.index).1 ++ [0]).length
      = out.data.length + ((d.m_getter cmp.scene cmp.index).1.length + 1)
    ∧ da.get cmp index out
      = .ok ((da.m_getter cmp.scene cmp.index index).2,
          ⟨out.data ++ (da.m_getter cmp.scene cmp.index index).1 ++ [0]⟩)
    ∧ (out.data ++ (da.m_getter cmp.scene cmp.index index).1 ++ [0]).length
      = out.data.length + ((da.m_getter cmp.scene cmp.index index).1.length + 1) := by
  refine ⟨?_, ?_, ?_, ?_⟩
  · simp [StringPropertyDescriptor.get, OutputBlob.write, stringOf_of_no_zero _ hs]
  · simp [Nat.add_assoc]
  · simp [StringArrayObjectDescriptor.get, OutputBlob.write, stringOf_of_no_zero _ hsa]
  · simp [Nat.add_assoc]

/-- C3: for a string `s` of at most 299 bytes, none of them zero, `get` followed by `set`
on the bytes written hands the bound setter exactly `s`: the loop leaves `s` and its
terminator in `tmp`, and `set` consumes exactly the `s.length + 1` bytes `get` wrote.
This holds for `StringPropertyDescriptor` (index `-1`) and for
`StringArrayObjectDescriptor` (any index). -/
theorem string_get_set_round_trip {S : Type} (d : StringPropertyDescriptor S)
    (da : StringArrayObjectDescriptor S) (src dst : ComponentUID S) (index : Int)
    (s : List Byte) (hlen : s.length ≤ 299) (hs : ∀ b ∈ s, b ≠ 0)
    (hget : (d.m_getter src.scene src.index).1 = s)
    (hgeta : (da.m_getter src.scene src.index index).1 = s) :
    getThenSet d.get d.set (-1) src dst
      = .ok (d.m_setter dst.scene dst.index s, ⟨s ++ [0], s.length + 1⟩)
    ∧ getThenSet da.get da.set index src dst
      = .ok (da.m_setter dst.scene dst.index index s, ⟨s ++ [0], s.length + 1⟩)
    ∧ readChars MAX_STRING_SIZE [] (InputBlob.over (s ++ [0]))
      = .ok (s ++ [0], ⟨s ++ [0], s.length + 1⟩)
    ∧ cstring (s ++ [0]) = some s := by
  have hloop : readChars MAX_STRING_SIZE [] (InputBlob.over (s ++ [0]))
      = .ok (s ++ [0], ⟨s ++ [0], s.length + 1⟩) := by
    have h := readChars_terminated s hs MAX_STRING_SIZE [] [] []
      (by unfold MAX_STRING_SIZE; omega) (by unfold MAX_STRING_SIZE; simp; omega)
    simpa [InputBlob.over] using h
  have hc : cstring (s ++ [0]) = some s := cstring_terminated s [] hs
  refine ⟨?_, ?_, hloop, hc⟩
  · simp [getThenSet, StringPropertyDescriptor.get, StringPropertyDescriptor.set,
      OutputBlob.write, OutputBlob.empty, hget, stringOf_of_no_zero _ hs, hloop, hc]
  · simp [getThenSet, StringArrayObjectDescriptor.get, StringArrayObjectDescriptor.set,
      OutputBlob.write, OutputBlob.empty, hgeta, stringOf_of_no_zero _ hs, hloop, hc]

theorem replicate_no_zero (n : Nat) : ∀ b ∈ List.replicate n (65 : Byte), b ≠ 0 := by
  intro b hb
  rw [List.mem_replicate] at hb
  rw [hb.2]
  decide

/-- Both `set` methods on a blob that starts with `MAX_STRING_SIZE` non-zero bytes and
holds at least one byte more: the byte after them is read and stored outside `tmp`. -/
theorem string_set_overrun {S : Type} (d : StringPropertyDescriptor S)
    (da : StringArrayObjectDescriptor S) (dst : ComponentUID S) (index : Int)
    (s : List Byte) (hs : ∀ b ∈ s, b ≠ 0) (hlen : s.length = MAX_STRING_SIZE)
    (x : Byte) (back : List Byte) :
    readChars MAX_STRING_SIZE [] (InputBlob.over (s ++ x :: back))
      = .error (.bufferOverrun MAX_STRING_SIZE ⟨s ++ x :: back, MAX_STRING_SIZE + 1⟩)
    ∧ d.set dst (-1) (InputBlob.over (s ++ x :: back))
      = .error (.bufferOverrun MAX_STRING_SIZE ⟨s ++ x :: back, MAX_STRING_SIZE + 1⟩)
    ∧ da.set dst index (InputBlob.over (s ++ x :: back))
      = .error (.bufferOverrun MAX_STRING_SIZE ⟨s ++ x :: back, MAX_STRING_SIZE + 1⟩) := by
  have h := readChars_overrun s hs [] [] x back (by simp [hlen])
  simp only [List.nil_append, List.length_nil, Nat.zero_add, hlen] at h
  have hloop : readChars MAX_STRING_SIZE [] (InputBlob.over (s ++ x :: back))
      = .error (.bufferOverrun MAX_STRING_SIZE ⟨s ++ x :: back, MAX_STRING_SIZE + 1⟩) := h
  refine ⟨hloop, ?_, ?_⟩
  · simp [StringPropertyDescriptor.set, hloop]
  · simp [StringArrayObjectDescriptor.set, hloop]

/-- C4 (the code at the failing input): on a blob of 300 bytes `0x41` followed by a zero
byte, which is what `get` writes for a string of length 300, `set` of both string
descriptors does not hand the setter a buffer of 299 bytes and a terminator; it reads a
301st byte and stores it at `tmp[300]`, outside the buffer. -/
theorem string_set_at_cap_overruns {S : Type} (d : StringPropertyDescriptor S)
    (da : StringArrayObjectDescriptor S) (dst : ComponentUID S) (index : Int) :
    d.set dst (-1) (InputBlob.over (List.replicate 300 65 ++ [0]))
      = .error (.bufferOverrun 300 ⟨List.replicate 300 65 ++ [0], 301⟩)
    ∧ da.set dst index (InputBlob.over (List.replicate 300 65 ++ [0]))
      = .error (.bufferOverrun 300 ⟨List.replicate 300 65 ++ [0], 301⟩) :=
  (string_set_overrun d da dst index (List.replicate 300 65) (replicate_no_zero 300)
    (List.length_replicate 300 65) 0 []).2

/-- C5 (the code at the failing input): on a blob of 301 non-zero bytes the read loop of
the string descriptors takes 301 bytes from the blob, one more than `MAX_STRING_SIZE`. -/
theorem string_set_consumes_301 {S : Type} (d : StringPropertyDescriptor S)
    (da : StringArrayObjectDescriptor S) (dst : ComponentUID S) (index : Int) :
    (readChars MAX_STRING_SIZE [] (InputBlob.over (List.replicate 300 65 ++ [65]))
      = .error (.bufferOverrun 300 ⟨List.replicate 300 65 ++ [65], 301⟩)
    ∧ d.set dst (-1) (InputBlob.over (List.replicate 300 65 ++ [65]))
      = .error (.bufferOverrun 300 ⟨List.replicate 300 65 ++ [65], 301⟩)
    ∧ da.set dst index (InputBlob.over (List.replicate 300 65 ++ [65]))
      = .error (.bufferOverrun 300 ⟨List.replicate 300 65 ++ [65], 301⟩))
    ∧ MAX_STRING_SIZE < 301 :=
  ⟨string_set_overrun d da dst index (List.replicate 300 65) (replicate_no_zero 300)
    (List.length_replicate 300 65) 65 [], by decide⟩

/-! ## Decimal and Enum -/

/-- C2 (the code at the failing input): with a getter that returns `1.0f` (bytes
`00 00 80 3F`), `DecimalPropertyDescriptor::get` writes `00 00 00 00`, for the scalar
binding with index `-1` and for the array binding with index `0`; a following `set` hands
the setter `0` and not `1.0f`. -/
theorem decimal_get_drops_getter_value :
    (DecimalPropertyDescriptor.scalar (fun (s : Float32) _ => (s, s)) (fun _ _ f => f)).get
        ⟨⟨0, 0, 128, 63⟩, 0⟩ (-1) OutputBlob.empty
      = .ok (⟨0, 0, 128, 63⟩, ⟨[0, 0, 0, 0]⟩)
    ∧ (DecimalPropertyDescriptor.array (fun (s : Float32) _ _ => (s, s)) (fun _ _ _ f => f)).get
        ⟨⟨0, 0, 128, 63⟩, 0⟩ 0 OutputBlob.empty
      = .ok (⟨0, 0, 128, 63⟩, ⟨[0, 0, 0, 0]⟩)
    ∧ getThenSet
        (DecimalPropertyDescriptor.scalar (fun (s : Float32) _ => (s, s)) (fun _ _ f => f)).get
        (DecimalPropertyDescriptor.scalar (fun (s : Float32) _ => (s, s)) (fun _ _ f => f)).set
        (-1) ⟨⟨0, 0, 128, 63⟩, 0⟩ ⟨⟨1, 2, 3, 4⟩, 0⟩
      = .ok (Float32.zero, ⟨[0, 0, 0, 0], 4⟩) := by
  refine ⟨rfl, rfl, rfl⟩

/-- C9: when the getter of an Enum descriptor and the getter of a scalar-bound Int
descriptor return the same `int` `v`, both `get` calls with index `-1` append the same 4
bytes, the representation of `v`; and on the same input blob both `set` calls hand the
same `int`, the one held in the next 4 bytes, to their setters and consume those 4 bytes. -/
theorem enum_wire_is_int_wire {S : Type} (e : EnumPropertyDescriptor S)
    (getI : S → Int → Int × S) (setI : S → Int → Int → S)
    (cmpE cmpI : ComponentUID S) (out : OutputBlob) (v : Int)
    (hE : (e.m_getter cmpE.scene cmpE.index).1 = v)
    (hI : (getI cmpI.scene cmpI.index).1 = v) :
    e.get cmpE (-1) out
      = .ok ((e.m_getter cmpE.scene cmpE.index).2, ⟨out.data ++ int32ToBytes v⟩)
    ∧ (IntPropertyDescriptor.single getI setI).get cmpI (-1) out
      = .ok ((getI cmpI.scene cmpI.index).2, ⟨out.data ++ int32ToBytes v⟩)
    ∧ ∀ (stream stream1 : InputBlob) (bytes : List Byte),
        stream.read 4 = some (bytes, stream1) →
        e.set cmpE (-1) stream
          = .ok (e.m_setter cmpE.scene cmpE.index (bytesToInt32 bytes), stream1)
        ∧ (IntPropertyDescriptor.single getI setI).set cmpI (-1) stream
          = .ok (setI cmpI.scene cmpI.index (bytesToInt32 bytes), stream1) := by
  refine ⟨?_, ?_, ?_⟩
  · simp [EnumPropertyDescriptor.get, OutputBlob.write, hE]
  · simp [IntPropertyDescriptor.get, OutputBlob.write, hI]
  · intro stream stream1 bytes hread
    simp [EnumPropertyDescriptor.set, IntPropertyDescriptor.set, hread]

/-! ## SampledFunctionDescriptor -/

theorem read_four (data : List Byte) (pos : Nat) (h : pos + 4 ≤ data.length) :
    InputBlob.read ⟨data, pos⟩ 4 = some ((data.drop pos).take 4, ⟨data, pos + 4⟩) := by
  simp [InputBlob.read, h]

theorem SampledFunctionDescriptor.getLoop_eq {S : Type} (d : SampledFunctionDescriptor S)
    (cmpIndex : Int) (n : Nat) :
    ∀ (k : Nat) (scene : S) (out : OutputBlob),
      d.getLoop cmpIndex n k scene out
        = (List.range' k n).foldl
            (fun (p : S × OutputBlob) (i : Nat) =>
              ((d.m_getter p.1 cmpIndex i).2, p.2.write (d.m_getter p.1 cmpIndex i).1.toBytes))
            (scene, out) := by
  induction n with
  | zero => intro k scene out; rfl
  | succ n ih =>
    intro k scene out
    have h := ih (k + 1) (d.m_getter scene cmpIndex k).2
      (out.write (d.m_getter scene cmpIndex k).1.toBytes)
    simp only [Nat.cast_add, Nat.cast_one] at h
    simp only [SampledFunctionDescriptor.getLoop, List.range'_succ, List.foldl_cons, h]

theorem SampledFunctionDescriptor.getLoop_length {S : Type} (d : SampledFunctionDescriptor S)
    (cmpIndex : Int) (n : Nat) :
    ∀ (i : Int) (scene : S) (out : OutputBlob),
      (d.getLoop cmpIndex n i scene out).2.data.length = out.data.length + 4 * n := by
  induction n with
  | zero => intro i scene out; rfl
  | succ n ih =>
    intro i scene out
    simp only [SampledFunctionDescriptor.getLoop, ih, OutputBlob.write, List.length_append,
      Float32.toBytes, List.length_cons, List.length_nil]
    omega

theorem SampledFunctionDescriptor.setLoop_eq {S : Type} (d : SampledFunctionDescriptor S)
    (cmpIndex : Int) (data : List Byte) (start : Nat) (n : Nat) :
    ∀ (k : Nat) (scene : S), start + 4 * (k + n) ≤ data.length →
      d.setLoop cmpIndex n k scene ⟨data, start + 4 * k⟩
        = .ok ((List.range' k n).foldl
            (fun (sc : S) (i : Nat) =>
              d.m_setter sc cmpIndex i (Float32.ofBytes ((data.drop (start + 4 * i)).take 4)))
            scene, ⟨data, start + 4 * (k + n)⟩) := by
  induction n with
  | zero => intro k scene _; rfl
  | succ n ih =>
    intro k scene hlen
    have hr := read_four data (start + 4 * k) (by omega)
    have h := ih (k + 1)
      (d.m_setter scene cmpIndex k (Float32.ofBytes ((data.drop (start + 4 * k)).take 4)))
      (by omega)
    have e1 : start + 4 * (k + 1) = start + 4 * k + 4 := by omega
    have e2 : start + 4 * (k + 1 + n) = start + 4 * (k + (n + 1)) := by omega
    simp only [Nat.cast_add, Nat.cast_one, e1, e2] at h
    simp only [SampledFunctionDescriptor.setLoop, hr, List.range'_succ, List.foldl_cons, h]

/-- C8: for a sampled-function descriptor with count `N`, `get` with index `-1` calls the
bound getter for the sample indices `0, 1, ..., N-1` in this order, appends the 4 bytes of
each result as it goes, and so appends exactly `4 * N` bytes; `set` with index `-1` on a
blob with `4 * N` bytes left calls the bound setter for the indices `0, 1, ..., N-1` in
this order, the call for index `i` with the float held in the `i`-th group of 4 bytes, and
consumes exactly `4 * N` bytes.  Neither result depends on `m_min` or `m_max`. -/
theorem sampled_function_fixed_length {S : Type} (d : SampledFunctionDescriptor S)
    (cmp : ComponentUID S) (out : OutputBlob) (stream : InputBlob)
    (hbytes : stream.pos + 4 * d.COUNT.toNat ≤ stream.data.length) :
    (∃ result : S × OutputBlob,
      d.get cmp (-1) out = .ok result
      ∧ result = (List.range d.COUNT.toNat).foldl
          (fun (p : S × OutputBlob) (i : Nat) =>
            ((d.m_getter p.1 cmp.index i).2, p.2.write (d.m_getter p.1 cmp.index i).1.toBytes))
          (cmp.scene, out)
      ∧ result.2.data.length = out.data.length + 4 * d.COUNT.toNat)
    ∧ d.set cmp (-1) stream
      = .ok ((List.range d.COUNT.toNat).foldl
          (fun (sc : S) (i : Nat) =>
            d.m_setter sc cmp.index i
              (Float32.ofBytes ((stream.data.drop (stream.pos + 4 * i)).take 4)))
          cmp.scene, ⟨stream.data, stream.pos + 4 * d.COUNT.toNat⟩) := by
  constructor
  · refine ⟨d.getLoop cmp.index d.COUNT.toNat 0 cmp.scene out, ?_, ?_, ?_⟩
    · simp [SampledFunctionDescriptor.get]
    · have h := d.getLoop_eq cmp.index d.COUNT.toNat 0 cmp.scene out
      rw [List.range_eq_range']
      simpa using h
    · exact d.getLoop_length cmp.index d.COUNT.toNat 0 cmp.scene out
  · have h := d.setLoop_eq cmp.index stream.data stream.pos d.COUNT.toNat 0 cmp.scene
      (by omega)
    rw [List.range_eq_range']
    simp only [Nat.mul_zero, Nat.add_zero, Nat.zero_add, Nat.cast_zero] at h
    simp [SampledFunctionDescriptor.set, h]

/-! ## ArrayDescriptor: the order of `get` -/

theorem getInOrder_append {S : Type} (cmpIndex : Int)
    (front back : List (Nat × IPropertyDescriptor S)) :
    ∀ (scene : S) (stream : OutputBlob),
      getInOrder cmpIndex (front ++ back) scene stream
        = match getInOrder cmpIndex front scene stream with
          | .error e => .error e
          | .ok (scene1, stream1) => getInOrder cmpIndex back scene1 stream1 := by
  induction front with
  | nil => intro scene stream; rfl
  | cons ic front ih =>
    intro scene stream
    obtain ⟨i, child⟩ := ic
    simp only [List.cons_append, getInOrder]
    cases child.get ⟨scene, cmpIndex⟩ i stream with
    | error e => rfl
    | ok r => exact ih r.1 r.2

theorem ArrayDescriptor.getChildren_eq {S : Type} (cmpIndex : Int) (i : Nat)
    (children : List (IPropertyDescriptor S)) :
    ∀ (scene : S) (stream : OutputBlob),
      ArrayDescriptor.getChildren cmpIndex i children scene stream
        = getInOrder cmpIndex (children.map (fun child => (i, child))) scene stream := by
  induction children with
  | nil => intro scene stream; rfl
  | cons child rest ih =>
    intro scene stream
    simp only [ArrayDescriptor.getChildren, List.map_cons, getInOrder]
    cases child.get ⟨scene, cmpIndex⟩ i stream with
    | error e => rfl
    | ok r => exact ih r.1 r.2

theorem ArrayDescriptor.getItems_eq {S : Type} (children : List (IPropertyDescriptor S))
    (cmpIndex : Int) (n : Nat) :
    ∀ (k : Nat) (scene : S) (stream : OutputBlob),
      ArrayDescriptor.getItems children cmpIndex n k scene stream
        = getInOrder cmpIndex
            ((List.range' k n).flatMap (fun i => children.map (fun child => (i, child))))
            scene stream := by
  induction n with
  | zero => intro k scene stream; rfl
  | succ n ih =>
    intro k scene stream
    simp only [ArrayDescriptor.getItems, List.range'_succ, List.flatMap_cons, getInOrder_append,
      ArrayDescriptor.getChildren_eq]
    cases getInOrder cmpIndex (children.map (fun child => (k, child))) scene stream with
    | error e => rfl
    | ok r =>
      have h := ih (k + 1) r.1 r.2
      simp only [Nat.cast_add, Nat.cast_one] at h
      exact h

/-- C6: `ArrayDescriptor::get` with index `-1` asks the host for its item count `n`,
appends the 4 bytes of `n`, and then calls `get(cmp, i, stream)` of the children in
item-major, field-minor order: `c_0 .. c_{m-1}` for item 0, then for item 1, up to item
`n - 1`, each call appending after the previous one.  On the example host with the two
items `(a, s)` and `(b, t)` and children `(int, string)` the blob written is
count `2`, `a`, the characters of `s` and a terminator, `b`, the characters of `t` and a
terminator. -/
theorem array_get_item_major {S : Type} (d : ArrayDescriptor S) (cmp : ComponentUID S)
    (out : OutputBlob) (a b : Int) (s t : List Byte) (c : Int) :
    d.get cmp (-1) out
      = getInOrder cmp.index
          (itemMajorOrder (d.m_counter cmp.scene cmp.index).1.toNat d.m_children)
          (d.m_counter cmp.scene cmp.index).2
          (out.write (int32ToBytes (d.m_counter cmp.scene cmp.index).1))
    ∧ Item.descriptor.get ⟨[⟨a, s⟩, ⟨b, t⟩], c⟩ (-1) OutputBlob.empty
      = .ok ([⟨a, s⟩, ⟨b, t⟩],
          ⟨int32ToBytes 2 ++ int32ToBytes a ++ stringOf s ++ [0]
            ++ int32ToBytes b ++ stringOf t ++ [0]⟩) := by
  constructor
  · have h := ArrayDescriptor.getItems_eq d.m_children cmp.index
      (d.m_counter cmp.scene cmp.index).1.toNat 0 (d.m_counter cmp.scene cmp.index).2
      (out.write (int32ToBytes (d.m_counter cmp.scene cmp.index).1))
    simp only [Nat.cast_zero] at h
    simp [ArrayDescriptor.get, ArrayDescriptor.getCount, itemMajorOrder, List.range_eq_range', h]
  · simp [ArrayDescriptor.get, ArrayDescriptor.getCount, Item.descriptor, Item.count,
      ArrayDescriptor.getItems, ArrayDescriptor.getChildren, IntPropertyDescriptor.toBase,
      StringArrayObjectDescriptor.toBase, IntPropertyDescriptor.get,
      StringArrayObjectDescriptor.get, Item.getId, Item.getName, OutputBlob.write,
      OutputBlob.empty]

/-! ## ArrayDescriptor: resizing in `set` -/

theorem bytesToInt32_isInt32 (bs : List Byte) : isInt32 (bytesToInt32 bs) := by
  unfold isInt32 bytesToInt32
  split
  · rename_i b0 b1 b2 b3
    have h0 := b0.isLt
    have h1 := b1.isLt
    have h2 := b2.isLt
    have h3 := b3.isLt
    simp only []
    split_ifs <;> omega
  · omega

theorem wrapInt32_of_isInt32 (i : Int) (h : isInt32 i) : wrapInt32 i = i := by
  unfold isInt32 at h
  unfold wrapInt32
  omega

/-- The grow loop on a host whose counter leaves the scene alone and whose adder, called
with index `-1`, raises the count by one: `m` items short of `count`, it makes exactly `m`
calls of the adder, each with index `-1`. -/
theorem ArrayDescriptor.growLoop_eq {S : Type} (d : ArrayDescriptor S) (c : Int) (count : Int)
    (hcount : count < 2147483648)
    (hpure : ∀ s, (d.m_counter s c).2 = s)
    (hadd : ∀ s, (d.m_counter s c).1 < 2147483647 →
      (d.m_counter (d.m_adder s c (-1)) c).1 = (d.m_counter s c).1 + 1) (m : Nat) :
    ∀ (fuel : Nat) (scene : S), (d.m_counter scene c).1 + m = count → m < fuel →
      d.growLoop c count fuel scene = .ok ((fun s => d.m_adder s c (-1))^[m] scene)
      ∧ (d.m_counter ((fun s => d.m_adder s c (-1))^[m] scene) c).1 = count := by
  induction m with
  | zero =>
    intro fuel scene hk hfuel
    obtain ⟨fuel1, rfl⟩ : ∃ f, fuel = f + 1 := ⟨fuel - 1, by omega⟩
    have hk0 : (d.m_counter scene c).1 = count := by simpa using hk
    simp [ArrayDescriptor.growLoop, ArrayDescriptor.getCount, hk0, hpure]
  | succ m ih =>
    intro fuel scene hk hfuel
    obtain ⟨fuel1, rfl⟩ : ∃ f, fuel = f + 1 := ⟨fuel - 1, by omega⟩
    have hlt : (d.m_counter scene c).1 < count := by push_cast at hk; omega
    have hstep := hadd scene (by omega)
    have h := ih fuel1 (d.m_adder scene c (-1)) (by push_cast at hk; omega) (by omega)
    simp only [Function.iterate_succ, Function.comp_apply]
    refine ⟨?_, h.2⟩
    simp [ArrayDescriptor.growLoop, ArrayDescriptor.getCount, ArrayDescriptor.addArrayItem,
      hlt, hpure, h.1]

/-- The grow loop does nothing when the host already has `count` items or more. -/
theorem ArrayDescriptor.growLoop_skip {S : Type} (d : ArrayDescriptor S) (c : Int)
    (count : Int) (hpure : ∀ s, (d.m_counter s c).2 = s) (fuel : Nat) (scene : S)
    (hk : count ≤ (d.m_counter scene c).1) :
    d.growLoop c count (fuel + 1) scene = .ok scene := by
  have hnot : ¬ (d.m_counter scene c).1 < count := by omega
  simp [ArrayDescriptor.growLoop, ArrayDescriptor.getCount, hnot, hpure]

/-- The shrink loop on a host whose counter leaves the scene alone and whose remover,
called on a non-empty list with the index of the last item, lowers the count by one: `m`
items above `count`, it makes exactly `m` calls of the remover, with the indices
`k - 1, k - 2, ..., count` where `k` is the count it starts from. -/
theorem ArrayDescriptor.shrinkLoop_eq {S : Type} (d : ArrayDescriptor S) (c : Int)
    (count : Int) (hcount : 0 ≤ count)
    (hpure : ∀ s, (d.m_counter s c).2 = s)
    (hrem : ∀ s, 0 < (d.m_counter s c).1 →
      (d.m_counter (d.m_remover s c ((d.m_counter s c).1 - 1)) c).1
        = (d.m_counter s c).1 - 1) (m : Nat) :
    ∀ (fuel : Nat) (scene : S), (d.m_counter scene c).1 = count + m →
      (d.m_counter scene c).1 < 2147483648 → m < fuel →
      d.shrinkLoop c count fuel scene
        = .ok (((List.range m).map (fun (j : Nat) => (d.m_counter scene c).1 - 1 - (j : Int))).foldl
            (fun s i => d.m_remover s c i) scene)
      ∧ (d.m_counter (((List.range m).map
            (fun (j : Nat) => (d.m_counter scene c).1 - 1 - (j : Int))).foldl
            (fun s i => d.m_remover s c i) scene) c).1 = count := by
  induction m with
  | zero =>
    intro fuel scene hk _ hfuel
    obtain ⟨fuel1, rfl⟩ : ∃ f, fuel = f + 1 := ⟨fuel - 1, by omega⟩
    have hk0 : (d.m_counter scene c).1 = count := by simpa using hk
    simp [ArrayDescriptor.shrinkLoop, ArrayDescriptor.getCount, hk0, hpure]
  | succ m ih =>
    intro fuel scene hk hmax hfuel
    obtain ⟨fuel1, rfl⟩ : ∃ f, fuel = f + 1 := ⟨fuel - 1, by omega⟩
    push_cast at hk
    have hgt : (d.m_counter scene c).1 > count := by omega
    have hstep := hrem scene (by omega)
    have hwrap : wrapInt32 ((d.m_counter scene c).1 - 1) = (d.m_counter scene c).1 - 1 :=
      wrapInt32_of_isInt32 _ ⟨by omega, by omega⟩
    have h := ih fuel1 (d.m_remover scene c ((d.m_counter scene c).1 - 1)) (by omega)
      (by omega) (by omega)
    rw [hstep] at h
    have hlist : (List.range (m + 1)).map (fun (j : Nat) => (d.m_counter scene c).1 - 1 - (j : Int))
        = ((d.m_counter scene c).1 - 1)
          :: (List.range m).map (fun (j : Nat) => (d.m_counter scene c).1 - 1 - 1 - (j : Int)) := by
      rw [List.range_succ_eq_map, List.map_cons, List.map_map]
      simp only [Nat.cast_zero, sub_zero, List.cons.injEq, true_and]
      apply List.map_congr_left
      intro j _
      simp only [Function.comp_apply, Nat.cast_succ]
      omega
    rw [hlist, List.foldl_cons]
    refine ⟨?_, h.2⟩
    simp [ArrayDescriptor.shrinkLoop, ArrayDescriptor.getCount,
      ArrayDescriptor.removeArrayItem, hgt, hpure, hwrap, h.1]

/-- The shrink loop does nothing when the host has `count` items or fewer. -/
theorem ArrayDescriptor.shrinkLoop_skip {S : Type} (d : ArrayDescriptor S) (c : Int)
    (count : Int) (hpure : ∀ s, (d.m_counter s c).2 = s) (fuel : Nat) (scene : S)
    (hk : (d.m_counter scene c).1 ≤ count) :
    d.shrinkLoop c count (fuel + 1) scene = .ok scene := by
  have hnot : ¬ (d.m_counter scene c).1 > count := by omega
  simp [ArrayDescriptor.shrinkLoop, ArrayDescriptor.getCount, hnot, hpure]

/-- C7: `ArrayDescriptor::set` with index `-1` on a host whose counter only reads, whose
adder called with index `-1` raises the count by one and whose remover called with the
index of the last item lowers it by one.  With `k` the host count and `t ≥ 0` the count
read from the blob, and fuel for `|t - k|` iterations: if `k < t` the host receives
exactly `t - k` adder calls, each with index `-1`, and no remover call; if `t < k` it
receives exactly `k - t` remover calls, with the indices `k - 1, k - 2, ..., t`, and no
adder call; if `t = k` it receives neither.  In every case the host count is `t` when the
loop over the children starts. -/
theorem array_set_resizes_to_count {S : Type} (fuel : Nat) (d : ArrayDescriptor S)
    (cmp : ComponentUID S) (stream stream1 : InputBlob) (bytes : List Byte) (k t : Int)
    (hread : stream.read 4 = some (bytes, stream1))
    (ht : bytesToInt32 bytes = t) (ht0 : 0 ≤ t)
    (hk : (d.m_counter cmp.scene cmp.index).1 = k) (hk32 : isInt32 k)
    (hpure : ∀ s, (d.m_counter s cmp.index).2 = s)
    (hadd : ∀ s, (d.m_counter s cmp.index).1 < 2147483647 →
      (d.m_counter (d.m_adder s cmp.index (-1)) cmp.index).1
        = (d.m_counter s cmp.index).1 + 1)
    (hrem : ∀ s, 0 < (d.m_counter s cmp.index).1 →
      (d.m_counter (d.m_remover s cmp.index ((d.m_counter s cmp.index).1 - 1)) cmp.index).1
        = (d.m_counter s cmp.index).1 - 1)
    (hfuel : (t - k).natAbs < fuel) :
    ∃ resized : S,
      d.set fuel cmp (-1) stream
        = ArrayDescriptor.setItems d.m_children cmp.index t.toNat 0 resized stream1
      ∧ (d.m_counter resized cmp.index).1 = t
      ∧ (k < t → resized = (fun s => d.m_adder s cmp.index (-1))^[(t - k).toNat] cmp.scene)
      ∧ (t < k → resized
          = ((List.range (k - t).toNat).map (fun (j : Nat) => k - 1 - (j : Int))).foldl
              (fun s i => d.m_remover s cmp.index i) cmp.scene)
      ∧ (t = k → resized = cmp.scene) := by
  have ht32 : isInt32 t := ht ▸ bytesToInt32_isInt32 bytes
  unfold isInt32 at ht32 hk32
  obtain ⟨fuel1, rfl⟩ : ∃ f, fuel = f + 1 := ⟨fuel - 1, by omega⟩
  rcases lt_trichotomy k t with hlt | heq | hgt
  · -- the host is short of items: the first loop adds, the second does nothing
    have hg := d.growLoop_eq cmp.index t ht32.2 hpure hadd (t - k).toNat (fuel1 + 1) cmp.scene
      (by rw [hk]; omega) (by omega)
    refine ⟨(fun s => d.m_adder s cmp.index (-1))^[(t - k).toNat] cmp.scene, ?_, hg.2,
      fun _ => rfl, fun h => absurd h (by omega), fun h => absurd h (by omega)⟩
    have hs := d.shrinkLoop_skip cmp.index t hpure fuel1 _ (le_of_eq hg.2)
    simp [ArrayDescriptor.set, hread, ht, hg.1, hs]
  · -- the counts agree: neither loop runs its body
    subst heq
    have hg := d.growLoop_skip cmp.index k hpure fuel1 cmp.scene (le_of_eq hk.symm)
    have hs := d.shrinkLoop_skip cmp.index k hpure fuel1 cmp.scene (le_of_eq hk)
    refine ⟨cmp.scene, ?_, hk, fun h => absurd h (by omega), fun h => absurd h (by omega),
      fun _ => rfl⟩
    simp [ArrayDescriptor.set, hread, ht, hg, hs]
  · -- the host has too many items: the first loop does nothing, the second removes
    have hg := d.growLoop_skip cmp.index t hpure fuel1 cmp.scene (by rw [hk]; omega)
    have hs := d.shrinkLoop_eq cmp.index t ht0 hpure hrem (k - t).toNat (fuel1 + 1) cmp.scene
      (by rw [hk]; omega) (by rw [hk]; omega) (by omega)
    rw [hk] at hs
    refine ⟨_, ?_, hs.2, fun h => absurd h (by omega), fun _ => rfl,
      fun h => absurd h (by omega)⟩
    simp [ArrayDescriptor.set, hread, ht, hg, hs.1]

/-! ## Instances on concrete hosts -/

/-- Instance of C1: an int field holding `-5`, read with `get` and applied with `set`. -/
theorem scalar_get_set_round_trip_witness :
    isInt32 (-5)
    ∧ getThenSet (IntPropertyDescriptor.single (fun (s : Int) _ => (s, s)) (fun _ _ v => v)).get
        (IntPropertyDescriptor.single (fun (s : Int) _ => (s, s)) (fun _ _ v => v)).set
        (-1) ⟨-5, 0⟩ ⟨0, 0⟩
      = .ok (-5, ⟨int32ToBytes (-5), 4⟩) :=
  ⟨by decide,
    (@scalar_get_set_round_trip Int (fun s _ => (s, s)) (fun _ _ v => v)
      ⟨fun s _ => (true, s), fun s _ _ => s⟩
      ⟨fun s _ => (⟨Float32.zero, Float32.zero⟩, s), fun s _ _ => s⟩
      ⟨fun s _ => (⟨Float32.zero, Float32.zero, Float32.zero⟩, s), fun s _ _ => s⟩
      ⟨fun s _ => (⟨Float32.zero, Float32.zero, Float32.zero, Float32.zero⟩, s),
        fun s _ _ => s⟩
      ⟨fun s _ => (⟨Float32.zero, Float32.zero, Float32.zero⟩, s), fun s _ _ => s⟩
      ⟨-5, 0⟩ ⟨0, 0⟩ (by decide)).1⟩

/-- Instance of C3: the string `"Hi"` written by `get` and applied by `set`. -/
theorem string_get_set_round_trip_witness :
    getThenSet (StringPropertyDescriptor.mk (fun (s : List Byte) _ => (s, s)) (fun _ _ v => v)).get
        (StringPropertyDescriptor.mk (fun (s : List Byte) _ => (s, s)) (fun _ _ v => v)).set
        (-1) ⟨[72, 105], 0⟩ ⟨[], 0⟩
      = .ok ([72, 105], ⟨[72, 105, 0], 3⟩) :=
  (@string_get_set_round_trip (List Byte) ⟨fun s _ => (s, s), fun _ _ v => v⟩
    ⟨fun s _ _ => (s, s), fun _ _ _ v => v⟩ ⟨[72, 105], 0⟩ ⟨[], 0⟩ 0 [72, 105]
    (by decide) (by simp) rfl rfl).1

/-- Instance of C10: `get` on a host whose string is `"Hi"` writes `48 69 00`. -/
theorem string_get_appends_terminated_witness :
    (StringPropertyDescriptor.mk (fun (s : List Byte) _ => (s, s)) (fun _ _ v => v)).get
        ⟨[72, 105], 0⟩ (-1) OutputBlob.empty
      = .ok ([72, 105], ⟨[72, 105, 0]⟩) :=
  (@string_get_appends_terminated (List Byte) ⟨fun s _ => (s, s), fun _ _ v => v⟩
    ⟨fun s _ _ => (s, s), fun _ _ _ v => v⟩ ⟨[72, 105], 0⟩ 0 OutputBlob.empty
    (by simp) (by simp)).1

/-- Instance of C9: an enum field and an int field that both hold `2`. -/
theorem enum_wire_is_int_wire_witness :
    (EnumPropertyDescriptor.mk (fun (s : Int) _ => (s, s)) (fun _ _ v => v) (fun _ => 3)
        (fun s _ => ([], s))).get ⟨2, 0⟩ (-1) OutputBlob.empty
      = .ok (2, ⟨[] ++ int32ToBytes 2⟩)
    ∧ (IntPropertyDescriptor.single (fun (s : Int) _ => (s, s)) (fun _ _ v => v)).get
        ⟨2, 1⟩ (-1) OutputBlob.empty
      = .ok (2, ⟨[] ++ int32ToBytes 2⟩) :=
  have h := @enum_wire_is_int_wire Int
    ⟨fun s _ => (s, s), fun _ _ v => v, fun _ => 3, fun s _ => ([], s)⟩
    (fun s _ => (s, s)) (fun _ _ v => v) ⟨2, 0⟩ ⟨2, 1⟩ OutputBlob.empty 2 rfl rfl
  ⟨h.1, h.2.1⟩

/-- Instance of C8: a curve of 8 samples held as a list, and a blob of 32 bytes. -/
theorem sampled_function_fixed_length_witness :
    (SampledFunctionDescriptor.mk 8 (fun (s : List Float32) _ i => (s.getD i.toNat Float32.zero, s))
        (fun s _ i f => s.set i.toNat f) Float32.zero Float32.zero).set
        ⟨List.replicate 8 Float32.zero, 0⟩ (-1) (InputBlob.over (List.replicate 32 1))
      = .ok ((List.range 8).foldl
          (fun (sc : List Float32) (i : Nat) =>
            sc.set (i : Int).toNat
              (Float32.ofBytes (((List.replicate 32 (1 : Byte)).drop (0 + 4 * i)).take 4)))
          (List.replicate 8 Float32.zero), ⟨List.replicate 32 1, 0 + 4 * 8⟩) :=
  (@sampled_function_fixed_length (List Float32)
    ⟨8, fun s _ i => (s.getD i.toNat Float32.zero, s), fun s _ i f => s.set i.toNat f,
      Float32.zero, Float32.zero⟩
    ⟨List.replicate 8 Float32.zero, 0⟩ OutputBlob.empty (InputBlob.over (List.replicate 32 1))
    (by decide)).2

/-- Instance of C7: the example host with one item, and a blob that asks for three. -/
theorem array_set_resizes_to_count_witness :
    ∃ resized : List Item,
      (Item.descriptor.m_counter resized 0).1 = 3
      ∧ resized = (fun s => Item.add s 0 (-1))^[2] [⟨7, []⟩] := by
  obtain ⟨resized, -, hcount, hgrow, -, -⟩ :=
    array_set_resizes_to_count 3 Item.descriptor ⟨[⟨7, []⟩], 0⟩ (InputBlob.over [3, 0, 0, 0])
      ⟨[3, 0, 0, 0], 4⟩ [3, 0, 0, 0] 1 3 (by decide) (by decide) (by decide) (by decide)
      (by decide) (fun _ => rfl)
      (by intro s _; simp [Item.descriptor, Item.count, Item.add])
      (by
        intro s hs
        simp only [Item.descriptor, Item.count] at hs ⊢
        have hidx : ¬ ((s.length : Int) - 1 < 0) := by omega
        simp only [Item.remove, hidx, if_false, List.length_eraseIdx]
        split_ifs <;> omega)
      (by decide)
  exact ⟨resized, hcount, hgrow (by decide)⟩


/-! ## The index assertion -/

/-- C11: for the Array, String, Bool, Vec2, Vec3, Vec4, Color, Enum and SampledFunction
descriptors, `get` and `set` with an index other than `-1` stop at the assertion, whatever
the host, the blob, the fuel and the children of the array.  The assertion is the first
statement: at the fault the scene is the one the caller passed, so no getter, setter,
counter, adder or remover has been invoked, and the blob is the one the caller passed, so
no byte has been read or written.  The plain results are the assertion fault as well. -/
theorem index_assertion_fails {S : Type} (fuel : Nat) (dA : ArrayDescriptor S)
    (children : List (IPropertyDescriptorOutcome S))
    (dS : StringPropertyDescriptor S) (dB : BoolPropertyDescriptor S)
    (d2 : Vec2PropertyDescriptor S) (d3 : Vec3PropertyDescriptor S)
    (d4 : Vec4PropertyDescriptor S) (dC : ColorPropertyDescriptor S)
    (dE : EnumPropertyDescriptor S) (dF : SampledFunctionDescriptor S)
    (cmp : ComponentUID S) (index : Int) (stream : InputBlob) (out : OutputBlob)
    (hindex : index ≠ -1) :
    ((dA.getOutcome children cmp index out = .fault .assertion cmp.scene out
        ∧ dA.setOutcome fuel children cmp index stream = .fault .assertion cmp.scene stream)
      ∧ (dS.getOutcome cmp index out = .fault .assertion cmp.scene out
        ∧ dS.setOutcome cmp index stream = .fault .assertion cmp.scene stream)
      ∧ (dB.getOutcome cmp index out = .fault .assertion cmp.scene out
        ∧ dB.setOutcome cmp index stream = .fault .assertion cmp.scene stream)
      ∧ (d2.getOutcome cmp index out = .fault .assertion cmp.scene out
        ∧ d2.setOutcome cmp index stream = .fault .assertion cmp.scene stream)
      ∧ (d3.getOutcome cmp index out = .fault .assertion cmp.scene out
        ∧ d3.setOutcome cmp index stream = .fault .assertion cmp.scene stream)
      ∧ (d4.getOutcome cmp index out = .fault .assertion cmp.scene out
        ∧ d4.setOutcome cmp index stream = .fault .assertion cmp.scene stream)
      ∧ (dC.getOutcome cmp index out = .fault .assertion cmp.scene out
        ∧ dC.setOutcome cmp index stream = .fault .assertion cmp.scene stream)
      ∧ (dE.getOutcome cmp index out = .fault .assertion cmp.scene out
        ∧ dE.setOutcome cmp index stream = .fault .assertion cmp.scene stream)
      ∧ (dF.getOutcome cmp index out = .fault .assertion cmp.scene out
        ∧ dF.setOutcome cmp index stream = .fault .assertion cmp.scene stream))
    ∧ (dA.get cmp index out = .error .assertion ∧ dA.set fuel cmp index stream = .error .assertion)
    ∧ (dS.get cmp index out = .error .assertion ∧ dS.set cmp index stream = .error .assertion)
    ∧ (dB.get cmp index out = .error .assertion ∧ dB.set cmp index stream = .error .assertion)
    ∧ (d2.get cmp index out = .error .assertion ∧ d2.set cmp index stream = .error .assertion)
    ∧ (d3.get cmp index out = .error .assertion ∧ d3.set cmp index stream = .error .assertion)
    ∧ (d4.get cmp index out = .error .assertion ∧ d4.set cmp index stream = .error .assertion)
    ∧ (dC.get cmp index out = .error .assertion ∧ dC.set cmp index stream = .error .assertion)
    ∧ (dE.get cmp index out = .error .assertion ∧ dE.set cmp index stream = .error .assertion)
    ∧ (dF.get cmp index out = .error .assertion
        ∧ dF.set cmp index stream = .error .assertion) := by
  refine ⟨⟨⟨?_, ?_⟩, ⟨?_, ?_⟩, ⟨?_, ?_⟩, ⟨?_, ?_⟩, ⟨?_, ?_⟩, ⟨?_, ?_⟩, ⟨?_, ?_⟩, ⟨?_, ?_⟩,
      ⟨?_, ?_⟩⟩,
    ⟨?_, ?_⟩, ⟨?_, ?_⟩, ⟨?_, ?_⟩, ⟨?_, ?_⟩, ⟨?_, ?_⟩, ⟨?_, ?_⟩, ⟨?_, ?_⟩, ⟨?_, ?_⟩, ⟨?_, ?_⟩⟩
  · simp [ArrayDescriptor.getOutcome, hindex]
  · simp [ArrayDescriptor.setOutcome, hindex]
  · simp [StringPropertyDescriptor.getOutcome, hindex]
  · simp [StringPropertyDescriptor.setOutcome, hindex]
  · simp [BoolPropertyDescriptor.getOutcome, hindex]
  · simp [BoolPropertyDescriptor.setOutcome, hindex]
  · simp [Vec2PropertyDescriptor.getOutcome, hindex]
  · simp [Vec2PropertyDescriptor.setOutcome, hindex]
  · simp [Vec3PropertyDescriptor.getOutcome, hindex]
  · simp [Vec3PropertyDescriptor.setOutcome, hindex]
  · simp [Vec4PropertyDescriptor.getOutcome, hindex]
  · simp [Vec4PropertyDescriptor.setOutcome, hindex]
  · simp [ColorPropertyDescriptor.getOutcome, hindex]
  · simp [ColorPropertyDescriptor.setOutcome, hindex]
  · simp [EnumPropertyDescriptor.getOutcome, hindex]
  · simp [EnumPropertyDescriptor.setOutcome, hindex]
  · simp [SampledFunctionDescriptor.getOutcome, hindex]
  · simp [SampledFunctionDescriptor.setOutcome, hindex]
  · simp [ArrayDescriptor.get, hindex]
  · simp [ArrayDescriptor.set, hindex]
  · simp [StringPropertyDescriptor.get, hindex]
  · simp [StringPropertyDescriptor.set, hindex]
  · simp [BoolPropertyDescriptor.get, hindex]
  · simp [BoolPropertyDescriptor.set, hindex]
  · simp [Vec2PropertyDescriptor.get, hindex]
  · simp [Vec2PropertyDescriptor.set, hindex]
  · simp [Vec3PropertyDescriptor.get, hindex]
  · simp [Vec3PropertyDescriptor.set, hindex]
  · simp [Vec4PropertyDescriptor.get, hindex]
  · simp [Vec4PropertyDescriptor.set, hindex]
  · simp [ColorPropertyDescriptor.get, hindex]
  · simp [ColorPropertyDescriptor.set, hindex]
  · simp [EnumPropertyDescriptor.get, hindex]
  · simp [EnumPropertyDescriptor.set, hindex]
  · simp [SampledFunctionDescriptor.get, hindex]
  · simp [SampledFunctionDescriptor.set, hindex]

/-- Instance of C11: a bool descriptor on a host that counts entry-point calls, called
with index `0` on a blob of one byte: the count is still `0` and the cursor still at `0`
at the fault. -/
theorem index_assertion_fails_witness :
    (0 : Int) ≠ -1
    ∧ (BoolPropertyDescriptor.mk (fun (calls : Nat) _ => (true, calls + 1))
        (fun calls _ _ => calls + 1)).setOutcome ⟨0, 0⟩ 0 (InputBlob.over [1])
      = .fault .assertion 0 (InputBlob.over [1]) :=
  ⟨by decide,
    (@index_assertion_fails Nat 1
      ⟨fun s _ => (0, s + 1), fun s _ _ => s + 1, fun s _ _ => s + 1, []⟩ []
      ⟨fun s _ => ([], s + 1), fun s _ _ => s + 1⟩
      ⟨fun calls _ => (true, calls + 1), fun calls _ _ => calls + 1⟩
      ⟨fun s _ => (⟨Float32.zero, Float32.zero⟩, s + 1), fun s _ _ => s + 1⟩
      ⟨fun s _ => (⟨Float32.zero, Float32.zero, Float32.zero⟩, s + 1), fun s _ _ => s + 1⟩
      ⟨fun s _ => (⟨Float32.zero, Float32.zero, Float32.zero, Float32.zero⟩, s + 1),
        fun s _ _ => s + 1⟩
      ⟨fun s _ => (⟨Float32.zero, Float32.zero, Float32.zero⟩, s + 1), fun s _ _ => s + 1⟩
      ⟨fun s _ => (0, s + 1), fun s _ _ => s + 1, fun _ => 0, fun s _ => ([], s)⟩
      ⟨8, fun s _ _ => (Float32.zero, s + 1), fun s _ _ _ => s + 1, Float32.zero, Float32.zero⟩
      ⟨0, 0⟩ 0 (InputBlob.over [1]) OutputBlob.empty (by decide)).1.2.2.1.2⟩

/-! ## Dispatch on the index in Int and Decimal -/

/-- C13: `IntPropertyDescriptor::get`/`set` and `DecimalPropertyDescriptor::set` with
index `-1` invoke the scalar entry point with the component index alone, and with an
index `≥ 0` invoke the array-element entry point with the component index and that
index; the other pair does not occur in the result.  `get` appends the 4 bytes of the
value the getter returned, `set` consumes 4 bytes and hands the setter the value they
hold. -/
theorem int_decimal_dispatch {S : Type}
    (getS : S → Int → Int × S) (setS : S → Int → Int → S)
    (getA : S → Int → Int → Int × S) (setA : S → Int → Int → Int → S)
    (dS dA : DecimalPropertyDescriptor S)
    (fS : S → Int → Float32 → S) (fA : S → Int → Int → Float32 → S)
    (cmp : ComponentUID S) (index : Int) (out : OutputBlob) (data : List Byte) (pos : Nat)
    (hindex : 0 ≤ index) (hbytes : pos + 4 ≤ data.length)
    (hS : dS.m_setter = some fS) (hA : dA.m_array_setter = some fA) :
    (IntPropertyDescriptor.single getS setS).get cmp (-1) out
      = .ok ((getS cmp.scene cmp.index).2,
          ⟨out.data ++ int32ToBytes (getS cmp.scene cmp.index).1⟩)
    ∧ (IntPropertyDescriptor.single getS setS).set cmp (-1) ⟨data, pos⟩
      = .ok (setS cmp.scene cmp.index (bytesToInt32 ((data.drop pos).take 4)), ⟨data, pos + 4⟩)
    ∧ (IntPropertyDescriptor.array getA setA).get cmp index out
      = .ok ((getA cmp.scene cmp.index index).2,
          ⟨out.data ++ int32ToBytes (getA cmp.scene cmp.index index).1⟩)
    ∧ (IntPropertyDescriptor.array getA setA).set cmp index ⟨data, pos⟩
      = .ok (setA cmp.scene cmp.index index (bytesToInt32 ((data.drop pos).take 4)),
          ⟨data, pos + 4⟩)
    ∧ dS.set cmp (-1) ⟨data, pos⟩
      = .ok (fS cmp.scene cmp.index (Float32.ofBytes ((data.drop pos).take 4)), ⟨data, pos + 4⟩)
    ∧ dA.set cmp index ⟨data, pos⟩
      = .ok (fA cmp.scene cmp.index index (Float32.ofBytes ((data.drop pos).take 4)),
          ⟨data, pos + 4⟩)
    ∧ ∀ v : Int, (int32ToBytes v).length = 4 ∧ (isInt32 v → bytesToInt32 (int32ToBytes v) = v) := by
  have hr := read_four data pos hbytes
  have hneg : ¬ (index < 0) := by omega
  refine ⟨?_, ?_, ?_, ?_, ?_, ?_, fun v => ⟨rfl, bytesToInt32_int32ToBytes v⟩⟩
  · simp [IntPropertyDescriptor.get, OutputBlob.write]
  · simp [IntPropertyDescriptor.set, hr]
  · simp [IntPropertyDescriptor.get, OutputBlob.write, hneg]
  · simp [IntPropertyDescriptor.set, hr, hneg]
  · simp [DecimalPropertyDescriptor.set, hr, hS]
  · simp [DecimalPropertyDescriptor.set, hr, hA, hindex]

/-- Instance of C13: an int held by the scene, read from a blob with index `-1`. -/
theorem int_decimal_dispatch_witness :
    (IntPropertyDescriptor.single (fun (s : Int) _ => (s, s)) (fun _ _ v => v)).set
        ⟨0, 0⟩ (-1) ⟨[9, 0, 0, 0], 0⟩
      = .ok (bytesToInt32 (([9, 0, 0, 0] : List Byte).drop 0 |>.take 4), ⟨[9, 0, 0, 0], 0 + 4⟩) :=
  (@int_decimal_dispatch Int (fun s _ => (s, s)) (fun _ _ v => v)
    (fun s _ _ => (s, s)) (fun _ _ _ v => v)
    (DecimalPropertyDescriptor.scalar (fun s _ => (Float32.zero, s)) (fun s _ _ => s))
    (DecimalPropertyDescriptor.array (fun s _ _ => (Float32.zero, s)) (fun s _ _ _ => s))
    (fun s _ _ => s) (fun s _ _ _ => s) ⟨0, 0⟩ 3 OutputBlob.empty [9, 0, 0, 0] 0
    (by decide) (by decide) rfl rfl).2.1

/-! ## Fixed widths -/

/-- C14: one successful `get` appends and one `set` consumes a number of bytes fixed by
the descriptor kind: Int 4, Enum 4, Decimal 4, Bool 1, Vec2 8, Vec3 12, Color 12, Vec4 16,
whatever the host state.  `get` leaves the bytes already in the output blob in place and
takes no input blob; `set` leaves the bytes of the input blob as they are and takes no
output blob.  Int and Decimal are called on the pair they were built with (index `-1` or
an index `≥ 0`), the others with index `-1`; `set` is given a blob with that many bytes
left. -/
theorem scalar_fixed_width {S : Type}
    (getS : S → Int → Int × S) (setS : S → Int → Int → S)
    (getA : S → Int → Int → Int × S) (setA : S → Int → Int → Int → S)
    (dE : EnumPropertyDescriptor S)
    (getD : S → Int → Float32 × S) (setD : S → Int → Float32 → S)
    (getDA : S → Int → Int → Float32 × S) (setDA : S → Int → Int → Float32 → S)
    (dB : BoolPropertyDescriptor S) (d2 : Vec2PropertyDescriptor S)
    (d3 : Vec3PropertyDescriptor S) (dC : ColorPropertyDescriptor S)
    (d4 : Vec4PropertyDescriptor S)
    (cmp : ComponentUID S) (index : Int) (out : OutputBlob) (stream : InputBlob)
    (hindex : 0 ≤ index) :
    (Appends ((IntPropertyDescriptor.single getS setS).get cmp (-1) out) out 4
      ∧ Appends ((IntPropertyDescriptor.array getA setA).get cmp index out) out 4
      ∧ Appends (dE.get cmp (-1) out) out 4
      ∧ Appends ((DecimalPropertyDescriptor.scalar getD setD).get cmp (-1) out) out 4
      ∧ Appends ((DecimalPropertyDescriptor.array getDA setDA).get cmp index out) out 4
      ∧ Appends (dB.get cmp (-1) out) out 1
      ∧ Appends (d2.get cmp (-1) out) out 8
      ∧ Appends (d3.get cmp (-1) out) out 12
      ∧ Appends (dC.get cmp (-1) out) out 12
      ∧ Appends (d4.get cmp (-1) out) out 16)
    ∧ (stream.pos + 4 ≤ stream.data.length →
        Consumes ((IntPropertyDescriptor.single getS setS).set cmp (-1) stream) stream 4
        ∧ Consumes ((IntPropertyDescriptor.array getA setA).set cmp index stream) stream 4
        ∧ Consumes (dE.set cmp (-1) stream) stream 4
        ∧ Consumes ((DecimalPropertyDescriptor.scalar getD setD).set cmp (-1) stream) stream 4
        ∧ Consumes ((DecimalPropertyDescriptor.array getDA setDA).set cmp index stream) stream 4)
    ∧ (stream.pos + 1 ≤ stream.data.length → Consumes (dB.set cmp (-1) stream) stream 1)
    ∧ (stream.pos + 8 ≤ stream.data.length → Consumes (d2.set cmp (-1) stream) stream 8)
    ∧ (stream.pos + 12 ≤ stream.data.length →
        Consumes (d3.set cmp (-1) stream) stream 12
        ∧ Consumes (dC.set cmp (-1) stream) stream 12)
    ∧ (stream.pos + 16 ≤ stream.data.length → Consumes (d4.set cmp (-1) stream) stream 16) := by
  have hneg : ¬ (index < 0) := by omega
  refine ⟨⟨?_, ?_, ?_, ?_, ?_, ?_, ?_, ?_, ?_, ?_⟩, ?_, ?_, ?_, ?_, ?_⟩
  · exact ⟨(getS cmp.scene cmp.index).2, int32ToBytes (getS cmp.scene cmp.index).1,
      by simp [IntPropertyDescriptor.get, OutputBlob.write], rfl⟩
  · exact ⟨(getA cmp.scene cmp.index index).2, int32ToBytes (getA cmp.scene cmp.index index).1,
      by simp [IntPropertyDescriptor.get, OutputBlob.write, hneg], rfl⟩
  · exact ⟨(dE.m_getter cmp.scene cmp.index).2, int32ToBytes (dE.m_getter cmp.scene cmp.index).1,
      by simp [EnumPropertyDescriptor.get, OutputBlob.write], rfl⟩
  · exact ⟨(getD cmp.scene cmp.index).2, Float32.zero.toBytes, by
      simp [DecimalPropertyDescriptor.get, DecimalPropertyDescriptor.scalar, OutputBlob.write],
      rfl⟩
  · exact ⟨(getDA cmp.scene cmp.index index).2, Float32.zero.toBytes, by
      simp [DecimalPropertyDescriptor.get, DecimalPropertyDescriptor.array, OutputBlob.write,
        hindex], rfl⟩
  · exact ⟨(dB.m_getter cmp.scene cmp.index).2, boolToBytes (dB.m_getter cmp.scene cmp.index).1,
      by simp [BoolPropertyDescriptor.get, OutputBlob.write], rfl⟩
  · exact ⟨(d2.m_getter cmp.scene cmp.index).2, (d2.m_getter cmp.scene cmp.index).1.toBytes,
      by simp [Vec2PropertyDescriptor.get, OutputBlob.write], rfl⟩
  · exact ⟨(d3.m_getter cmp.scene cmp.index).2, (d3.m_getter cmp.scene cmp.index).1.toBytes,
      by simp [Vec3PropertyDescriptor.get, OutputBlob.write], rfl⟩
  · exact ⟨(dC.m_getter cmp.scene cmp.index).2, (dC.m_getter cmp.scene cmp.index).1.toBytes,
      by simp [ColorPropertyDescriptor.get, OutputBlob.write], rfl⟩
  · exact ⟨(d4.m_getter cmp.scene cmp.index).2, (d4.m_getter cmp.scene cmp.index).1.toBytes,
      by simp [Vec4PropertyDescriptor.get, OutputBlob.write], rfl⟩
  · intro h
    have hr : stream.read 4
        = some ((stream.data.drop stream.pos).take 4, ⟨stream.data, stream.pos + 4⟩) := by
      simp [InputBlob.read, h]
    refine ⟨⟨setS cmp.scene cmp.index (bytesToInt32 ((stream.data.drop stream.pos).take 4)), ?_⟩,
      ⟨setA cmp.scene cmp.index index (bytesToInt32 ((stream.data.drop stream.pos).take 4)), ?_⟩,
      ⟨dE.m_setter cmp.scene cmp.index (bytesToInt32 ((stream.data.drop stream.pos).take 4)), ?_⟩,
      ⟨setD cmp.scene cmp.index (Float32.ofBytes ((stream.data.drop stream.pos).take 4)), ?_⟩,
      ⟨setDA cmp.scene cmp.index index (Float32.ofBytes ((stream.data.drop stream.pos).take 4)),
        ?_⟩⟩
    · simp [IntPropertyDescriptor.set, hr]
    · simp [IntPropertyDescriptor.set, hr, hneg]
    · simp [EnumPropertyDescriptor.set, hr]
    · simp [DecimalPropertyDescriptor.set, DecimalPropertyDescriptor.scalar, hr]
    · simp [DecimalPropertyDescriptor.set, DecimalPropertyDescriptor.array, hr, hindex]
  · intro h
    exact ⟨dB.m_setter cmp.scene cmp.index (bytesToBool ((stream.data.drop stream.pos).take 1)),
      by simp [BoolPropertyDescriptor.set, InputBlob.read, h]⟩
  · intro h
    exact ⟨d2.m_setter cmp.scene cmp.index (Vec2.ofBytes ((stream.data.drop stream.pos).take 8)),
      by simp [Vec2PropertyDescriptor.set, InputBlob.read, h]⟩
  · intro h
    exact ⟨⟨d3.m_setter cmp.scene cmp.index
        (Vec3.ofBytes ((stream.data.drop stream.pos).take 12)),
        by simp [Vec3PropertyDescriptor.set, InputBlob.read, h]⟩,
      ⟨dC.m_setter cmp.scene cmp.index (Vec3.ofBytes ((stream.data.drop stream.pos).take 12)),
        by simp [ColorPropertyDescriptor.set, InputBlob.read, h]⟩⟩
  · intro h
    exact ⟨d4.m_setter cmp.scene cmp.index (Vec4.ofBytes ((stream.data.drop stream.pos).take 16)),
      by simp [Vec4PropertyDescriptor.set, InputBlob.read, h]⟩

/-- Instance of C14: a bool field written to an empty blob takes one byte. -/
theorem scalar_fixed_width_witness :
    Appends ((BoolPropertyDescriptor.mk (fun (s : Bool) _ => (s, s)) (fun _ _ v => v)).get
      ⟨true, 0⟩ (-1) OutputBlob.empty) OutputBlob.empty 1 :=
  (@scalar_fixed_width Bool (fun s _ => (0, s)) (fun s _ _ => s)
    (fun s _ _ => (0, s)) (fun s _ _ _ => s)
    ⟨fun s _ => (0, s), fun s _ _ => s, fun _ => 0, fun s _ => ([], s)⟩
    (fun s _ => (Float32.zero, s)) (fun s _ _ => s)
    (fun s _ _ => (Float32.zero, s)) (fun s _ _ _ => s)
    ⟨fun s _ => (s, s), fun _ _ v => v⟩
    ⟨fun s _ => (⟨Float32.zero, Float32.zero⟩, s), fun s _ _ => s⟩
    ⟨fun s _ => (⟨Float32.zero, Float32.zero, Float32.zero⟩, s), fun s _ _ => s⟩
    ⟨fun s _ => (⟨Float32.zero, Float32.zero, Float32.zero⟩, s), fun s _ _ => s⟩
    ⟨fun s _ => (⟨Float32.zero, Float32.zero, Float32.zero, Float32.zero⟩, s), fun s _ _ => s⟩
    ⟨true, 0⟩ 2 OutputBlob.empty (InputBlob.over []) (by decide)).1.2.2.2.2.2.1

/-! ## File and resource decorations -/

/-- C15: `get` and `set` of the File and Resource descriptors (and of their array-object
variants) are the `get` and `set` of the string descriptor with the same getter and
setter: same result on every host, index and blob, hence the same bytes written, the same
bytes consumed and the same setter call.  The file type string and the resource type tag
can be replaced by any others without changing the result. -/
theorem file_resource_wire_is_string_wire {S : Type}
    (getter : S → Int → List Byte × S) (setter : S → Int → List Byte → S)
    (getterA : S → Int → Int → List Byte × S) (setterA : S → Int → Int → List Byte → S)
    (file_type other_file_type : List Byte) (resource_type other_resource_type : Nat)
    (cmp : ComponentUID S) (index : Int) (out : OutputBlob) (stream : InputBlob) :
    (FilePropertyDescriptor.mk ⟨getter, setter⟩ file_type).get cmp index out
      = (StringPropertyDescriptor.mk getter setter).get cmp index out
    ∧ (FilePropertyDescriptor.mk ⟨getter, setter⟩ file_type).set cmp index stream
      = (StringPropertyDescriptor.mk getter setter).set cmp index stream
    ∧ (ResourcePropertyDescriptor.mk ⟨⟨getter, setter⟩, file_type⟩ resource_type).get cmp index out
      = (StringPropertyDescriptor.mk getter setter).get cmp index out
    ∧ (ResourcePropertyDescriptor.mk ⟨⟨getter, setter⟩, file_type⟩ resource_type).set
        cmp index stream
      = (StringPropertyDescriptor.mk getter setter).set cmp index stream
    ∧ (FileArrayObjectDescriptor.mk ⟨getterA, setterA⟩ file_type).get cmp index out
      = (StringArrayObjectDescriptor.mk getterA setterA).get cmp index out
    ∧ (FileArrayObjectDescriptor.mk ⟨getterA, setterA⟩ file_type).set cmp index stream
      = (StringArrayObjectDescriptor.mk getterA setterA).set cmp index stream
    ∧ (ResourceArrayObjectDescriptor.mk ⟨⟨getterA, setterA⟩, file_type⟩ resource_type).get
        cmp index out
      = (StringArrayObjectDescriptor.mk getterA setterA).get cmp index out
    ∧ (ResourceArrayObjectDescriptor.mk ⟨⟨getterA, setterA⟩, file_type⟩ resource_type).set
        cmp index stream
      = (StringArrayObjectDescriptor.mk getterA setterA).set cmp index stream
    ∧ (ResourcePropertyDescriptor.mk ⟨⟨getter, setter⟩, file_type⟩ resource_type).get cmp index out
      = (ResourcePropertyDescriptor.mk ⟨⟨getter, setter⟩, other_file_type⟩
          other_resource_type).get cmp index out
    ∧ (ResourcePropertyDescriptor.mk ⟨⟨getter, setter⟩, file_type⟩ resource_type).set
        cmp index stream
      = (ResourcePropertyDescriptor.mk ⟨⟨getter, setter⟩, other_file_type⟩
          other_resource_type).set cmp index stream
    ∧ (ResourceArrayObjectDescriptor.mk ⟨⟨getterA, setterA⟩, file_type⟩ resource_type).get
        cmp index out
      = (ResourceArrayObjectDescriptor.mk ⟨⟨getterA, setterA⟩, other_file_type⟩
          other_resource_type).get cmp index out
    ∧ (ResourceArrayObjectDescriptor.mk ⟨⟨getterA, setterA⟩, file_type⟩ resource_type).set
        cmp index stream
      = (ResourceArrayObjectDescriptor.mk ⟨⟨getterA, setterA⟩, other_file_type⟩
          other_resource_type).set cmp index stream :=
  ⟨rfl, rfl, rfl, rfl, rfl, rfl, rfl, rfl, rfl, rfl, rfl, rfl⟩

/-! ## The Decimal read path -/

/-- C16: `DecimalPropertyDescriptor::get` invokes the bound getter, the scalar one for a
negative index and the array-element one for an index `≥ 0` (the scene returned is the
one that getter leaves), and appends the 4 bytes `00 00 00 00` of the float `0`, whatever
value the getter returned. -/
theorem decimal_get_writes_zero {S : Type}
    (getter : S → Int → Float32 × S) (setter : S → Int → Float32 → S)
    (getterA : S → Int → Int → Float32 × S) (setterA : S → Int → Int → Float32 → S)
    (cmp : ComponentUID S) (i j : Int) (out : OutputBlob) (hi : i < 0) (hj : 0 ≤ j) :
    (DecimalPropertyDescriptor.scalar getter setter).get cmp i out
      = .ok ((getter cmp.scene cmp.index).2, ⟨out.data ++ [0, 0, 0, 0]⟩)
    ∧ (DecimalPropertyDescriptor.array getterA setterA).get cmp j out
      = .ok ((getterA cmp.scene cmp.index j).2, ⟨out.data ++ [0, 0, 0, 0]⟩) := by
  have hneg : ¬ (0 ≤ i) := by omega
  constructor
  · simp [DecimalPropertyDescriptor.get, DecimalPropertyDescriptor.scalar, OutputBlob.write,
      hneg, Float32.toBytes, Float32.zero]
  · simp [DecimalPropertyDescriptor.get, DecimalPropertyDescriptor.array, OutputBlob.write,
      hj, Float32.toBytes, Float32.zero]

/-- Instance of C16: a host that counts getter calls and holds `1.0f`; the call is made and
zero is written. -/
theorem decimal_get_writes_zero_witness :
    (DecimalPropertyDescriptor.scalar (fun (calls : Nat) _ => (⟨0, 0, 128, 63⟩, calls + 1))
        (fun calls _ _ => calls)).get ⟨0, 0⟩ (-1) OutputBlob.empty
      = .ok (1, ⟨[] ++ [0, 0, 0, 0]⟩) :=
  (@decimal_get_writes_zero Nat (fun calls _ => (⟨0, 0, 128, 63⟩, calls + 1))
    (fun calls _ _ => calls) (fun calls _ _ => (Float32.zero, calls + 1))
    (fun calls _ _ _ => calls) ⟨0, 0⟩ (-1) 0 OutputBlob.empty (by decide) (by decide)).1

/-! ## The bounds of `tmp` -/

/-- C17 (the code at the failing input): on a blob of 300 bytes `0x41` followed by the
byte `0x42`, the read loop of the string descriptors stores a byte at index 300 of `tmp`,
which is not below `MAX_STRING_SIZE`: the out-of-bounds branch is reached. -/
theorem string_set_stores_past_tmp :
    readChars MAX_STRING_SIZE [] (InputBlob.over (List.replicate 300 65 ++ [66]))
      = .error (.bufferOverrun 300 ⟨List.replicate 300 65 ++ [66], 301⟩)
    ∧ ¬ (300 < MAX_STRING_SIZE) :=
  ⟨(@string_set_overrun Unit ⟨fun s _ => ([], s), fun s _ _ => s⟩
      ⟨fun s _ _ => ([], s), fun s _ _ _ => s⟩ ⟨(), 0⟩ 0 (List.replicate 300 65)
      (replicate_no_zero 300) (List.length_replicate 300 65) 66 []).1, by decide⟩

/-! ## Indices other than the expected sentinel -/

/-- C12 (counterexample): a scalar-bound `IntPropertyDescriptor` called with index `-2`
does not fail: on a host that counts getter calls, `get` returns normally, the count is
`1` afterwards and the 4 bytes of the value `7` are written. -/
theorem int_get_accepts_index_below_minus_one :
    (IntPropertyDescriptor.single (fun (calls : Nat) _ => (7, calls + 1))
        (fun calls _ _ => calls + 1)).get ⟨0, 0⟩ (-2) OutputBlob.empty
      = .ok (1, ⟨[7, 0, 0, 0]⟩)
    ∧ ¬ ∃ e, (IntPropertyDescriptor.single (fun (calls : Nat) _ => (7, calls + 1))
        (fun calls _ _ => calls + 1)).get ⟨0, 0⟩ (-2) OutputBlob.empty = .error e := by
  have h : (IntPropertyDescriptor.single (fun (calls : Nat) _ => (7, calls + 1))
      (fun calls _ _ => calls + 1)).get ⟨0, 0⟩ (-2) OutputBlob.empty
      = .ok (1, ⟨[7, 0, 0, 0]⟩) := by
    simp [IntPropertyDescriptor.get, OutputBlob.write, OutputBlob.empty, int32ToBytes, byteAt]
  refine ⟨h, ?_⟩
  rintro ⟨e, he⟩
  rw [h] at he
  cases he

/-- C12 (amended): what a call with an index other than the expected sentinel does.
Int and Decimal carry no assertion: every negative index, `-1` or below, selects the
scalar pair and every index `≥ 0` the array-element pair.  An index below `-1` on a
scalar-bound Int or Decimal descriptor therefore behaves like `-1` and invokes the bound
entry point.  A Decimal descriptor called on the pair its constructor set to `nullptr`
stops at a fault with the scene as the caller passed it, so no bound entry point has been
invoked (`set` has read its 4 bytes by then).  Nothing is stated about an Int descriptor
called on the pair it was not built with: both pairs share one union.
`StringArrayObjectDescriptor` hands any index on to its bound pair.  The Array, String,
Bool, Vec2, Vec3, Vec4, Color, Enum and SampledFunction descriptors stop at their
assertion for an index below `-1`, with the scene and the blob as the caller passed
them. -/
theorem wrong_sentinel_behaviour {S : Type} (fuel : Nat)
    (getS : S → Int → Int × S) (setS : S → Int → Int → S)
    (getD : S → Int → Float32 × S) (setD : S → Int → Float32 → S)
    (getDA : S → Int → Int → Float32 × S) (setDA : S → Int → Int → Float32 → S)
    (dSA : StringArrayObjectDescriptor S)
    (dA : ArrayDescriptor S) (children : List (IPropertyDescriptorOutcome S))
    (dS : StringPropertyDescriptor S) (dB : BoolPropertyDescriptor S)
    (d2 : Vec2PropertyDescriptor S) (d3 : Vec3PropertyDescriptor S)
    (d4 : Vec4PropertyDescriptor S) (dC : ColorPropertyDescriptor S)
    (dE : EnumPropertyDescriptor S) (dF : SampledFunctionDescriptor S)
    (cmp : ComponentUID S) (i n j : Int) (out : OutputBlob) (stream : InputBlob)
    (hi : i < -1) (hn : n < 0) (hj : 0 ≤ j) :
    -- Decimal on the pair its constructor set to `nullptr`
    ((DecimalPropertyDescriptor.scalar getD setD).getOutcome cmp j out
        = .fault .unboundEntryPoint cmp.scene out
      ∧ ((DecimalPropertyDescriptor.scalar getD setD).setOutcome cmp j stream
          = .fault .endOfStream cmp.scene stream
        ∨ (DecimalPropertyDescriptor.scalar getD setD).setOutcome cmp j stream
          = .fault .unboundEntryPoint cmp.scene ⟨stream.data, stream.pos + 4⟩)
      ∧ (DecimalPropertyDescriptor.array getDA setDA).getOutcome cmp n out
        = .fault .unboundEntryPoint cmp.scene out
      ∧ ((DecimalPropertyDescriptor.array getDA setDA).setOutcome cmp n stream
          = .fault .endOfStream cmp.scene stream
        ∨ (DecimalPropertyDescriptor.array getDA setDA).setOutcome cmp n stream
          = .fault .unboundEntryPoint cmp.scene ⟨stream.data, stream.pos + 4⟩)
      ∧ (DecimalPropertyDescriptor.scalar getD setD).get cmp j out = .error .unboundEntryPoint
      ∧ ((DecimalPropertyDescriptor.scalar getD setD).set cmp j stream = .error .endOfStream
        ∨ (DecimalPropertyDescriptor.scalar getD setD).set cmp j stream
          = .error .unboundEntryPoint)
      ∧ (DecimalPropertyDescriptor.array getDA setDA).get cmp n out = .error .unboundEntryPoint
      ∧ ((DecimalPropertyDescriptor.array getDA setDA).set cmp n stream = .error .endOfStream
        ∨ (DecimalPropertyDescriptor.array getDA setDA).set cmp n stream
          = .error .unboundEntryPoint))
    -- an index below `-1` on the scalar pair, and any index on an array-object string
    ∧ ((IntPropertyDescriptor.single getS setS).get cmp i out
        = .ok ((getS cmp.scene cmp.index).2,
            ⟨out.data ++ int32ToBytes (getS cmp.scene cmp.index).1⟩)
      ∧ (IntPropertyDescriptor.single getS setS).set cmp i stream
        = (IntPropertyDescriptor.single getS setS).set cmp (-1) stream
      ∧ (DecimalPropertyDescriptor.scalar getD setD).get cmp i out
        = .ok ((getD cmp.scene cmp.index).2, ⟨out.data ++ [0, 0, 0, 0]⟩)
      ∧ (DecimalPropertyDescriptor.scalar getD setD).set cmp i stream
        = (DecimalPropertyDescriptor.scalar getD setD).set cmp (-1) stream
      ∧ dSA.get cmp i out
        = .ok ((dSA.m_getter cmp.scene cmp.index i).2,
            ⟨out.data ++ stringOf (dSA.m_getter cmp.scene cmp.index i).1 ++ [0]⟩)
      ∧ dSA.set cmp i (InputBlob.over [0])
        = .ok (dSA.m_setter cmp.scene cmp.index i [], ⟨[0], 1⟩))
    -- the descriptors that assert `index == -1`
    ∧ ((dA.getOutcome children cmp i out = .fault .assertion cmp.scene out
        ∧ dA.setOutcome fuel children cmp i stream = .fault .assertion cmp.scene stream)
      ∧ (dS.getOutcome cmp i out = .fault .assertion cmp.scene out
        ∧ dS.setOutcome cmp i stream = .fault .assertion cmp.scene stream)
      ∧ (dB.getOutcome cmp i out = .fault .assertion cmp.scene out
        ∧ dB.setOutcome cmp i stream = .fault .assertion cmp.scene stream)
      ∧ (d2.getOutcome cmp i out = .fault .assertion cmp.scene out
        ∧ d2.setOutcome cmp i stream = .fault .assertion cmp.scene stream)
      ∧ (d3.getOutcome cmp i out = .fault .assertion cmp.scene out
        ∧ d3.setOutcome cmp i stream = .fault .assertion cmp.scene stream)
      ∧ (d4.getOutcome cmp i out = .fault .assertion cmp.scene out
        ∧ d4.setOutcome cmp i stream = .fault .assertion cmp.scene stream)
      ∧ (dC.getOutcome cmp i out = .fault .assertion cmp.scene out
        ∧ dC.setOutcome cmp i stream = .fault .assertion cmp.scene stream)
      ∧ (dE.getOutcome cmp i out = .fault .assertion cmp.scene out
        ∧ dE.setOutcome cmp i stream = .fault .assertion cmp.scene stream)
      ∧ (dF.getOutcome cmp i out = .fault .assertion cmp.scene out
        ∧ dF.setOutcome cmp i stream = .fault .assertion cmp.scene stream))
    ∧ ((dA.get cmp i out = .error .assertion ∧ dA.set fuel cmp i stream = .error .assertion)
      ∧ (dS.get cmp i out = .error .assertion ∧ dS.set cmp i stream = .error .assertion)
      ∧ (dB.get cmp i out = .error .assertion ∧ dB.set cmp i stream = .error .assertion)
      ∧ (d2.get cmp i out = .error .assertion ∧ d2.set cmp i stream = .error .assertion)
      ∧ (d3.get cmp i out = .error .assertion ∧ d3.set cmp i stream = .error .assertion)
      ∧ (d4.get cmp i out = .error .assertion ∧ d4.set cmp i stream = .error .assertion)
      ∧ (dC.get cmp i out = .error .assertion ∧ dC.set cmp i stream = .error .assertion)
      ∧ (dE.get cmp i out = .error .assertion ∧ dE.set cmp i stream = .error .assertion)
      ∧ (dF.get cmp i out = .error .assertion ∧ dF.set cmp i stream = .error .assertion)) := by
  have hnn : ¬ (0 ≤ n) := by omega
  have hnn' : ¬ (n ≥ 0) := by omega
  have hj' : j ≥ 0 := hj
  have hineg : i < 0 := by omega
  have hin : ¬ (0 ≤ i) := by omega
  have hne : i ≠ -1 := by omega
  have hread : stream.read 4 = none
      ∨ stream.read 4
        = some ((stream.data.drop stream.pos).take 4, ⟨stream.data, stream.pos + 4⟩) := by
    unfold InputBlob.read
    split
    · right; rfl
    · left; rfl
  refine ⟨⟨?_, ?_, ?_, ?_, ?_, ?_, ?_, ?_⟩, ⟨?_, ?_, ?_, ?_, ?_, ?_⟩,
    ⟨⟨?_, ?_⟩, ⟨?_, ?_⟩, ⟨?_, ?_⟩, ⟨?_, ?_⟩, ⟨?_, ?_⟩, ⟨?_, ?_⟩, ⟨?_, ?_⟩, ⟨?_, ?_⟩, ⟨?_, ?_⟩⟩,
    ⟨⟨?_, ?_⟩, ⟨?_, ?_⟩, ⟨?_, ?_⟩, ⟨?_, ?_⟩, ⟨?_, ?_⟩, ⟨?_, ?_⟩, ⟨?_, ?_⟩, ⟨?_, ?_⟩, ⟨?_, ?_⟩⟩⟩
  · simp [DecimalPropertyDescriptor.getOutcome, DecimalPropertyDescriptor.scalar, hj]
  · rcases hread with hr | hr
    · left; simp [DecimalPropertyDescriptor.setOutcome, hr]
    · right
      simp [DecimalPropertyDescriptor.setOutcome, DecimalPropertyDescriptor.scalar, hr, hj]
  · simp [DecimalPropertyDescriptor.getOutcome, DecimalPropertyDescriptor.array, hnn]
  · rcases hread with hr | hr
    · left; simp [DecimalPropertyDescriptor.setOutcome, hr]
    · right
      simp [DecimalPropertyDescriptor.setOutcome, DecimalPropertyDescriptor.array, hr, hnn]
  · simp [DecimalPropertyDescriptor.get, DecimalPropertyDescriptor.scalar, hj]
  · cases hr : stream.read 4 with
    | none => left; simp [DecimalPropertyDescriptor.set, hr]
    | some r =>
      right; simp [DecimalPropertyDescriptor.set, DecimalPropertyDescriptor.scalar, hr, hj]
  · simp [DecimalPropertyDescriptor.get, DecimalPropertyDescriptor.array, hnn]
  · cases hr : stream.read 4 with
    | none => left; simp [DecimalPropertyDescriptor.set, hr]
    | some r =>
      right; simp [DecimalPropertyDescriptor.set, DecimalPropertyDescriptor.array, hr, hnn]
  · simp [IntPropertyDescriptor.get, OutputBlob.write, hineg]
  · simp [IntPropertyDescriptor.set, hineg]
  · simp [DecimalPropertyDescriptor.get, DecimalPropertyDescriptor.scalar, OutputBlob.write,
      hin, Float32.toBytes, Float32.zero]
  · simp [DecimalPropertyDescriptor.set, DecimalPropertyDescriptor.scalar, hin]
  · simp [StringArrayObjectDescriptor.get, OutputBlob.write]
  · have hloop : readChars MAX_STRING_SIZE [] (InputBlob.over [0]) = .ok ([0], ⟨[0], 1⟩) := by
      have h := readChars_terminated [] (by simp) MAX_STRING_SIZE [] [] []
        (by simp [MAX_STRING_SIZE]) (by simp)
      simpa [InputBlob.over] using h
    simp [StringArrayObjectDescriptor.set, hloop, cstring]
  · simp [ArrayDescriptor.getOutcome, hne]
  · simp [ArrayDescriptor.setOutcome, hne]
  · simp [StringPropertyDescriptor.getOutcome, hne]
  · simp [StringPropertyDescriptor.setOutcome, hne]
  · simp [BoolPropertyDescriptor.getOutcome, hne]
  · simp [BoolPropertyDescriptor.setOutcome, hne]
  · simp [Vec2PropertyDescriptor.getOutcome, hne]
  · simp [Vec2PropertyDescriptor.setOutcome, hne]
  · simp [Vec3PropertyDescriptor.getOutcome, hne]
  · simp [Vec3PropertyDescriptor.setOutcome, hne]
  · simp [Vec4PropertyDescriptor.getOutcome, hne]
  · simp [Vec4PropertyDescriptor.setOutcome, hne]
  · simp [ColorPropertyDescriptor.getOutcome, hne]
  · simp [ColorPropertyDescriptor.setOutcome, hne]
  · simp [EnumPropertyDescriptor.getOutcome, hne]
  · simp [EnumPropertyDescriptor.setOutcome, hne]
  · simp [SampledFunctionDescriptor.getOutcome, hne]
  · simp [SampledFunctionDescriptor.setOutcome, hne]
  · simp [ArrayDescriptor.get, hne]
  · simp [ArrayDescriptor.set, hne]
  · simp [StringPropertyDescriptor.get, hne]
  · simp [StringPropertyDescriptor.set, hne]
  · simp [BoolPropertyDescriptor.get, hne]
  · simp [BoolPropertyDescriptor.set, hne]
  · simp [Vec2PropertyDescriptor.get, hne]
  · simp [Vec2PropertyDescriptor.set, hne]
  · simp [Vec3PropertyDescriptor.get, hne]
  · simp [Vec3PropertyDescriptor.set, hne]
  · simp [Vec4PropertyDescriptor.get, hne]
  · simp [Vec4PropertyDescriptor.set, hne]
  · simp [ColorPropertyDescriptor.get, hne]
  · simp [ColorPropertyDescriptor.set, hne]
  · simp [EnumPropertyDescriptor.get, hne]
  · simp [EnumPropertyDescriptor.set, hne]
  · simp [SampledFunctionDescriptor.get, hne]
  · simp [SampledFunctionDescriptor.set, hne]

/-- Instance of C12 (amended): a scalar-bound decimal descriptor on a host that counts
entry-point calls, called with index `3`: the count is still `0` at the fault. -/
theorem wrong_sentinel_behaviour_witness :
    (DecimalPropertyDescriptor.scalar (fun (calls : Nat) _ => (Float32.zero, calls + 1))
        (fun calls _ _ => calls + 1)).getOutcome ⟨0, 0⟩ 3 OutputBlob.empty
      = .fault .unboundEntryPoint 0 OutputBlob.empty :=
  (@wrong_sentinel_behaviour Nat 1 (fun s _ => (0, s + 1)) (fun s _ _ => s + 1)
    (fun calls _ => (Float32.zero, calls + 1)) (fun calls _ _ => calls + 1)
    (fun s _ _ => (Float32.zero, s + 1)) (fun s _ _ _ => s + 1)
    ⟨fun s _ _ => ([], s + 1), fun s _ _ _ => s + 1⟩
    ⟨fun s _ => (0, s + 1), fun s _ _ => s + 1, fun s _ _ => s + 1, []⟩ []
    ⟨fun s _ => ([], s + 1), fun s _ _ => s + 1⟩ ⟨fun s _ => (true, s + 1), fun s _ _ => s + 1⟩
    ⟨fun s _ => (⟨Float32.zero, Float32.zero⟩, s + 1), fun s _ _ => s + 1⟩
    ⟨fun s _ => (⟨Float32.zero, Float32.zero, Float32.zero⟩, s + 1), fun s _ _ => s + 1⟩
    ⟨fun s _ => (⟨Float32.zero, Float32.zero, Float32.zero, Float32.zero⟩, s + 1),
      fun s _ _ => s + 1⟩
    ⟨fun s _ => (⟨Float32.zero, Float32.zero, Float32.zero⟩, s + 1), fun s _ _ => s + 1⟩
    ⟨fun s _ => (0, s + 1), fun s _ _ => s + 1, fun _ => 0, fun s _ => ([], s)⟩
    ⟨8, fun s _ _ => (Float32.zero, s + 1), fun s _ _ _ => s + 1, Float32.zero, Float32.zero⟩
    ⟨0, 0⟩ (-2) (-1) 3 OutputBlob.empty (InputBlob.over []) (by decide) (by decide)
    (by decide)).1.1

/-! ## Array round trip -/

theorem read_at (front bytes back : List Byte) :
    InputBlob.read ⟨front ++ bytes ++ back, front.length⟩ bytes.length
      = some (bytes, ⟨front ++ bytes ++ back, front.length + bytes.length⟩) := by
  simp [InputBlob.read]

/-- Both resize loops in sequence, on a lawful host with enough fuel. -/
theorem ArrayDescriptor.resize_loops {S : Type} (d : ArrayDescriptor S) (c : Int) (scene : S)
    (k t : Int) (fuel : Nat)
    (hk : (d.m_counter scene c).1 = k) (hk32 : isInt32 k)
    (ht0 : 0 ≤ t) (ht32 : t < 2147483648)
    (hpure : ∀ s, (d.m_counter s c).2 = s)
    (hadd : ∀ s, (d.m_counter s c).1 < 2147483647 →
      (d.m_counter (d.m_adder s c (-1)) c).1 = (d.m_counter s c).1 + 1)
    (hrem : ∀ s, 0 < (d.m_counter s c).1 →
      (d.m_counter (d.m_remover s c ((d.m_counter s c).1 - 1)) c).1 = (d.m_counter s c).1 - 1)
    (hfuel : (t - k).natAbs < fuel) :
    ∃ scene1, d.growLoop c t fuel scene = .ok scene1
      ∧ d.shrinkLoop c t fuel scene1 = .ok (d.resized c scene k t)
      ∧ (d.m_counter (d.resized c scene k t) c).1 = t := by
  unfold isInt32 at hk32
  obtain ⟨fuel1, rfl⟩ : ∃ f, fuel = f + 1 := ⟨fuel - 1, by omega⟩
  by_cases hle : k ≤ t
  · have hg := d.growLoop_eq c t ht32 hpure hadd (t - k).toNat (fuel1 + 1) scene
      (by rw [hk]; omega) (by omega)
    have hres : d.resized c scene k t = (fun s => d.m_adder s c (-1))^[(t - k).toNat] scene := by
      simp [ArrayDescriptor.resized, hle]
    rw [hres]
    exact ⟨_, hg.1, d.shrinkLoop_skip c t hpure fuel1 _ (le_of_eq hg.2), hg.2⟩
  · have hg := d.growLoop_skip c t hpure fuel1 scene (by rw [hk]; omega)
    have hs := d.shrinkLoop_eq c t ht0 hpure hrem (k - t).toNat (fuel1 + 1) scene
      (by rw [hk]; omega) (by rw [hk]; omega) (by omega)
    rw [hk] at hs
    have hres : d.resized c scene k t
        = ((List.range (k - t).toNat).map (fun (j : Nat) => k - 1 - (j : Int))).foldl
            (fun s i => d.m_remover s c i) scene := by
      simp [ArrayDescriptor.resized, hle]
    rw [hres]
    exact ⟨_, hg, hs.1, hs.2⟩

theorem ItemField.get_eq {S : Type} (c : Int) (src : S) (i : Nat) (f : ItemField S)
    (hro : f.ReadOnly c) (hst : f.Storable c src i) (out : OutputBlob) :
    f.toBase.get ⟨src, c⟩ i out = .ok (src, ⟨out.data ++ f.bytes c src i⟩) := by
  cases f with
  | int getter setter =>
    have hnn : ¬ ((i : Int) < 0) := by omega
    simp only [ItemField.ReadOnly] at hro
    simp [ItemField.toBase, IntPropertyDescriptor.toBase, IntPropertyDescriptor.get, hnn,
      OutputBlob.write, ItemField.bytes, hro]
  | string d =>
    simp only [ItemField.ReadOnly] at hro
    simp only [ItemField.Storable] at hst
    simp [ItemField.toBase, StringArrayObjectDescriptor.toBase, StringArrayObjectDescriptor.get,
      OutputBlob.write, ItemField.bytes, hro, stringOf_of_no_zero _ hst.2]

theorem ItemField.set_eq {S : Type} (c : Int) (src : S) (i : Nat) (f : ItemField S)
    (hst : f.Storable c src i) (dst : S) (front back : List Byte) :
    f.toBase.set ⟨dst, c⟩ i ⟨front ++ f.bytes c src i ++ back, front.length⟩
      = .ok (f.copy c src i dst,
          ⟨front ++ f.bytes c src i ++ back, front.length + (f.bytes c src i).length⟩) := by
  cases f with
  | int getter setter =>
    have hnn : ¬ ((i : Int) < 0) := by omega
    simp only [ItemField.Storable] at hst
    have hr := read_at front (int32ToBytes (getter src c i).1) back
    rw [int32ToBytes_length] at hr
    simp only [List.append_assoc] at hr
    simp [ItemField.toBase, IntPropertyDescriptor.toBase, IntPropertyDescriptor.set, hnn,
      ItemField.bytes, ItemField.copy, hr, bytesToInt32_int32ToBytes _ hst, int32ToBytes_length]
  | string d =>
    simp only [ItemField.Storable] at hst
    have hloop := readChars_terminated (d.m_getter src c i).1 hst.2 MAX_STRING_SIZE [] front back
      (by unfold MAX_STRING_SIZE; omega) (by unfold MAX_STRING_SIZE; simp; omega)
    have hc := cstring_terminated (d.m_getter src c i).1 [] hst.2
    simp only [List.nil_append, List.append_assoc, Nat.add_assoc] at hloop
    simp [ItemField.toBase, StringArrayObjectDescriptor.toBase, StringArrayObjectDescriptor.set,
      ItemField.bytes, ItemField.copy, hloop, hc]

theorem ArrayDescriptor.getChildren_fields {S : Type} (c : Int) (src : S) (i : Nat)
    (fields : List (ItemField S)) (hro : ∀ f ∈ fields, f.ReadOnly c)
    (hst : ∀ f ∈ fields, f.Storable c src i) :
    ∀ out : OutputBlob,
      ArrayDescriptor.getChildren c i (fields.map ItemField.toBase) src out
        = .ok (src, ⟨out.data ++ fields.flatMap (fun f => f.bytes c src i)⟩) := by
  induction fields with
  | nil => intro out; simp [ArrayDescriptor.getChildren]
  | cons f rest ih =>
    intro out
    have h1 := ItemField.get_eq c src i f (hro f (by simp)) (hst f (by simp)) out
    have h2 := ih (fun g hg => hro g (by simp [hg])) (fun g hg => hst g (by simp [hg]))
      ⟨out.data ++ f.bytes c src i⟩
    simp [ArrayDescriptor.getChildren, h1, h2]

theorem ArrayDescriptor.getItems_fields {S : Type} (c : Int) (src : S)
    (fields : List (ItemField S)) (hro : ∀ f ∈ fields, f.ReadOnly c) (m : Nat) :
    ∀ (k : Nat) (out : OutputBlob),
      (∀ i, i < k + m → ∀ f ∈ fields, f.Storable c src i) →
      ArrayDescriptor.getItems (fields.map ItemField.toBase) c m k src out
        = .ok (src, ⟨out.data
            ++ (List.range' k m).flatMap (fun i => fields.flatMap (fun f => f.bytes c src i))⟩) := by
  induction m with
  | zero => intro k out _; simp [ArrayDescriptor.getItems]
  | succ m ih =>
    intro k out hst
    have h1 := ArrayDescriptor.getChildren_fields c src k fields hro
      (fun f hf => hst k (by omega) f hf) out
    have h2 := ih (k + 1) ⟨out.data ++ fields.flatMap (fun f => f.bytes c src k)⟩
      (fun i hi => hst i (by omega))
    simp only [Nat.cast_add, Nat.cast_one] at h2
    simp [ArrayDescriptor.getItems, h1, h2, List.range'_succ]

theorem ArrayDescriptor.setChildren_fields {S : Type} (c : Int) (src : S) (i : Nat)
    (fields : List (ItemField S)) (hst : ∀ f ∈ fields, f.Storable c src i) :
    ∀ (dst : S) (front back : List Byte),
      ArrayDescriptor.setChildren c i (fields.map ItemField.toBase) dst
          ⟨front ++ fields.flatMap (fun f => f.bytes c src i) ++ back, front.length⟩
        = .ok (fields.foldl (fun s f => f.copy c src i s) dst,
            ⟨front ++ fields.flatMap (fun f => f.bytes c src i) ++ back,
              front.length + (fields.flatMap (fun f => f.bytes c src i)).length⟩) := by
  induction fields with
  | nil => intro dst front back; simp [ArrayDescriptor.setChildren]
  | cons f rest ih =>
    intro dst front back
    have h1 := ItemField.set_eq c src i f (hst f (by simp)) dst front
      (rest.flatMap (fun g => g.bytes c src i) ++ back)
    have h2 := ih (fun g hg => hst g (by simp [hg])) (f.copy c src i dst)
      (front ++ f.bytes c src i) back
    simp only [List.append_assoc, List.length_append, List.flatMap_cons, Nat.add_assoc]
      at h1 h2 ⊢
    simp [ArrayDescriptor.setChildren, h1, h2]

theorem ArrayDescriptor.setItems_fields {S : Type} (c : Int) (src : S)
    (fields : List (ItemField S)) (m : Nat) :
    ∀ (k : Nat) (dst : S) (front back : List Byte),
      (∀ i, i < k + m → ∀ f ∈ fields, f.Storable c src i) →
      ArrayDescriptor.setItems (fields.map ItemField.toBase) c m k dst
          ⟨front ++ (List.range' k m).flatMap
              (fun i => fields.flatMap (fun f => f.bytes c src i)) ++ back, front.length⟩
        = .ok ((List.range' k m).foldl
              (fun s i => fields.foldl (fun s1 f => f.copy c src i s1) s) dst,
            ⟨front ++ (List.range' k m).flatMap
                (fun i => fields.flatMap (fun f => f.bytes c src i)) ++ back,
              front.length + ((List.range' k m).flatMap
                (fun i => fields.flatMap (fun f => f.bytes c src i))).length⟩) := by
  induction m with
  | zero => intro k dst front back _; simp [ArrayDescriptor.setItems]
  | succ m ih =>
    intro k dst front back hst
    have h1 := ArrayDescriptor.setChildren_fields c src k fields
      (fun f hf => hst k (by omega) f hf) dst front
      ((List.range' (k + 1) m).flatMap (fun i => fields.flatMap (fun f => f.bytes c src i))
        ++ back)
    have h2 := ih (k + 1) (fields.foldl (fun s f => f.copy c src k s) dst)
      (front ++ fields.flatMap (fun f => f.bytes c src k)) back (fun i hi => hst i (by omega))
    simp only [List.append_assoc, List.length_append, List.flatMap_cons, Nat.add_assoc,
      List.range'_succ, Nat.cast_add, Nat.cast_one, List.foldl_cons] at h1 h2 ⊢
    simp only [ArrayDescriptor.setItems, h1]
    exact h2

theorem copyItems_keeps_count {S : Type} (counter : S → Int → Int × S) (c : Int)
    (fields : List (ItemField S)) (src : S)
    (hkeep : ∀ f ∈ fields, f.KeepsCount counter c) (n : Nat) :
    ∀ dst : S, (counter (copyItems c fields src n dst) c).1 = (counter dst c).1 := by
  have hitem : ∀ (i : Nat) (fs : List (ItemField S)), (∀ f ∈ fs, f.KeepsCount counter c) →
      ∀ dst : S, (counter (fs.foldl (fun s1 f => f.copy c src i s1) dst) c).1
        = (counter dst c).1 := by
    intro i fs
    induction fs with
    | nil => intro _ dst; rfl
    | cons f rest ih =>
      intro hk dst
      rw [List.foldl_cons, ih (fun g hg => hk g (by simp [hg]))]
      have hf := hk f (by simp)
      cases f with
      | int getter setter => exact hf dst i _
      | string d => exact hf dst i _
  unfold copyItems
  induction n with
  | zero => intro dst; rfl
  | succ n ih =>
    intro dst
    rw [List.range_succ, List.foldl_append, List.foldl_cons, List.foldl_nil,
      hitem n fields hkeep, ih]

/-- C18: an `ArrayDescriptor` whose children are array-bound Int descriptors and
`StringArrayObjectDescriptor`s, on a host with read-only counter and getters, an adder
(index `-1`) that raises and a remover (index of the last item) that lowers the count by
one, and setters that keep the count.  The source has `n ≥ 0` items whose ints are 32-bit
and whose strings have at most 299 bytes, none zero; the target has any count `k`.  Then
`get(src, -1)` on an empty blob writes the count and the items field by field, and
`set(dst, -1)` on those bytes, with fuel for `|n - k|` iterations, consumes the blob
exactly to its end, resizes the target to `n` items, calls for the items `0 .. n - 1` in
turn every child's setter in child order with the value the source getter returned for
that item, and leaves the target with `n` items. -/
theorem array_get_set_round_trip {S : Type} (fuel : Nat) (d : ArrayDescriptor S)
    (fields : List (ItemField S)) (c : Int) (src dst : S) (n k : Int)
    (hchildren : d.m_children = fields.map ItemField.toBase)
    (hn : (d.m_counter src c).1 = n) (hn0 : 0 ≤ n) (hn32 : n < 2147483648)
    (hk : (d.m_counter dst c).1 = k) (hk32 : isInt32 k)
    (hpure : ∀ s, (d.m_counter s c).2 = s)
    (hadd : ∀ s, (d.m_counter s c).1 < 2147483647 →
      (d.m_counter (d.m_adder s c (-1)) c).1 = (d.m_counter s c).1 + 1)
    (hrem : ∀ s, 0 < (d.m_counter s c).1 →
      (d.m_counter (d.m_remover s c ((d.m_counter s c).1 - 1)) c).1 = (d.m_counter s c).1 - 1)
    (hro : ∀ f ∈ fields, f.ReadOnly c)
    (hst : ∀ i : Nat, (i : Int) < n → ∀ f ∈ fields, f.Storable c src i)
    (hkeep : ∀ f ∈ fields, f.KeepsCount d.m_counter c)
    (hfuel : (n - k).natAbs < fuel) :
    d.get ⟨src, c⟩ (-1) OutputBlob.empty = .ok (src, ⟨arrayBytes c fields src n⟩)
    ∧ d.set fuel ⟨dst, c⟩ (-1) (InputBlob.over (arrayBytes c fields src n))
      = .ok (copyItems c fields src n.toNat (d.resized c dst k n),
          ⟨arrayBytes c fields src n, (arrayBytes c fields src n).length⟩)
    ∧ (d.m_counter (d.resized c dst k n) c).1 = n
    ∧ (d.m_counter (copyItems c fields src n.toNat (d.resized c dst k n)) c).1 = n := by
  have hst1 : ∀ i, i < 0 + n.toNat → ∀ f ∈ fields, f.Storable c src i :=
    fun i hi => hst i (by omega)
  obtain ⟨scene1, hgrow, hshrink, hcount⟩ :=
    d.resize_loops c dst k n fuel hk hk32 hn0 hn32 hpure hadd hrem hfuel
  have hcopy := copyItems_keeps_count d.m_counter c fields src hkeep n.toNat (d.resized c dst k n)
  refine ⟨?_, ?_, hcount, by rw [hcopy, hcount]⟩
  · have hcnt : d.m_counter src c = (n, src) := Prod.ext hn (hpure src)
    have hitems := ArrayDescriptor.getItems_fields c src fields hro n.toNat 0
      ⟨int32ToBytes n⟩ hst1
    simp only [Nat.cast_zero] at hitems
    simp [ArrayDescriptor.get, ArrayDescriptor.getCount, hcnt, hchildren, OutputBlob.write,
      OutputBlob.empty, hitems, arrayBytes, List.range_eq_range']
  · have hr := read_at [] (int32ToBytes n)
      ((List.range n.toNat).flatMap (fun i => fields.flatMap (fun f => f.bytes c src i)))
    rw [int32ToBytes_length] at hr
    simp only [List.nil_append, List.length_nil, Nat.zero_add] at hr
    have hitems := ArrayDescriptor.setItems_fields c src fields n.toNat 0 (d.resized c dst k n)
      (int32ToBytes n) [] hst1
    simp only [Nat.cast_zero, List.append_nil, int32ToBytes_length,
      ← List.range_eq_range'] at hitems
    have hlen : (arrayBytes c fields src n).length
        = 4 + ((List.range n.toNat).flatMap
            (fun i => fields.flatMap (fun f => f.bytes c src i))).length := by
      simp only [arrayBytes, List.length_append, int32ToBytes_length]
    simp only [ArrayDescriptor.set, InputBlob.over, arrayBytes, hr,
      bytesToInt32_int32ToBytes n ⟨by omega, hn32⟩, hgrow, hshrink, hchildren, copyItems]
    simp only [arrayBytes] at hlen
    rw [hlen, hitems]
    simp

/-- Instance of C18: the example host with the one item `(5, "Hi")` written out and read
into an empty host, which ends with one item. -/
theorem array_get_set_round_trip_witness :
    Item.descriptor.get ⟨[⟨5, [72, 105]⟩], 0⟩ (-1) OutputBlob.empty
      = .ok ([⟨5, [72, 105]⟩],
          ⟨arrayBytes 0 [.int Item.getId Item.setId, .string ⟨Item.getName, Item.setName⟩]
            [⟨5, [72, 105]⟩] 1⟩)
    ∧ (Item.descriptor.m_counter
        (copyItems 0 [.int Item.getId Item.setId, .string ⟨Item.getName, Item.setName⟩]
          [⟨5, [72, 105]⟩] (1 : Int).toNat (Item.descriptor.resized 0 [] 0 1)) 0).1 = 1 := by
  have h := array_get_set_round_trip 2 Item.descriptor
    [.int Item.getId Item.setId, .string ⟨Item.getName, Item.setName⟩] 0
    [⟨5, [72, 105]⟩] [] 1 0 rfl (by decide) (by decide) (by decide) (by decide) (by decide)
    (fun _ => rfl)
    (by intro s _; simp [Item.descriptor, Item.count, Item.add])
    (by
      intro s hs
      simp only [Item.descriptor, Item.count] at hs ⊢
      have hidx : ¬ ((s.length : Int) - 1 < 0) := by omega
      simp only [Item.remove, hidx, if_false, List.length_eraseIdx]
      split_ifs <;> omega)
    (by
      intro f hf
      simp only [List.mem_cons, List.mem_singleton, List.not_mem_nil, or_false] at hf
      rcases hf with rfl | rfl
      · intro s i; rfl
      · intro s i; rfl)
    (by
      intro i hi f hf
      have hi0 : i = 0 := by omega
      subst hi0
      simp only [List.mem_cons, List.mem_singleton, List.not_mem_nil, or_false] at hf
      rcases hf with rfl | rfl
      · simp [ItemField.Storable, Item.getId, isInt32]
      · simp [ItemField.Storable, Item.getName])
    (by
      intro f hf
      simp only [List.mem_cons, List.mem_singleton, List.not_mem_nil, or_false] at hf
      rcases hf with rfl | rfl
      · intro s i v
        simp [Item.descriptor, Item.count, Item.setId]
      · intro s i v
        simp [Item.descriptor, Item.count, Item.setName])
    (by decide)
  exact ⟨h.1, h.2.2.2⟩


/-! ## Termination of the resize loops -/

/-- The shrink loop never exits when the count read from the blob is negative and the
host count cannot drop below `0`: whatever the iteration budget, it is used up. -/
theorem ArrayDescriptor.shrinkLoop_diverges {S : Type} (d : ArrayDescriptor S) (c : Int)
    (count : Int) (hcount : count < 0) (hnonneg : ∀ s, 0 ≤ (d.m_counter s c).1) (fuel : Nat) :
    ∀ scene : S, d.shrinkLoop c count fuel scene = .error .outOfFuel := by
  induction fuel with
  | zero => intro scene; rfl
  | succ fuel ih =>
    intro scene
    have hgt : (d.m_counter scene c).1 > count := by
      have := hnonneg scene
      omega
    simp [ArrayDescriptor.shrinkLoop, ArrayDescriptor.getCount, hgt, ih]

theorem ArrayDescriptor.setChildren_fuel {S : Type} (c : Int) (i : Int)
    (children : List (IPropertyDescriptor S))
    (hchildren : ∀ child ∈ children, ∀ cmp index stream,
      child.set cmp index stream ≠ .error .outOfFuel) :
    ∀ (scene : S) (stream : InputBlob),
      ArrayDescriptor.setChildren c i children scene stream ≠ .error .outOfFuel := by
  induction children with
  | nil => intro scene stream h; cases h
  | cons child rest ih =>
    intro scene stream
    have hc := hchildren child (by simp) ⟨scene, c⟩ i stream
    simp only [ArrayDescriptor.setChildren]
    cases hset : child.set ⟨scene, c⟩ i stream with
    | error e =>
      intro h
      rw [hset] at hc
      simp only [Except.error.injEq] at h
      exact hc (by rw [h])
    | ok r => exact ih (fun ch hch => hchildren ch (by simp [hch])) r.1 r.2

theorem ArrayDescriptor.setItems_fuel {S : Type} (c : Int)
    (children : List (IPropertyDescriptor S))
    (hchildren : ∀ child ∈ children, ∀ cmp index stream,
      child.set cmp index stream ≠ .error .outOfFuel) (n : Nat) :
    ∀ (i : Int) (scene : S) (stream : InputBlob),
      ArrayDescriptor.setItems children c n i scene stream ≠ .error .outOfFuel := by
  induction n with
  | zero => intro i scene stream h; cases h
  | succ n ih =>
    intro i scene stream
    have hc := ArrayDescriptor.setChildren_fuel c i children hchildren scene stream
    simp only [ArrayDescriptor.setItems]
    cases hset : ArrayDescriptor.setChildren c i children scene stream with
    | error e =>
      intro h
      rw [hset] at hc
      simp only [Except.error.injEq] at h
      exact hc (by rw [h])
    | ok r => exact ih _ r.1 r.2

/-- With enough fuel on a lawful host, `set` is past both `while` loops and its result is
the result of the two `for` loops on the resized host. -/
theorem ArrayDescriptor.set_after_resize {S : Type} (d : ArrayDescriptor S) (c : Int)
    (scene : S) (k t : Int) (fuel : Nat)
    (hk : (d.m_counter scene c).1 = k) (hk32 : isInt32 k) (ht0 : 0 ≤ t)
    (hpure : ∀ s, (d.m_counter s c).2 = s)
    (hadd : ∀ s, (d.m_counter s c).1 < 2147483647 →
      (d.m_counter (d.m_adder s c (-1)) c).1 = (d.m_counter s c).1 + 1)
    (hrem : ∀ s, 0 < (d.m_counter s c).1 →
      (d.m_counter (d.m_remover s c ((d.m_counter s c).1 - 1)) c).1 = (d.m_counter s c).1 - 1)
    (hfuel : (t - k).natAbs < fuel)
    (stream stream1 : InputBlob) (bytes : List Byte)
    (hread : stream.read 4 = some (bytes, stream1)) (hbytes : bytesToInt32 bytes = t) :
    d.set fuel ⟨scene, c⟩ (-1) stream
      = ArrayDescriptor.setItems d.m_children c t.toNat 0 (d.resized c scene k t) stream1 := by
  have ht32 : t < 2147483648 := by
    have h := bytesToInt32_isInt32 bytes
    rw [hbytes] at h
    exact h.2
  obtain ⟨scene1, hgrow, hshrink, _⟩ :=
    d.resize_loops c scene k t fuel hk hk32 ht0 ht32 hpure hadd hrem hfuel
  simp [ArrayDescriptor.set, hread, hbytes, hgrow, hshrink]

/-- C19: on a host whose counter only reads, whose adder (index `-1`) raises and whose
remover (index of the last item, list not empty) lowers the count by one, and whose count
is never negative.  For a count `t ≥ 0` read from the blob and an iteration budget above
`|t - k|`, both `while` loops of `ArrayDescriptor::set` exit, from `k ≤ t` items after
`t - k` adder calls and from `k > t` items after `k - t` remover calls, and `set` itself
returns: its result is the result of the two `for` loops on the resized host, it is the
same for every budget above `|t - k|`, and it is not the out-of-fuel fault unless a child
returns that fault.  For a count `t < 0` the guard `getCount(cmp) > count` of the second
loop holds in every host state, the loop uses up every iteration budget, and so does
`set`. -/
theorem array_set_resize_termination {S : Type} (d : ArrayDescriptor S) (c : Int) (scene : S)
    (k t tneg : Int) (fuel : Nat)
    (hk : (d.m_counter scene c).1 = k) (hk32 : isInt32 k)
    (ht0 : 0 ≤ t) (ht32 : t < 2147483648) (htneg : tneg < 0)
    (hpure : ∀ s, (d.m_counter s c).2 = s)
    (hadd : ∀ s, (d.m_counter s c).1 < 2147483647 →
      (d.m_counter (d.m_adder s c (-1)) c).1 = (d.m_counter s c).1 + 1)
    (hrem : ∀ s, 0 < (d.m_counter s c).1 →
      (d.m_counter (d.m_remover s c ((d.m_counter s c).1 - 1)) c).1 = (d.m_counter s c).1 - 1)
    (hnonneg : ∀ s, 0 ≤ (d.m_counter s c).1)
    (hfuel : (t - k).natAbs < fuel) :
    (k ≤ t →
      d.growLoop c t fuel scene = .ok ((fun s => d.m_adder s c (-1))^[(t - k).toNat] scene)
      ∧ d.shrinkLoop c t fuel ((fun s => d.m_adder s c (-1))^[(t - k).toNat] scene)
        = .ok ((fun s => d.m_adder s c (-1))^[(t - k).toNat] scene))
    ∧ (t < k →
      d.growLoop c t fuel scene = .ok scene
      ∧ d.shrinkLoop c t fuel scene
        = .ok (((List.range (k - t).toNat).map (fun (j : Nat) => k - 1 - (j : Int))).foldl
            (fun s i => d.m_remover s c i) scene)
      ∧ ((List.range (k - t).toNat).map (fun (j : Nat) => k - 1 - (j : Int))).length
        = (k - t).toNat)
    ∧ (∀ (stream stream1 : InputBlob) (bytes : List Byte),
        stream.read 4 = some (bytes, stream1) → bytesToInt32 bytes = t →
        d.set fuel ⟨scene, c⟩ (-1) stream
          = ArrayDescriptor.setItems d.m_children c t.toNat 0 (d.resized c scene k t) stream1
        ∧ (∀ budget : Nat, (t - k).natAbs < budget →
            d.set budget ⟨scene, c⟩ (-1) stream = d.set fuel ⟨scene, c⟩ (-1) stream)
        ∧ ((∀ child ∈ d.m_children, ∀ cmp index st,
              child.set cmp index st ≠ .error .outOfFuel) →
            d.set fuel ⟨scene, c⟩ (-1) stream ≠ .error .outOfFuel))
    ∧ (∀ s, (d.m_counter s c).1 > tneg)
    ∧ (∀ (budget : Nat) (s : S), d.shrinkLoop c tneg budget s = .error .outOfFuel)
    ∧ (∀ (budget : Nat) (s : S) (stream stream1 : InputBlob) (bytes : List Byte),
        stream.read 4 = some (bytes, stream1) → bytesToInt32 bytes = tneg →
        d.set budget ⟨s, c⟩ (-1) stream = .error .outOfFuel) := by
  have hk32' := hk32
  unfold isInt32 at hk32
  obtain ⟨fuel1, rfl⟩ : ∃ f, fuel = f + 1 := ⟨fuel - 1, by omega⟩
  refine ⟨?_, ?_, ?_, ?_, ?_, ?_⟩
  · intro hle
    have hg := d.growLoop_eq c t ht32 hpure hadd (t - k).toNat (fuel1 + 1) scene
      (by rw [hk]; omega) (by omega)
    exact ⟨hg.1, d.shrinkLoop_skip c t hpure fuel1 _ (le_of_eq hg.2)⟩
  · intro hlt
    have hg := d.growLoop_skip c t hpure fuel1 scene (by rw [hk]; omega)
    have hs := d.shrinkLoop_eq c t ht0 hpure hrem (k - t).toNat (fuel1 + 1) scene
      (by rw [hk]; omega) (by rw [hk]; omega) (by omega)
    rw [hk] at hs
    exact ⟨hg, hs.1, by simp⟩
  · intro stream stream1 bytes hread hbytes
    have hset := d.set_after_resize c scene k t (fuel1 + 1) hk hk32' ht0 hpure hadd hrem hfuel
      stream stream1 bytes hread hbytes
    refine ⟨hset, ?_, ?_⟩
    · intro budget hbudget
      rw [hset]
      exact d.set_after_resize c scene k t budget hk hk32' ht0 hpure hadd hrem hbudget
        stream stream1 bytes hread hbytes
    · intro hchildren
      rw [hset]
      exact ArrayDescriptor.setItems_fuel c d.m_children hchildren _ _ _ _
  · intro s
    have := hnonneg s
    omega
  · intro budget s
    exact d.shrinkLoop_diverges c tneg htneg hnonneg budget s
  · intro budget s stream stream1 bytes hread hbytes
    cases budget with
    | zero => simp [ArrayDescriptor.set, hread, ArrayDescriptor.growLoop]
    | succ budget =>
      have hg := d.growLoop_skip c tneg hpure budget s (by have := hnonneg s; omega)
      have hs := d.shrinkLoop_diverges c tneg htneg hnonneg (budget + 1) s
      simp [ArrayDescriptor.set, hread, hbytes, hg, hs]

/-- Instance of C19: the example host with one item.  On a blob whose count is `0` and a
budget of 2 iterations `set` returns, with the item removed and the 4 bytes consumed; on
a blob whose count is `-1` a budget of 1000 iterations does not let the second loop
exit. -/
theorem array_set_resize_termination_witness :
    Item.descriptor.set 2 ⟨[⟨7, []⟩], 0⟩ (-1) (InputBlob.over [0, 0, 0, 0])
      = .ok ([], ⟨[0, 0, 0, 0], 4⟩)
    ∧ Item.descriptor.set 1000 ⟨[⟨7, []⟩], 0⟩ (-1) (InputBlob.over [255, 255, 255, 255])
      = .error .outOfFuel := by
  have h := array_set_resize_termination Item.descriptor 0 [⟨7, []⟩] 1 0 (-1) 2
    (by decide) (by decide) (by decide) (by decide) (by decide) (fun _ => rfl)
    (by intro s _; simp [Item.descriptor, Item.count, Item.add])
    (by
      intro s hs
      simp only [Item.descriptor, Item.count] at hs ⊢
      have hidx : ¬ ((s.length : Int) - 1 < 0) := by omega
      simp only [Item.remove, hidx, if_false, List.length_eraseIdx]
      split_ifs <;> omega)
    (by intro s; simp [Item.descriptor, Item.count])
    (by decide)
  constructor
  · exact (h.2.2.1 (InputBlob.over [0, 0, 0, 0]) ⟨[0, 0, 0, 0], 4⟩ [0, 0, 0, 0]
      (by decide) (by decide)).1.trans rfl
  · exact h.2.2.2.2.2 1000 [⟨7, []⟩] (InputBlob.over [255, 255, 255, 255])
      ⟨[255, 255, 255, 255], 4⟩ [255, 255, 255, 255] (by decide) (by decide)


/-! ## NotificationsImpl: the ids -/

theorem NotificationsImpl.ids_setNotificationTime {F : Type} (id : Int) (time : F)
    (m_items : NotificationsImpl F) :
    (m_items.setNotificationTime id time).ids = m_items.ids := by
  induction m_items with
  | nil => rfl
  | cons item rest ih =>
    simp only [NotificationsImpl.ids] at ih
    by_cases h : item.m_id = id
    · simp [NotificationsImpl.setNotificationTime, NotificationsImpl.ids, h]
    · simp [NotificationsImpl.setNotificationTime, NotificationsImpl.ids, h, ih]

theorem NotificationsImpl.ids_setProgress {F : Type} (id : Int) (value : Int)
    (m_items : NotificationsImpl F) :
    ∀ next, m_items.setProgress id value = .ok next → next.ids = m_items.ids := by
  induction m_items with
  | nil =>
    intro next h
    simp only [NotificationsImpl.setProgress, Except.ok.injEq] at h
    rw [← h]
  | cons item rest ih =>
    intro next h
    by_cases hid : item.m_id = id
    · cases hw : item.m_widget with
      | label text => simp [NotificationsImpl.setProgress, hid, hw] at h
      | progress v text =>
        simp only [NotificationsImpl.setProgress, hid, hw, if_true, Except.ok.injEq] at h
        rw [← h]
        simp [NotificationsImpl.ids, hid]
    · cases hrest : NotificationsImpl.setProgress id value rest with
      | error e => simp [NotificationsImpl.setProgress, hid, hrest] at h
      | ok rest1 =>
        simp only [NotificationsImpl.setProgress, hid, hrest, if_false, Except.ok.injEq] at h
        have := ih rest1 hrest
        rw [← h]
        simp only [NotificationsImpl.ids, List.map_cons] at this ⊢
        rw [this]

theorem NotificationsImpl.ids_update {F : Type} (ops : FloatOps F) (time_delta : F)
    (m_items : NotificationsImpl F) :
    (m_items.update ops time_delta).ids = m_items.ids
    ∨ (m_items.update ops time_delta).ids = m_items.ids.tail := by
  cases m_items with
  | nil => left; rfl
  | cons first rest =>
    by_cases h : ops.ltZero (ops.sub first.m_time time_delta) = true
    · right; simp [NotificationsImpl.update, NotificationsImpl.ids, h]
    · left; simp [NotificationsImpl.update, NotificationsImpl.ids, h]

theorem NotificationsImpl.nextId_eq {F : Type} (m_items : NotificationsImpl F) :
    m_items.nextId = match m_items.ids.getLast? with
      | none => 0
      | some back => wrapInt32 (back + 1) := by
  unfold NotificationsImpl.nextId NotificationsImpl.ids
  rw [List.getLast?_map]
  cases m_items.getLast? <;> rfl

/-- The ids are consecutive, not negative and below `m`. -/
theorem ids_invariant_append (ids : List Int) (m : Nat) (hm : m < 2147483648)
    (hchain : List.Chain' (fun a b : Int => b = a + 1) ids)
    (hrange : ∀ i ∈ ids, 0 ≤ i ∧ i < m) :
    List.Chain' (fun a b : Int => b = a + 1)
        (ids ++ [match ids.getLast? with
          | none => 0
          | some back => wrapInt32 (back + 1)])
    ∧ ∀ i : Int, i ∈ ids ++ [match ids.getLast? with
          | none => 0
          | some back => wrapInt32 (back + 1)] → 0 ≤ i ∧ i < (m : Int) + 1 := by
  cases hlast : ids.getLast? with
  | none =>
    have hnil : ids = [] := List.getLast?_eq_none_iff.mp hlast
    subst hnil
    simp
  | some back =>
    have hmem : back ∈ ids := List.mem_of_getLast?_eq_some hlast
    have hb := hrange back hmem
    have hwrap : wrapInt32 (back + 1) = back + 1 :=
      wrapInt32_of_isInt32 _ ⟨by omega, by omega⟩
    simp only [hwrap]
    constructor
    · refine List.Chain'.append hchain (List.chain'_singleton _) ?_
      intro x hx y hy
      rw [hlast] at hx
      simp only [Option.mem_def, Option.some.injEq] at hx
      simp only [List.head?_cons, Option.mem_def, Option.some.injEq] at hy
      rw [← hy, ← hx]
    · intro i hi
      rw [List.mem_append, List.mem_singleton] at hi
      rcases hi with hi | hi
      · have := hrange i hi
        omega
      · omega

theorem ids_invariant_tail (ids : List Int) (m : Int)
    (hchain : List.Chain' (fun a b : Int => b = a + 1) ids)
    (hrange : ∀ i : Int, i ∈ ids → 0 ≤ i ∧ i < m) :
    List.Chain' (fun a b : Int => b = a + 1) ids.tail
    ∧ ∀ i : Int, i ∈ ids.tail → 0 ≤ i ∧ i < m :=
  ⟨hchain.tail, fun i hi => hrange i (List.mem_of_mem_tail hi)⟩

/-- One call keeps the ids consecutive and in range, as long as fewer than `2^31`
notifications were shown before it. -/
theorem NotificationsImpl.call_invariant {F : Type} (ops : FloatOps F)
    (c : NotificationCall F) (m_items next : NotificationsImpl F) (m : Nat)
    (hm : m + (if c.isShow then 1 else 0) ≤ 2147483648)
    (hchain : List.Chain' (fun a b : Int => b = a + 1) m_items.ids)
    (hrange : ∀ i : Int, i ∈ m_items.ids → 0 ≤ i ∧ i < (m : Int))
    (hcall : m_items.call ops c = .ok next) :
    List.Chain' (fun a b : Int => b = a + 1) next.ids
    ∧ ∀ i : Int, i ∈ next.ids →
        0 ≤ i ∧ i < ((m + (if c.isShow then 1 else 0) : Nat) : Int) := by
  cases c with
  | showNotification text =>
    simp only [NotificationCall.isShow, if_true] at hm ⊢
    simp only [NotificationsImpl.call, Except.ok.injEq] at hcall
    have h := ids_invariant_append m_items.ids m (by omega) hchain hrange
    have hids : next.ids = m_items.ids ++ [match m_items.ids.getLast? with
        | none => 0
        | some back => wrapInt32 (back + 1)] := by
      rw [← hcall, ← NotificationsImpl.nextId_eq]
      simp [NotificationsImpl.showNotification, NotificationsImpl.ids]
    rw [hids]
    refine ⟨h.1, fun i hi => ?_⟩
    have := h.2 i hi
    push_cast
    omega
  | showProgressNotification text =>
    simp only [NotificationCall.isShow, if_true] at hm ⊢
    simp only [NotificationsImpl.call, Except.ok.injEq] at hcall
    have h := ids_invariant_append m_items.ids m (by omega) hchain hrange
    have hids : next.ids = m_items.ids ++ [match m_items.ids.getLast? with
        | none => 0
        | some back => wrapInt32 (back + 1)] := by
      rw [← hcall, ← NotificationsImpl.nextId_eq]
      simp [NotificationsImpl.showProgressNotification, NotificationsImpl.ids]
    rw [hids]
    refine ⟨h.1, fun i hi => ?_⟩
    have := h.2 i hi
    push_cast
    omega
  | update time_delta =>
    simp only [NotificationCall.isShow, Bool.false_eq_true, if_false, Nat.add_zero] at hm ⊢
    simp only [NotificationsImpl.call, Except.ok.injEq] at hcall
    rw [← hcall]
    rcases m_items.ids_update ops time_delta with h | h
    · rw [h]; exact ⟨hchain, hrange⟩
    · rw [h]; exact ids_invariant_tail _ _ hchain hrange
  | setProgress id value =>
    simp only [NotificationCall.isShow, Bool.false_eq_true, if_false, Nat.add_zero] at hm ⊢
    simp only [NotificationsImpl.call] at hcall
    rw [m_items.ids_setProgress id value next hcall]
    exact ⟨hchain, hrange⟩
  | setNotificationTime id time =>
    simp only [NotificationCall.isShow, Bool.false_eq_true, if_false, Nat.add_zero] at hm ⊢
    simp only [NotificationsImpl.call, Except.ok.injEq] at hcall
    rw [← hcall, m_items.ids_setNotificationTime id time]
    exact ⟨hchain, hrange⟩

/-- A sequence of calls keeps the ids consecutive and in range, as long as it brings the
number of notifications shown to at most `2^31`. -/
theorem NotificationsImpl.run_invariant {F : Type} (ops : FloatOps F)
    (calls : List (NotificationCall F)) :
    ∀ (m_items final : NotificationsImpl F) (m : Nat),
      m + calls.countP NotificationCall.isShow ≤ 2147483648 →
      List.Chain' (fun a b : Int => b = a + 1) m_items.ids →
      (∀ i : Int, i ∈ m_items.ids → 0 ≤ i ∧ i < (m : Int)) →
      NotificationsImpl.run ops calls m_items = .ok final →
      List.Chain' (fun a b : Int => b = a + 1) final.ids
      ∧ ∀ i : Int, i ∈ final.ids →
          0 ≤ i ∧ i < ((m + calls.countP NotificationCall.isShow : Nat) : Int) := by
  induction calls with
  | nil =>
    intro m_items final m _ hchain hrange hrun
    simp only [NotificationsImpl.run, Except.ok.injEq] at hrun
    rw [← hrun]
    exact ⟨hchain, by simpa using hrange⟩
  | cons c rest ih =>
    intro m_items final m hm hchain hrange hrun
    rw [List.countP_cons] at hm ⊢
    cases hcall : m_items.call ops c with
    | error e => simp [NotificationsImpl.run, hcall] at hrun
    | ok next =>
      simp only [NotificationsImpl.run, hcall] at hrun
      have h1 := NotificationsImpl.call_invariant ops c m_items next m (by omega) hchain hrange
        hcall
      have h2 := ih next final (m + (if c.isShow then 1 else 0)) (by omega) h1.1 h1.2 hrun
      refine ⟨h2.1, fun i hi => ?_⟩
      have := h2.2 i hi
      have e : m + (List.countP NotificationCall.isShow rest + if c.isShow = true then 1 else 0)
          = m + (if c.isShow = true then 1 else 0) + List.countP NotificationCall.isShow rest := by
        omega
      rw [e]
      exact this

theorem NotificationsImpl.setNotificationTime_frame {F : Type} (id : Int) (time : F)
    (m_items : NotificationsImpl F) :
    (m_items.setNotificationTime id time).map (fun x => if x.m_id = id then none else some x)
      = m_items.map (fun x => if x.m_id = id then none else some x) := by
  induction m_items with
  | nil => rfl
  | cons item rest ih =>
    by_cases h : item.m_id = id
    · simp [NotificationsImpl.setNotificationTime, h]
    · simp only [NotificationsImpl.setNotificationTime, h, if_false, List.map_cons, ih]

theorem NotificationsImpl.setProgress_frame {F : Type} (id : Int) (value : Int)
    (m_items : NotificationsImpl F) :
    ∀ next, m_items.setProgress id value = .ok next →
      next.map (fun x => if x.m_id = id then none else some x)
        = m_items.map (fun x => if x.m_id = id then none else some x) := by
  induction m_items with
  | nil =>
    intro next h
    simp only [NotificationsImpl.setProgress, Except.ok.injEq] at h
    rw [← h]
  | cons item rest ih =>
    intro next h
    by_cases hid : item.m_id = id
    · cases hw : item.m_widget with
      | label text => simp [NotificationsImpl.setProgress, hid, hw] at h
      | progress v text =>
        simp only [NotificationsImpl.setProgress, hid, hw, if_true, Except.ok.injEq] at h
        rw [← h]
        simp [hid]
    · cases hrest : NotificationsImpl.setProgress id value rest with
      | error e => simp [NotificationsImpl.setProgress, hid, hrest] at h
      | ok rest1 =>
        simp only [NotificationsImpl.setProgress, hid, hrest, if_false, Except.ok.injEq] at h
        rw [← h]
        simp only [List.map_cons, ih rest1 hrest]

/-- C20 (amended): after any sequence of `showNotification`, `showProgressNotification`,
`update`, `setProgress` and `setNotificationTime` calls that starts from the empty list,
returns normally and holds at most `2^31` show calls, the ids of `m_items` are consecutive
from front to back (`m_items[i+1].m_id = m_items[i].m_id + 1`), hence pairwise distinct,
so that any id is the id of at most one item; `setNotificationTime(id, ..)` and
`setProgress(id, ..)` leave every item with another id as it is and where it is; and
`showProgressNotification` appends one item and returns the id of that item. -/
theorem notification_ids_consecutive {F : Type} (ops : FloatOps F)
    (calls : List (NotificationCall F)) (m_items : NotificationsImpl F)
    (hshows : calls.countP NotificationCall.isShow ≤ 2147483648)
    (hrun : NotificationsImpl.run ops calls [] = .ok m_items) :
    m_items.Consecutive
    ∧ m_items.ids.Nodup
    ∧ (∀ id : Int, m_items.ids.count id ≤ 1)
    ∧ (∀ (id : Int) (time : F),
        (m_items.setNotificationTime id time).map (fun x => if x.m_id = id then none else some x)
          = m_items.map (fun x => if x.m_id = id then none else some x))
    ∧ (∀ (id value : Int) (next : NotificationsImpl F),
        m_items.setProgress id value = .ok next →
        next.map (fun x => if x.m_id = id then none else some x)
          = m_items.map (fun x => if x.m_id = id then none else some x))
    ∧ (∀ text : String,
        (m_items.showProgressNotification ops text).2
          = m_items ++ [⟨.progress 0 text, ops.FLT_MAX,
              (m_items.showProgressNotification ops text).1⟩]) := by
  have hinv := NotificationsImpl.run_invariant ops calls [] m_items 0 (by omega)
    List.chain'_nil (by intro i hi; simp [NotificationsImpl.ids] at hi) hrun
  have hchain : m_items.Consecutive := by
    have h := hinv.1
    unfold NotificationsImpl.ids at h
    rw [List.chain'_map] at h
    exact h
  have hlt : List.Chain' (fun a b : Int => a < b) m_items.ids :=
    hinv.1.imp (fun {a b} (h : b = a + 1) => by omega)
  have hnodup : m_items.ids.Nodup :=
    (List.chain'_iff_pairwise.mp hlt).imp (fun {a b} (h : a < b) => ne_of_lt h)
  exact ⟨hchain, hnodup, fun id => List.nodup_iff_count_le_one.mp hnodup id,
    fun id time => m_items.setNotificationTime_frame id time,
    fun id value next h => m_items.setProgress_frame id value next h, fun _ => rfl⟩

/-- Instance of C20 (amended): two notifications shown, the first one expired, the second
one given a progress value and a time. -/
theorem notification_ids_consecutive_witness :
    NotificationsImpl.Consecutive ([⟨.progress 50 "b", 5, 1⟩] : NotificationsImpl Int) :=
  (notification_ids_consecutive FloatOps.integers
    [.showNotification "a", .showProgressNotification "b", .update 3, .setProgress 1 50,
      .setNotificationTime 1 5]
    [⟨.progress 50 "b", 5, 1⟩] (by decide) rfl).1

theorem NotificationsImpl.run_append {F : Type} (ops : FloatOps F)
    (front back : List (NotificationCall F)) :
    ∀ m_items : NotificationsImpl F,
      NotificationsImpl.run ops (front ++ back) m_items
        = match NotificationsImpl.run ops front m_items with
          | .error e => .error e
          | .ok next => NotificationsImpl.run ops back next := by
  induction front with
  | nil => intro m_items; rfl
  | cons c rest ih =>
    intro m_items
    simp only [List.cons_append, NotificationsImpl.run]
    cases m_items.call ops c with
    | error e => rfl
    | ok next => exact ih next

/-- The id the next notification gets after `n` plain notifications were shown one after
the other from the empty list, while all of them are still in the list. -/
theorem NotificationsImpl.nextId_after_shows {F : Type} (ops : FloatOps F) (n : Nat) :
    NotificationsImpl.nextId
        ((List.range n).map (fun (i : Nat) =>
          (⟨.label "", ops.DISPLAY_TIME, (i : Int)⟩ : Notification F)))
      = wrapInt32 (n : Int) := by
  cases n with
  | zero => rfl
  | succ k =>
    simp [NotificationsImpl.nextId, List.range_succ]

/-- The state after `n ≤ 2^31` calls of `showNotification("")` from the empty list: the
ids are `0, 1, ..., n - 1`. -/
theorem NotificationsImpl.run_shows {F : Type} (ops : FloatOps F) (n : Nat)
    (hn : n ≤ 2147483648) :
    NotificationsImpl.run ops (List.replicate n (.showNotification "")) []
      = .ok ((List.range n).map (fun (i : Nat) =>
          (⟨.label "", ops.DISPLAY_TIME, (i : Int)⟩ : Notification F))) := by
  induction n with
  | zero => rfl
  | succ k ih =>
    have hwrap : wrapInt32 (k : Int) = (k : Int) := wrapInt32_of_isInt32 _ ⟨by omega, by omega⟩
    rw [List.replicate_succ', NotificationsImpl.run_append, ih (by omega)]
    simp only [NotificationsImpl.run, NotificationsImpl.call,
      NotificationsImpl.showNotification, NotificationsImpl.nextId_after_shows, hwrap,
      List.range_succ, List.map_append, List.map_cons, List.map_nil]

/-- The call of `showNotification` that follows `n = 2^31` others: the id wraps around. -/
theorem NotificationsImpl.shows_overflow {F : Type} (ops : FloatOps F) (n : Nat)
    (hn : n = 2147483648) :
    ∃ m_items : NotificationsImpl F,
      NotificationsImpl.run ops
          (List.replicate n (.showNotification "") ++ [.showNotification ""]) []
        = .ok m_items
      ∧ ¬ m_items.Consecutive := by
  obtain ⟨k, hk⟩ : ∃ k, n = k + 1 := ⟨n - 1, by omega⟩
  refine ⟨(List.range n).map (fun (i : Nat) =>
      (⟨.label "", ops.DISPLAY_TIME, (i : Int)⟩ : Notification F))
      ++ [⟨.label "", ops.DISPLAY_TIME, wrapInt32 (n : Int)⟩], ?_, ?_⟩
  · rw [NotificationsImpl.run_append, NotificationsImpl.run_shows ops n (by omega)]
    simp only [NotificationsImpl.run, NotificationsImpl.call,
      NotificationsImpl.showNotification, NotificationsImpl.nextId_after_shows]
  · intro hchain
    unfold NotificationsImpl.Consecutive at hchain
    rw [hk, List.range_succ, List.map_append, List.append_assoc] at hchain
    have hpair := hchain.right_of_append
    simp only [List.map_cons, List.map_nil, List.singleton_append, List.chain'_cons,
      List.chain'_singleton, and_true] at hpair
    have hw : wrapInt32 ((k : Int) + 1) = -2147483648 := by
      unfold wrapInt32
      omega
    push_cast at hpair
    rw [hw] at hpair
    omega

/-- C20 (counterexample): starting from the empty list, `2^31` calls of
`showNotification` followed by one more leave a list whose ids are not consecutive: the
last two ids are `2147483647` and `-2147483648`. -/
theorem notification_ids_wrap_around :
    ∃ m_items : NotificationsImpl Int,
      NotificationsImpl.run FloatOps.integers
          (List.replicate 2147483648 (.showNotification "") ++ [.showNotification ""]) []
        = .ok m_items
      ∧ ¬ m_items.Consecutive :=
  NotificationsImpl.shows_overflow FloatOps.integers 2147483648 rfl


/-! ## NotificationsImpl: `update` -/

/-- C21: on a list with first item `first` and remaining items `rest`,
`NotificationsImpl::update(time_delta)` subtracts `time_delta` from the time of `first`
and removes `first` exactly when the result is below `0`; otherwise `first` stays in
front with the new time and its widget and id unchanged.  The items of `rest` follow
unchanged and in the same order, at most one item is gone after the call, and on the
empty list `update` changes nothing. -/
theorem update_changes_only_first {F : Type} (ops : FloatOps F) (time_delta : F)
    (first : Notification F) (rest : NotificationsImpl F) :
    NotificationsImpl.update ops time_delta (first :: rest)
      = (if ops.ltZero (ops.sub first.m_time time_delta) then []
          else [⟨first.m_widget, ops.sub first.m_time time_delta, first.m_id⟩]) ++ rest
    ∧ (NotificationsImpl.update ops time_delta (first :: rest) = rest
        ↔ ops.ltZero (ops.sub first.m_time time_delta) = true)
    ∧ ((NotificationsImpl.update ops time_delta (first :: rest)).length = rest.length
        ∨ (NotificationsImpl.update ops time_delta (first :: rest)).length = rest.length + 1)
    ∧ (NotificationsImpl.update ops time_delta (first :: rest)).drop
        ((NotificationsImpl.update ops time_delta (first :: rest)).length - rest.length) = rest
    ∧ NotificationsImpl.update ops time_delta ([] : NotificationsImpl F) = [] := by
  by_cases h : ops.ltZero (ops.sub first.m_time time_delta) = true
  · refine ⟨?_, ?_, ?_, ?_, rfl⟩
    · simp [NotificationsImpl.update, h]
    · simp [NotificationsImpl.update, h]
    · left; simp [NotificationsImpl.update, h]
    · simp [NotificationsImpl.update, h]
  · refine ⟨?_, ?_, ?_, ?_, rfl⟩
    · simp [NotificationsImpl.update, h]
    · constructor
      · intro heq
        have hlen := congrArg List.length heq
        simp [NotificationsImpl.update, h] at hlen
      · intro hlt
        exact absurd hlt h
    · right; simp [NotificationsImpl.update, h]
    · simp [NotificationsImpl.update, h]

/-- Instance of C21: with times held as integers, a notification with 2 units left and a
progress notification behind it; `update(3)` removes the first, `update(1)` keeps it with
1 unit left. -/
theorem update_changes_only_first_witness :
    NotificationsImpl.update FloatOps.integers 3
        [⟨.label "a", 2, 0⟩, ⟨.progress 0 "b", 9, 1⟩]
      = (if FloatOps.integers.ltZero (FloatOps.integers.sub 2 3) then []
          else [⟨.label "a", FloatOps.integers.sub 2 3, 0⟩]) ++ [⟨.progress 0 "b", 9, 1⟩]
    ∧ (NotificationsImpl.update FloatOps.integers 1
        [⟨.label "a", 2, 0⟩, ⟨.progress 0 "b", 9, 1⟩]
          = [⟨.progress 0 "b", 9, 1⟩]
        ↔ FloatOps.integers.ltZero (FloatOps.integers.sub 2 1) = true) :=
  ⟨(update_changes_only_first FloatOps.integers 3 ⟨.label "a", 2, 0⟩
      [⟨.progress 0 "b", 9, 1⟩]).1,
    (update_changes_only_first FloatOps.integers 1 ⟨.label "a", 2, 0⟩
      [⟨.progress 0 "b", 9, 1⟩]).2.1⟩


/-! ## The tracked embedding agrees with the plain one -/

theorem bool_outcome_result {S : Type} (d : BoolPropertyDescriptor S) (cmp : ComponentUID S)
    (index : Int) (out : OutputBlob) (stream : InputBlob) :
    (d.getOutcome cmp index out).result = d.get cmp index out
    ∧ (d.setOutcome cmp index stream).result = d.set cmp index stream := by
  constructor
  · unfold BoolPropertyDescriptor.getOutcome BoolPropertyDescriptor.get
    split <;> rfl
  · unfold BoolPropertyDescriptor.setOutcome BoolPropertyDescriptor.set
    split
    · rfl
    · cases stream.read 1 <;> rfl

theorem vec2_outcome_result {S : Type} (d : Vec2PropertyDescriptor S) (cmp : ComponentUID S)
    (index : Int) (out : OutputBlob) (stream : InputBlob) :
    (d.getOutcome cmp index out).result = d.get cmp index out
    ∧ (d.setOutcome cmp index stream).result = d.set cmp index stream := by
  constructor
  · unfold Vec2PropertyDescriptor.getOutcome Vec2PropertyDescriptor.get
    split <;> rfl
  · unfold Vec2PropertyDescriptor.setOutcome Vec2PropertyDescriptor.set
    split
    · rfl
    · cases stream.read 8 <;> rfl

theorem vec3_outcome_result {S : Type} (d : Vec3PropertyDescriptor S) (cmp : ComponentUID S)
    (index : Int) (out : OutputBlob) (stream : InputBlob) :
    (d.getOutcome cmp index out).result = d.get cmp index out
    ∧ (d.setOutcome cmp index stream).result = d.set cmp index stream := by
  constructor
  · unfold Vec3PropertyDescriptor.getOutcome Vec3PropertyDescriptor.get
    split <;> rfl
  · unfold Vec3PropertyDescriptor.setOutcome Vec3PropertyDescriptor.set
    split
    · rfl
    · cases stream.read 12 <;> rfl

theorem vec4_outcome_result {S : Type} (d : Vec4PropertyDescriptor S) (cmp : ComponentUID S)
    (index : Int) (out : OutputBlob) (stream : InputBlob) :
    (d.getOutcome cmp index out).result = d.get cmp index out
    ∧ (d.setOutcome cmp index stream).result = d.set cmp index stream := by
  constructor
  · unfold Vec4PropertyDescriptor.getOutcome Vec4PropertyDescriptor.get
    split <;> rfl
  · unfold Vec4PropertyDescriptor.setOutcome Vec4PropertyDescriptor.set
    split
    · rfl
    · cases stream.read 16 <;> rfl

theorem color_outcome_result {S : Type} (d : ColorPropertyDescriptor S) (cmp : ComponentUID S)
    (index : Int) (out : OutputBlob) (stream : InputBlob) :
    (d.getOutcome cmp index out).result = d.get cmp index out
    ∧ (d.setOutcome cmp index stream).result = d.set cmp index stream := by
  constructor
  · unfold ColorPropertyDescriptor.getOutcome ColorPropertyDescriptor.get
    split <;> rfl
  · unfold ColorPropertyDescriptor.setOutcome ColorPropertyDescriptor.set
    split
    · rfl
    · cases stream.read 12 <;> rfl

theorem enum_outcome_result {S : Type} (d : EnumPropertyDescriptor S) (cmp : ComponentUID S)
    (index : Int) (out : OutputBlob) (stream : InputBlob) :
    (d.getOutcome cmp index out).result = d.get cmp index out
    ∧ (d.setOutcome cmp index stream).result = d.set cmp index stream := by
  constructor
  · unfold EnumPropertyDescriptor.getOutcome EnumPropertyDescriptor.get
    split <;> rfl
  · unfold EnumPropertyDescriptor.setOutcome EnumPropertyDescriptor.set
    split
    · rfl
    · cases stream.read 4 <;> rfl

theorem readCharsAt_result (room : Nat) :
    ∀ (tmp : List Byte) (stream : InputBlob),
      readChars room tmp stream
        = match readCharsAt room tmp stream with
          | .error (f, _) => .error f
          | .ok r => .ok r := by
  induction room with
  | zero =>
    intro tmp stream
    rw [readChars, readCharsAt]
    cases stream.read 1 <;> rfl
  | succ room ih =>
    intro tmp stream
    rw [readChars, readCharsAt]
    cases hr : stream.read 1 with
    | none => rfl
    | some r =>
      obtain ⟨bytes, stream1⟩ := r
      simp only []
      split
      · exact ih _ _
      · rfl

theorem string_outcome_result {S : Type} (d : StringPropertyDescriptor S)
    (cmp : ComponentUID S) (index : Int) (out : OutputBlob) (stream : InputBlob) :
    (d.getOutcome cmp index out).result = d.get cmp index out
    ∧ (d.setOutcome cmp index stream).result = d.set cmp index stream := by
  constructor
  · unfold StringPropertyDescriptor.getOutcome StringPropertyDescriptor.get
    split <;> rfl
  · unfold StringPropertyDescriptor.setOutcome StringPropertyDescriptor.set
    split
    · rfl
    · rw [readCharsAt_result]
      cases readCharsAt MAX_STRING_SIZE [] stream with
      | error e => rfl
      | ok r =>
        obtain ⟨tmp, stream1⟩ := r
        simp only []
        cases cstring tmp <;> rfl

theorem SampledFunctionDescriptor.setLoopOutcome_result {S : Type}
    (d : SampledFunctionDescriptor S) (cmpIndex : Int) (n : Nat) :
    ∀ (i : Int) (scene : S) (stream : InputBlob),
      (d.setLoopOutcome cmpIndex n i scene stream).result
        = d.setLoop cmpIndex n i scene stream := by
  induction n with
  | zero => intro i scene stream; rfl
  | succ n ih =>
    intro i scene stream
    simp only [SampledFunctionDescriptor.setLoopOutcome, SampledFunctionDescriptor.setLoop]
    cases stream.read 4 with
    | none => rfl
    | some r => exact ih _ _ _

theorem sampled_outcome_result {S : Type} (d : SampledFunctionDescriptor S)
    (cmp : ComponentUID S) (index : Int) (out : OutputBlob) (stream : InputBlob) :
    (d.getOutcome cmp index out).result = d.get cmp index out
    ∧ (d.setOutcome cmp index stream).result = d.set cmp index stream := by
  constructor
  · unfold SampledFunctionDescriptor.getOutcome SampledFunctionDescriptor.get
    split <;> rfl
  · unfold SampledFunctionDescriptor.setOutcome SampledFunctionDescriptor.set
    split
    · rfl
    · exact d.setLoopOutcome_result _ _ _ _ _

theorem ArrayDescriptor.growLoopOutcome_result {S : Type} (d : ArrayDescriptor S) (c : Int)
    (count : Int) (stream : InputBlob) (fuel : Nat) :
    ∀ scene : S,
      (match d.growLoop c count fuel scene with
        | .error e => ∃ s, d.growLoopOutcome c count stream fuel scene = .fault e s stream
        | .ok s => d.growLoopOutcome c count stream fuel scene = .done s stream) := by
  induction fuel with
  | zero => intro scene; exact ⟨scene, rfl⟩
  | succ fuel ih =>
    intro scene
    simp only [ArrayDescriptor.growLoop, ArrayDescriptor.growLoopOutcome]
    by_cases h : (d.getCount ⟨scene, c⟩).1 < count
    · simp only [h, if_true]
      exact ih _
    · simp only [h, if_false]

theorem ArrayDescriptor.shrinkLoopOutcome_result {S : Type} (d : ArrayDescriptor S) (c : Int)
    (count : Int) (stream : InputBlob) (fuel : Nat) :
    ∀ scene : S,
      (match d.shrinkLoop c count fuel scene with
        | .error e => ∃ s, d.shrinkLoopOutcome c count stream fuel scene = .fault e s stream
        | .ok s => d.shrinkLoopOutcome c count stream fuel scene = .done s stream) := by
  induction fuel with
  | zero => intro scene; exact ⟨scene, rfl⟩
  | succ fuel ih =>
    intro scene
    simp only [ArrayDescriptor.shrinkLoop, ArrayDescriptor.shrinkLoopOutcome]
    by_cases h : (d.getCount ⟨scene, c⟩).1 > count
    · simp only [h, if_true]
      exact ih _
    · simp only [h, if_false]

theorem ArrayDescriptor.setChildrenOutcome_result {S : Type} (c : Int) (i : Int)
    (children : List (IPropertyDescriptorOutcome S)) :
    ∀ (scene : S) (stream : InputBlob),
      (ArrayDescriptor.setChildrenOutcome c i children scene stream).result
        = ArrayDescriptor.setChildren c i
            (children.map IPropertyDescriptorOutcome.toBase) scene stream := by
  induction children with
  | nil => intro scene stream; rfl
  | cons child rest ih =>
    intro scene stream
    simp only [ArrayDescriptor.setChildrenOutcome, ArrayDescriptor.setChildren, List.map_cons,
      IPropertyDescriptorOutcome.toBase]
    cases child.set ⟨scene, c⟩ i stream with
    | fault f s1 st1 => rfl
    | done s1 st1 => exact ih s1 st1

theorem ArrayDescriptor.setItemsOutcome_result {S : Type} (c : Int)
    (children : List (IPropertyDescriptorOutcome S)) (n : Nat) :
    ∀ (i : Int) (scene : S) (stream : InputBlob),
      (ArrayDescriptor.setItemsOutcome children c n i scene stream).result
        = ArrayDescriptor.setItems (children.map IPropertyDescriptorOutcome.toBase) c n i
            scene stream := by
  induction n with
  | zero => intro i scene stream; rfl
  | succ n ih =>
    intro i scene stream
    simp only [ArrayDescriptor.setItemsOutcome, ArrayDescriptor.setItems,
      ← ArrayDescriptor.setChildrenOutcome_result]
    cases ArrayDescriptor.setChildrenOutcome c i children scene stream with
    | fault f s1 st1 => rfl
    | done s1 st1 => exact ih _ s1 st1

theorem ArrayDescriptor.getChildrenOutcome_result {S : Type} (c : Int) (i : Int)
    (children : List (IPropertyDescriptorOutcome S)) :
    ∀ (scene : S) (stream : OutputBlob),
      (ArrayDescriptor.getChildrenOutcome c i children scene stream).result
        = ArrayDescriptor.getChildren c i
            (children.map IPropertyDescriptorOutcome.toBase) scene stream := by
  induction children with
  | nil => intro scene stream; rfl
  | cons child rest ih =>
    intro scene stream
    simp only [ArrayDescriptor.getChildrenOutcome, ArrayDescriptor.getChildren, List.map_cons,
      IPropertyDescriptorOutcome.toBase]
    cases child.get ⟨scene, c⟩ i stream with
    | fault f s1 st1 => rfl
    | done s1 st1 => exact ih s1 st1

theorem ArrayDescriptor.getItemsOutcome_result {S : Type} (c : Int)
    (children : List (IPropertyDescriptorOutcome S)) (n : Nat) :
    ∀ (i : Int) (scene : S) (stream : OutputBlob),
      (ArrayDescriptor.getItemsOutcome children c n i scene stream).result
        = ArrayDescriptor.getItems (children.map IPropertyDescriptorOutcome.toBase) c n i
            scene stream := by
  induction n with
  | zero => intro i scene stream; rfl
  | succ n ih =>
    intro i scene stream
    simp only [ArrayDescriptor.getItemsOutcome, ArrayDescriptor.getItems,
      ← ArrayDescriptor.getChildrenOutcome_result]
    cases ArrayDescriptor.getChildrenOutcome c i children scene stream with
    | fault f s1 st1 => rfl
    | done s1 st1 => exact ih _ s1 st1

/-- The tracked `ArrayDescriptor::get` and `set` have the results of the plain ones, for
a descriptor whose children are the given ones with their state forgotten. -/
theorem array_outcome_result {S : Type} (fuel : Nat) (d : ArrayDescriptor S)
    (children : List (IPropertyDescriptorOutcome S))
    (hchildren : d.m_children = children.map IPropertyDescriptorOutcome.toBase)
    (cmp : ComponentUID S) (index : Int) (out : OutputBlob) (stream : InputBlob) :
    (d.getOutcome children cmp index out).result = d.get cmp index out
    ∧ (d.setOutcome fuel children cmp index stream).result = d.set fuel cmp index stream := by
  constructor
  · unfold ArrayDescriptor.getOutcome ArrayDescriptor.get
    split
    · rfl
    · rw [hchildren]
      exact ArrayDescriptor.getItemsOutcome_result _ _ _ _ _ _
  · unfold ArrayDescriptor.setOutcome ArrayDescriptor.set
    split
    · rfl
    · cases stream.read 4 with
      | none => rfl
      | some r =>
        obtain ⟨bytes, stream1⟩ := r
        simp only []
        have hg := d.growLoopOutcome_result cmp.index (bytesToInt32 bytes) stream1 fuel cmp.scene
        cases hgl : d.growLoop cmp.index (bytesToInt32 bytes) fuel cmp.scene with
        | error e =>
          rw [hgl] at hg
          obtain ⟨s, hs⟩ := hg
          simp only [hs]
          rfl
        | ok scene1 =>
          rw [hgl] at hg
          simp only [hg]
          have hsh := d.shrinkLoopOutcome_result cmp.index (bytesToInt32 bytes) stream1 fuel scene1
          cases hsl : d.shrinkLoop cmp.index (bytesToInt32 bytes) fuel scene1 with
          | error e =>
            rw [hsl] at hsh
            obtain ⟨s, hs⟩ := hsh
            simp only [hs]
            rfl
          | ok scene2 =>
            rw [hsl] at hsh
            simp only [hsh]
            rw [hchildren]
            exact ArrayDescriptor.setItemsOutcome_result _ _ _ _ _ _


theorem decimal_outcome_result {S : Type} (d : DecimalPropertyDescriptor S)
    (cmp : ComponentUID S) (index : Int) (out : OutputBlob) (stream : InputBlob) :
    (d.getOutcome cmp index out).result = d.get cmp index out
    ∧ (d.setOutcome cmp index stream).result = d.set cmp index stream := by
  constructor
  · unfold DecimalPropertyDescriptor.getOutcome DecimalPropertyDescriptor.get
    by_cases h : index ≥ 0
    · simp only [h, if_true]
      cases d.m_array_getter <;> rfl
    · simp only [h, if_false]
      cases d.m_getter <;> rfl
  · unfold DecimalPropertyDescriptor.setOutcome DecimalPropertyDescriptor.set
    cases stream.read 4 with
    | none => rfl
    | some r =>
      obtain ⟨bytes, stream1⟩ := r
      by_cases h : index ≥ 0
      · simp only [h, if_true]
        cases d.m_array_setter <;> rfl
      · simp only [h, if_false]
        cases d.m_setter <;> rfl

end Lumix
